/-
Verification development for the Outline document synchronization engine
(`src/outline_sync.py`, with the backup routine of `src/outline_consolidate.py`).

The Python code is shallowly embedded over `Str := List Char`:

* the template renderers `generate_tour_document` and `generate_reference_header`
  are translated line by line (the `datetime.now()` timestamp of the footer is
  passed in as an explicit `now` argument, which is the single non-deterministic
  input of the renderer);
* the regex-driven extractor `parse_outline_document` is translated into
  executable scanners that implement the exact matching semantics of the
  regexes used by the source (`finditer` with lazy bodies and backreferenced
  close markers, `re.search` with greedy/backtracking `\s*`, `re.sub`);
* the database writes (`update_tour_from_outline`,
  `update_itinerary_from_outline`) become pure state transformers, and
  `push_tour_to_outline` becomes a function from its inputs to the outcome
  together with the list of remote API calls it performs.
-/
import Mathlib

set_option maxRecDepth 100000

namespace OutlineSync

/-- Document text, modelled as a list of characters. -/
abbrev Str := List Char

/-- Coerce a Lean string literal to `Str`. -/
def txt (u : String) : Str := u.data

/-- Python `str` whitespace (the characters stripped by `str.strip()`). -/
def pyWS (c : Char) : Bool :=
  c == ' ' || c == '\t' || c == '\n' || c == '\r' || c == '\x0b' || c == '\x0c'

/-- Python `str.lstrip()`. -/
def lstrip (v : Str) : Str := v.dropWhile pyWS

/-- Python `str.rstrip()`. -/
def rstrip (v : Str) : Str := (v.reverse.dropWhile pyWS).reverse

/-- Python `str.strip()`. -/
def pstrip (v : Str) : Str := rstrip (lstrip v)

/-- Python `pat in text` (substring containment). -/
def containsSub (t pat : Str) : Bool :=
  match t with
  | [] => pat.isEmpty
  | _ :: rest => pat.isPrefixOf t || containsSub rest pat

/-- Split `t` at the first occurrence of `pat`: returns the text before the
occurrence and the text after it (both excluding `pat` itself). -/
def splitFirst (pat : Str) : Str → Option (Str × Str)
  | [] => if pat.isEmpty then some ([], []) else none
  | c :: rest =>
    if pat.isPrefixOf (c :: rest) then some ([], (c :: rest).drop pat.length)
    else (splitFirst pat rest).map fun p => (c :: p.1, p.2)

/-- Python `sep.join(lines)`. -/
def joinSep (sep : Str) : List Str → Str
  | [] => []
  | [l] => l
  | l :: l' :: ls => l ++ sep ++ joinSep sep (l' :: ls)

/-- Python `"\n".join(lines)`. -/
def joinNL (ls : List Str) : Str := joinSep (txt "\n") ls

/-- Decimal rendering of a natural number, structurally recursive on a fuel
bound (any fuel above the value is enough). -/
def natToStrAux : Nat → Nat → Str
  | 0, _ => []
  | fuel + 1, n =>
    if n < 10 then [Char.ofNat (48 + n)]
    else natToStrAux fuel (n / 10) ++ [Char.ofNat (48 + n % 10)]

/-- Decimal rendering of a natural number (Python `f"{n}"` for a non-negative
int). -/
def natToStr (n : Nat) : Str := natToStrAux (n + 1) n

/-- Python `int(s)` on a nonempty string of decimal digits. -/
def digitsVal (v : Str) : Nat :=
  v.foldl (fun a c => a * 10 + (c.toNat - 48)) 0

/-- The character class of the regex `\w` (restricted to the ASCII range, which
covers every marker name the system reads or writes). -/
def isWordChar (c : Char) : Bool := c.isAlpha || c.isDigit || c == '_'

/-- Python `dict` insertion `m[k] = v`: an existing key keeps its position and
gets the new value, a new key is appended. -/
def dictInsert (m : List (Str × Str)) (k v : Str) : List (Str × Str) :=
  if m.any (fun p => p.1 == k) then
    m.map (fun p => if p.1 == k then (k, v) else p)
  else m ++ [(k, v)]

/-- Python `dict.get(k)` on an insertion-ordered association list. -/
def dictGet? (m : List (Str × Str)) (k : Str) : Option Str :=
  (m.find? (fun p => p.1 == k)).map (fun p => p.2)

/-- Field ownership (`EDITABLE_FIELDS` of `outline_sync.py`): the only fields a
Pull may write. -/
def EDITABLE_FIELDS : List Str :=
  [txt "title", txt "subtitle", txt "short_description", txt "description",
   txt "special_notes", txt "meeting_time", txt "meeting_location",
   txt "tour_rating", txt "terrain", txt "technical_difficulty", txt "altitude"]

/-- `READONLY_FIELDS` of `outline_sync.py`. -/
def READONLY_FIELDS : List Str :=
  [txt "website_id", txt "slug", txt "permalink", txt "tour_type", txt "region",
   txt "duration", txt "season", txt "style", txt "skill_level", txt "departs",
   txt "distance"]

/-! ## Marker scanners

`parse_outline_document` extracts blocks with
`re.finditer(r'<!-- FIELD:(\w+) -->\s*(.*?)\s*<!-- /FIELD:\1 -->', text, re.DOTALL)`
(and the analogous `ITINERARY_DAY` pattern).  Scanning left to right, a match
starts at an open marker whose name has a matching close marker later in the
text; the lazy body ends at the first such close marker; scanning resumes after
the match.  Since the parser immediately `strip()`s group 2, the `\s*` bounds
around the lazy group are absorbed by the strip, so the scanner records the
whole text between the two markers. -/

/-- Match `<!-- FIELD:(\w+) -->` at the head of `t`; returns the name and the
text after the open marker. -/
def matchFieldOpen (t : Str) : Option (Str × Str) :=
  if (txt "<!-- FIELD:").isPrefixOf t then
    let name := (t.drop 11).takeWhile isWordChar
    let r2 := (t.drop 11).drop name.length
    if name.isEmpty then none
    else if (txt " -->").isPrefixOf r2 then some (name, r2.drop 4)
    else none
  else none

/-- The close marker `<!-- /FIELD:name -->` (the regex backreference `\1`
forces the same name). -/
def closeF (name : Str) : Str := txt "<!-- /FIELD:" ++ name ++ txt " -->"

/-- One attempted field-block match at the head of `t`: the open marker must
sit at the head and a close marker for the same name must occur later. -/
def fieldStep (t : Str) : Option ((Str × Str) × Str) :=
  match matchFieldOpen t with
  | none => none
  | some (name, after) =>
    match splitFirst (closeF name) after with
    | none => none
    | some (between, tail) => some ((name, between), tail)

/-- Structurally recursive worker for `scanFields` (the fuel dominates the
text length, which strictly decreases at every step). -/
def scanFieldsAux : Nat → Str → List (Str × Str)
  | 0, _ => []
  | _, [] => []
  | fuel + 1, c :: rest =>
    match fieldStep (c :: rest) with
    | some x => x.1 :: scanFieldsAux fuel x.2
    | none => scanFieldsAux fuel rest

/-- The field-block scanner: the exact effect of
`re.finditer(field_pattern, text, re.DOTALL)`, recording for each match the
marker name and the raw text between the open and close markers. -/
def scanFields (t : Str) : List (Str × Str) := scanFieldsAux t.length t

/-- Match `<!-- ITINERARY_DAY:(\d+) -->` at the head of `t`; returns the digit
string and the text after the open marker. -/
def matchDayOpen (t : Str) : Option (Str × Str) :=
  if (txt "<!-- ITINERARY_DAY:").isPrefixOf t then
    let ds := (t.drop 19).takeWhile Char.isDigit
    let r2 := (t.drop 19).drop ds.length
    if ds.isEmpty then none
    else if (txt " -->").isPrefixOf r2 then some (ds, r2.drop 4)
    else none
  else none

/-- The close marker `<!-- /ITINERARY_DAY:n -->` (backreference `\1` repeats
the digit string). -/
def closeD (ds : Str) : Str := txt "<!-- /ITINERARY_DAY:" ++ ds ++ txt " -->"

/-- One attempted itinerary-day-block match at the head of `t`. -/
def dayStep (t : Str) : Option ((Str × Str) × Str) :=
  match matchDayOpen t with
  | none => none
  | some (ds, after) =>
    match splitFirst (closeD ds) after with
    | none => none
    | some (between, tail) => some ((ds, between), tail)

/-- Structurally recursive worker for `scanDays`. -/
def scanDaysAux : Nat → Str → List (Str × Str)
  | 0, _ => []
  | _, [] => []
  | fuel + 1, c :: rest =>
    match dayStep (c :: rest) with
    | some x => x.1 :: scanDaysAux fuel x.2
    | none => scanDaysAux fuel rest

/-- The itinerary-day scanner: the effect of `re.finditer(day_pattern, text,
re.DOTALL)`, recording the digit string and the raw body of each block. -/
def scanDays (t : Str) : List (Str × Str) := scanDaysAux t.length t

/-! ## Sub-value extraction inside blocks

For the six labelled fields the parser runs
`re.search(r'\*\*[^*]+:\*\*\s*(.+)', field_value)`.  The label part matches
`**R**` where `R` is a nonempty run of non-`*` characters whose last character
is `:` (backtracking admits no other decomposition).  The `\s*(.+)` part
greedily skips whitespace, backtracking just enough for `.+` to match at least
one non-newline character; the group runs to the end of that line. -/

/-- The `\s*(.+)` tail of the label regex, matched at the start of `u`. -/
def wsDotPlus (u : Str) : Option Str :=
  let rest := u.drop (u.takeWhile pyWS).length
  if rest.isEmpty then
    match u.reverse.dropWhile (fun c => c == '\n') with
    | [] => none
    | c :: _ => some [c]
  else some (rest.takeWhile (fun c => c != '\n'))

/-- Try to match `\*\*[^*]+:\*\*\s*(.+)` at the head of `t`, returning the
group. -/
def labelAt (t : Str) : Option Str :=
  if (txt "**").isPrefixOf t then
    let r := (t.drop 2).takeWhile (fun c => c != '*')
    let rest := (t.drop 2).drop r.length
    if 2 ≤ r.length ∧ r.getLast? = some ':' ∧ (txt "**").isPrefixOf rest then
      wsDotPlus (rest.drop 2)
    else none
  else none

/-- `re.search(r'\*\*[^*]+:\*\*\s*(.+)', t)`: try each start position from the
left. -/
def labelSearch : Str → Option Str
  | [] => none
  | c :: rest =>
    match labelAt (c :: rest) with
    | some g => some g
    | none => labelSearch rest

/-- The `\s*(C+)` tail of a day sub-field regex (`C` the character class):
greedy whitespace skip with backtracking, trying offsets `w, w-1, ..., 0`. -/
def tryClassAt (P : Char → Bool) (u : Str) : Nat → Option Str
  | 0 =>
    match u.head? with
    | some c => if P c then some (u.takeWhile P) else none
    | none => none
  | w + 1 =>
    match (u.drop (w + 1)).head? with
    | some c => if P c then some ((u.drop (w + 1)).takeWhile P) else tryClassAt P u w
    | none => tryClassAt P u w

/-- `\s*(C+)` matched at the start of `u`. -/
def classAfterWS (P : Char → Bool) (u : Str) : Option Str :=
  tryClassAt P u (u.takeWhile pyWS).length

/-- `re.search` for a literal label followed by `\s*(C+)`: try each start
position from the left; a failing group match advances the start by one. -/
def searchLabeled (lit : Str) (P : Char → Bool) : Str → Option Str
  | [] => none
  | c :: rest =>
    if lit.isPrefixOf (c :: rest) then
      match classAfterWS P ((c :: rest).drop lit.length) with
      | some g => some g
      | none => searchLabeled lit P rest
    else searchLabeled lit P rest

/-- Structurally recursive worker for `subLabeled`. -/
def subLabeledAux (lit : Str) (P : Char → Bool) : Nat → Str → Str
  | 0, _ => []
  | _, [] => []
  | fuel + 1, c :: rest =>
    if lit.isPrefixOf (c :: rest) then
      match ((c :: rest).drop lit.length).takeWhile P with
      | [] => c :: subLabeledAux lit P fuel rest
      | _ :: rs =>
        subLabeledAux lit P fuel (((c :: rest).drop lit.length).drop (rs.length + 1))
    else c :: subLabeledAux lit P fuel rest

/-- `re.sub(lit ++ C+, '', t)`: delete every non-overlapping occurrence of the
literal label followed by a nonempty maximal run of class characters. -/
def subLabeled (lit : Str) (P : Char → Bool) (t : Str) : Str :=
  subLabeledAux lit P t.length t

/-! ## `parse_outline_document` -/

/-- The six fields rendered on a `**Label:** value` line, whose extracted
value is cleaned through the label regex. -/
def labeledFields : List Str :=
  [txt "meeting_time", txt "meeting_location", txt "tour_rating",
   txt "terrain", txt "technical_difficulty", txt "altitude"]

/-- The per-field clean-up of `parse_outline_document`: strip, and for the six
labelled fields take the text after the `**Label:**` prefix, mapping the
`_Not specified_` placeholder to the empty value. -/
def cleanFieldValue (name v0 : Str) : Str :=
  let v := pstrip v0
  if labeledFields.contains name then
    match labelSearch v with
    | some g =>
      let g' := pstrip g
      if g' = txt "_Not specified_" then [] else g'
    | none => v
  else v

/-- One step of the field-map fold: keep the cleaned value unless it is empty
or one of the two description placeholders. -/
def pfStep (m : List (Str × Str)) (p : Str × Str) : List (Str × Str) :=
  let v := cleanFieldValue p.1 p.2
  if v ≠ [] ∧ v ≠ txt "_No short description yet._" ∧
      v ≠ txt "_No description yet._" then
    dictInsert m p.1 v
  else m

/-- The field map produced by `parse_outline_document`: cleaned block values,
with empty values and the two description placeholders filtered out. -/
def parseFields (t : Str) : List (Str × Str) :=
  (scanFields t).foldl pfStep []

/-- One parsed itinerary day (`day_data` of the source). -/
structure ParsedDay where
  day_number : Nat
  miles : Option Str := none
  elevation : Option Str := none
  trails_waypoints : Option Str := none
  camp_lodging : Option Str := none
  meals : Option Str := none
  content : Option Str := none
deriving DecidableEq, Repr

/-- Character class `[^\n|]` of the miles/elevation sub-patterns. -/
def isMilesChar (c : Char) : Bool := c != '\n' && c != '|'

/-- Character class `[^\n]` of the route/lodging/meals sub-patterns. -/
def isLineChar (c : Char) : Bool := c != '\n'

/-- Parse the body of one itinerary-day block exactly as the source does:
label searches for the five sub-fields, then `re.sub` deletions of the
label runs and of `|`, then a final strip for the free-text content. -/
def parseDayContent (ds : Str) (between : Str) : ParsedDay :=
  let dc := pstrip between
  let remaining :=
    subLabeled (txt "**Meals:**") isLineChar
      (subLabeled (txt "**Lodging:**") isLineChar
        (subLabeled (txt "**Route:**") isLineChar
          (subLabeled (txt "**Elevation:**") isMilesChar
            (subLabeled (txt "**Miles:**") isMilesChar dc))))
  let remaining := pstrip (remaining.filter (fun c => c != '|'))
  { day_number := digitsVal ds
    miles := (searchLabeled (txt "**Miles:**") isMilesChar dc).map pstrip
    elevation := (searchLabeled (txt "**Elevation:**") isMilesChar dc).map pstrip
    trails_waypoints := (searchLabeled (txt "**Route:**") isLineChar dc).map pstrip
    camp_lodging := (searchLabeled (txt "**Lodging:**") isLineChar dc).map pstrip
    meals := (searchLabeled (txt "**Meals:**") isLineChar dc).map pstrip
    content := if remaining = [] then none else some remaining }

/-- The ordered list of parsed itinerary days. -/
def parseDays (t : Str) : List ParsedDay :=
  (scanDays t).map fun p => parseDayContent p.1 p.2

/-- The result record of `parse_outline_document`. -/
structure ParseResult where
  fields : List (Str × Str)
  itinerary_days : List ParsedDay
deriving DecidableEq, Repr

/-- `parse_outline_document(text)` of `outline_sync.py`. -/
def parse_outline_document (t : Str) : ParseResult :=
  { fields := parseFields t, itinerary_days := parseDays t }

/-- Does any position of `t` start a well-formed `<!-- FIELD:(\w+) -->` open
marker? -/
def hasFieldOpen : Str → Bool
  | [] => false
  | c :: rest => (matchFieldOpen (c :: rest)).isSome || hasFieldOpen rest

/-- Does any position of `t` start a well-formed
`<!-- ITINERARY_DAY:(\d+) -->` open marker? -/
def hasDayOpen : Str → Bool
  | [] => false
  | c :: rest => (matchDayOpen (c :: rest)).isSome || hasDayOpen rest

/-! ## The canonical Tour record and its related rows -/

/-- The columns of a tour row that the sync engine reads (see
`get_tours_from_db`).  Optional text columns are `Option Str`; `title` is
always present.  (Integer identifiers such as `website_id` are modelled by
their rendered decimal string.) -/
structure Tour where
  title : Str
  slug : Option Str := none
  permalink : Option Str := none
  website_id : Option Str := none
  arctic_shortname : Option Str := none
  arctic_id : Option Str := none
  tour_type : Option Str := none
  region : Option Str := none
  duration : Option Str := none
  season : Option Str := none
  style : Option Str := none
  skill_level : Option Str := none
  departs : Option Str := none
  distance : Option Str := none
  subtitle : Option Str := none
  short_description : Option Str := none
  description : Option Str := none
  special_notes : Option Str := none
  meeting_time : Option Str := none
  meeting_location : Option Str := none
  tour_rating : Option Str := none
  terrain : Option Str := none
  technical_difficulty : Option Str := none
  altitude : Option Str := none
deriving DecidableEq, Repr

/-- One row of `tour_itinerary_days` as fetched for rendering. -/
structure ItinDay where
  day_number : Nat
  miles : Option Str := none
  elevation : Option Str := none
  trails_waypoints : Option Str := none
  camp_lodging : Option Str := none
  meals : Option Str := none
  content : Option Str := none
deriving DecidableEq, Repr

/-- `(pricing_type, variant, amount_display)` row of `tour_pricing`. -/
abbrev PricingEntry := Str × Option Str × Str

/-- `(fee_type, amount_display)` row of `tour_fees`. -/
abbrev FeeEntry := Str × Str

/-- Python truthiness of an optional string (`None` and `""` are falsy). -/
def truthyS (o : Option Str) : Bool :=
  match o with
  | some v => !v.isEmpty
  | none => false

/-- Python `x or d` for an optional string. -/
def pyOr (o : Option Str) (d : Str) : Str :=
  match o with
  | some v => if v = [] then d else v
  | none => d

/-- Python `s.replace('_', ' ')`. -/
def underscoreToSpace (v : Str) : Str :=
  v.map fun c => if c == '_' then ' ' else c

/-- Worker for `titleCase` (the flag records whether the previous character
was alphabetic). -/
def titleCaseGo : Bool → Str → Str
  | _, [] => []
  | prev, c :: cs =>
    (if c.isAlpha then (if prev then c.toLower else c.toUpper) else c) ::
      titleCaseGo c.isAlpha cs

/-- Python `s.title()` (ASCII range). -/
def titleCase (v : Str) : Str := titleCaseGo false v

/-! ## Template renderers -/

/-- The three lines of one Field Block: open marker, current value line, close
marker. -/
def fbLines (nm v : Str) : List Str :=
  [txt "<!-- FIELD:" ++ nm ++ txt " -->", v, txt "<!-- /FIELD:" ++ nm ++ txt " -->"]

/-- `lines.append(f"- **{label}:** {value}")` guarded by `if value:`. -/
def optItemLine (label : Str) (o : Option Str) : List Str :=
  match o with
  | some v => if v = [] then [] else [txt "- **" ++ label ++ txt ":** " ++ v]
  | none => []

/-- The `| **L** | v |`-style table rows that are guarded by `if tour.get(..)`. -/
def optTableLine (pre : Str) (o : Option Str) (post : Str) : List Str :=
  match o with
  | some v => if v = [] then [] else [pre ++ v ++ post]
  | none => []

/-- The Reference IDs table shared by both renderers (the introductory note
line differs and is passed in by the caller). -/
def refIdTableLines (tour : Tour) : List Str :=
  [txt "| System | Identifier |",
   txt "|--------|------------|",
   txt "| **Title** | " ++ tour.title ++ txt " |"]
  ++ optTableLine (txt "| **Slug** | `") tour.slug (txt "` |")
  ++ optTableLine (txt "| **Website ID** | ") tour.website_id (txt " |")
  ++ optTableLine (txt "| **Arctic Shortname** | `") tour.arctic_shortname (txt "` |")
  ++ optTableLine (txt "| **Arctic ID** | ") tour.arctic_id (txt " |")
  ++ [txt ""]

/-- The `info_items` loop plus the website link, shared by both renderers. -/
def infoItemLines (tour : Tour) : List Str :=
  optItemLine (txt "Tour Type") tour.tour_type
  ++ optItemLine (txt "Region") tour.region
  ++ optItemLine (txt "Duration") tour.duration
  ++ optItemLine (txt "Season") tour.season
  ++ optItemLine (txt "Style") tour.style
  ++ optItemLine (txt "Skill Level") tour.skill_level
  ++ optItemLine (txt "Departs From") tour.departs
  ++ optItemLine (txt "Distance") tour.distance
  ++ (match tour.permalink with
      | some v =>
        if v = [] then []
        else [txt "- **Website:** [" ++ v ++ txt "](" ++ v ++ txt ")"]
      | none => [])
  ++ [txt ""]

/-- The pricing label `f"{ptype.replace('_',' ').title()}"`, with the variant
suffix when the variant is truthy and differs from `'default'`. -/
def priceLabel (p : PricingEntry) : Str :=
  titleCase (underscoreToSpace p.1)
  ++ (match p.2.1 with
      | some v => if v ≠ [] ∧ v ≠ txt "default" then txt " (" ++ v ++ txt ")" else []
      | none => [])

/-- The body of the Pricing section (item lines and fee lines). -/
def pricingBodyLines (pricing : List PricingEntry) (fees : List FeeEntry) : List Str :=
  pricing.map (fun p => txt "- **" ++ priceLabel p ++ txt ":** " ++ p.2.2)
  ++ (if fees.isEmpty then []
      else [txt "", txt "**Additional Fees:**"]
        ++ fees.map fun f =>
          txt "- " ++ titleCase (underscoreToSpace f.1) ++ txt ": " ++ f.2)

/-- The Pricing section of `generate_tour_document` (rendered only when there
is pricing or fee data). -/
def pricingSectionLines (note : Str) (pricing : List PricingEntry)
    (fees : List FeeEntry) : List Str :=
  if pricing.isEmpty && fees.isEmpty then []
  else [txt "---", txt "## 💰 Pricing", note, txt ""]
    ++ pricingBodyLines pricing fees ++ [txt ""]

/-- `lines.append(f"**Route:** {...}")` plus the following blank line, guarded
by `if day.get(..)`. -/
def optDayLine (pre : Str) (o : Option Str) : List Str :=
  match o with
  | some v => if v = [] then [] else [pre ++ v, txt ""]
  | none => []

/-- A single stats element (`**Miles:** ..` / `**Elevation:** ..`) guarded by
`if day.get(..)`. -/
def optStat (pre : Str) (o : Option Str) : List Str :=
  match o with
  | some v => if v = [] then [] else [pre ++ v]
  | none => []

/-- The lines rendered between the two day markers (the `lines.append` calls
of the day loop between the open and close markers). -/
def dayInnerLines (day : ItinDay) : List Str :=
  [txt ""]
  ++ (let stats := optStat (txt "**Miles:** ") day.miles
        ++ optStat (txt "**Elevation:** ") day.elevation
      if stats.isEmpty then [] else [joinSep (txt " | ") stats, txt ""])
  ++ optDayLine (txt "**Route:** ") day.trails_waypoints
  ++ optDayLine (txt "**Lodging:** ") day.camp_lodging
  ++ optDayLine (txt "**Meals:** ") day.meals
  ++ (match day.content with
      | some v => if v = [] then [] else [v, txt ""]
      | none => [])

/-- The lines of one itinerary day block in `generate_tour_document`. -/
def dayLines (day : ItinDay) : List Str :=
  [txt "### Day " ++ natToStr day.day_number,
   txt "<!-- ITINERARY_DAY:" ++ natToStr day.day_number ++ txt " -->"]
  ++ dayInnerLines day
  ++ [txt "<!-- /ITINERARY_DAY:" ++ natToStr day.day_number ++ txt " -->", txt ""]

/-- The itinerary section of `generate_tour_document`. -/
def itinSectionLines (days : List ItinDay) : List Str :=
  if days.isEmpty then []
  else [txt "---", txt "## ✏️ Day-by-Day Itinerary",
        txt "> ✅ **Editable Section** - You can edit this content.", txt ""]
    ++ (days.map dayLines).flatten

/-- The full list of lines built by `generate_tour_document` (the timestamp of
the footer is the explicit `now` argument). -/
def tourDocLines (tour : Tour) (days : List ItinDay) (pricing : List PricingEntry)
    (fees : List FeeEntry) (now : Str) : List Str :=
  [txt "# " ++ tour.title, txt ""]
  ++ (match tour.subtitle with
      | some v => if v = [] then [] else [txt "*" ++ v ++ txt "*", txt ""]
      | none => [])
  ++ [txt "---", txt "## 🔗 Reference IDs",
      txt "> ⚠️ **Read-Only** - Cross-system identifiers for this tour.", txt ""]
  ++ refIdTableLines tour
  ++ [txt "---", txt "## 📋 Tour Information",
      txt "> ⚠️ **Read-Only Section** - This data comes from the website and cannot be edited here.",
      txt ""]
  ++ infoItemLines tour
  ++ pricingSectionLines
      (txt "> ⚠️ **Read-Only Section** - Pricing is managed in Arctic Reservations.")
      pricing fees
  ++ [txt "---", txt "## ✏️ Description",
      txt "> ✅ **Editable Section** - You can edit this content.", txt "",
      txt "### Short Description"]
  ++ fbLines (txt "short_description")
      (pyOr tour.short_description (txt "_No short description yet._"))
  ++ [txt "", txt "### Full Description"]
  ++ fbLines (txt "description") (pyOr tour.description (txt "_No description yet._"))
  ++ [txt ""]
  ++ (match tour.special_notes with
      | some v =>
        if v = [] then []
        else [txt "### Special Notes"] ++ fbLines (txt "special_notes") v ++ [txt ""]
      | none => [])
  ++ [txt "---", txt "## ✏️ Trip Details",
      txt "> ✅ **Editable Section** - You can edit this content.", txt "",
      txt "### Meeting Information"]
  ++ fbLines (txt "meeting_time")
      (txt "**Time:** " ++ pyOr tour.meeting_time (txt "_Not specified_"))
  ++ [txt ""]
  ++ fbLines (txt "meeting_location")
      (txt "**Location:** " ++ pyOr tour.meeting_location (txt "_Not specified_"))
  ++ [txt "", txt "### Difficulty & Terrain"]
  ++ fbLines (txt "tour_rating")
      (txt "**Tour Rating:** " ++ pyOr tour.tour_rating (txt "_Not specified_"))
  ++ [txt ""]
  ++ fbLines (txt "terrain")
      (txt "**Terrain:** " ++ pyOr tour.terrain (txt "_Not specified_"))
  ++ [txt ""]
  ++ fbLines (txt "technical_difficulty")
      (txt "**Technical Difficulty:** " ++
        pyOr tour.technical_difficulty (txt "_Not specified_"))
  ++ [txt ""]
  ++ fbLines (txt "altitude")
      (txt "**Altitude:** " ++ pyOr tour.altitude (txt "_Not specified_"))
  ++ [txt ""]
  ++ itinSectionLines days
  ++ [txt "---", txt "*This document is synced with the RimTours database.*",
      txt "*Last sync: " ++ now ++ txt "*"]

/-- `generate_tour_document(tour, itinerary_days, pricing, fees)` of
`outline_sync.py`. -/
def generate_tour_document (tour : Tour) (days : List ItinDay)
    (pricing : List PricingEntry) (fees : List FeeEntry) (now : Str) : Str :=
  joinNL (tourDocLines tour days pricing fees now)

/-- The lines of one itinerary day block in `generate_reference_header`
(every sub-field line is rendered, with `_TBD_` placeholders). -/
def refDayLines (day : ItinDay) : List Str :=
  [txt "#### Day " ++ natToStr day.day_number,
   txt "<!-- ITINERARY_DAY:" ++ natToStr day.day_number ++ txt " -->",
   txt "",
   txt "**Miles:** " ++ pyOr day.miles (txt "_TBD_"),
   txt "**Elevation:** " ++ pyOr day.elevation (txt "_TBD_"),
   txt "**Route:** " ++ pyOr day.trails_waypoints (txt "_TBD_"),
   txt "**Lodging:** " ++ pyOr day.camp_lodging (txt "_TBD_"),
   txt "**Meals:** " ++ pyOr day.meals (txt "_TBD_"),
   txt "",
   pyOr day.content (txt "_Day description._"),
   txt "",
   txt "<!-- /ITINERARY_DAY:" ++ natToStr day.day_number ++ txt " -->",
   txt ""]

/-- The full list of lines built by `generate_reference_header`. -/
def refHeaderLines (tour : Tour) (pricing : List PricingEntry)
    (fees : List FeeEntry) (days : List ItinDay) : List Str :=
  [txt "---", txt "## 🔗 Reference IDs",
   txt "> Cross-system identifiers for this tour.", txt ""]
  ++ refIdTableLines tour
  ++ [txt "---", txt "## 📋 Tour Information", txt ""]
  ++ infoItemLines tour
  ++ pricingSectionLines (txt "> Pricing is managed in Arctic Reservations.")
      pricing fees
  ++ [txt "---", txt "## ✏️ Editable Content",
      txt "> Edit content between the markers. Changes sync back to database.",
      txt "",
      txt "### Short Description"]
  ++ fbLines (txt "short_description")
      (pyOr tour.short_description (txt "_Enter a brief 1-2 sentence description._"))
  ++ [txt "", txt "### Full Description"]
  ++ fbLines (txt "description")
      (pyOr tour.description (txt "_Enter the full tour description._"))
  ++ [txt "", txt "### Special Notes"]
  ++ fbLines (txt "special_notes")
      (pyOr tour.special_notes (txt "_Any special notes or requirements._"))
  ++ [txt "", txt "### Meeting Information"]
  ++ fbLines (txt "meeting_time")
      (txt "**Time:** " ++ pyOr tour.meeting_time (txt "_e.g., 8:30 AM_"))
  ++ [txt ""]
  ++ fbLines (txt "meeting_location")
      (txt "**Location:** " ++
        pyOr tour.meeting_location (txt "_e.g., Rim Tours HQ, 1233 S Hwy 191_"))
  ++ [txt "", txt "### Difficulty & Terrain"]
  ++ fbLines (txt "tour_rating")
      (txt "**Tour Rating:** " ++ pyOr tour.tour_rating (txt "_e.g., Moderate/Intermediate_"))
  ++ [txt ""]
  ++ fbLines (txt "terrain")
      (txt "**Terrain:** " ++ pyOr tour.terrain (txt "_Describe the terrain._"))
  ++ [txt ""]
  ++ fbLines (txt "technical_difficulty")
      (txt "**Technical Difficulty:** " ++
        pyOr tour.technical_difficulty (txt "_Describe technical aspects._"))
  ++ [txt ""]
  ++ fbLines (txt "altitude")
      (txt "**Altitude:** " ++ pyOr tour.altitude (txt "_e.g., 4,500ft to 6,000ft_"))
  ++ [txt ""]
  ++ (if days.isEmpty then []
      else [txt "### Day-by-Day Itinerary", txt ""] ++ (days.map refDayLines).flatten)
  ++ [txt "---", txt "## 📜 Legacy Content",
      txt "> Previous content preserved below. Move relevant info to editable fields above.",
      txt ""]

/-- `generate_reference_header(tour, pricing, fees, itinerary_days)` of
`outline_sync.py` (this renderer embeds no timestamp). -/
def generate_reference_header (tour : Tour) (pricing : List PricingEntry)
    (fees : List FeeEntry) (days : List ItinDay) : Str :=
  joinNL (refHeaderLines tour pricing fees days)

/-! ## `strip_existing_header` and the push path -/

/-- Python `text.split('\n')`. -/
def splitNL : Str → List Str
  | [] => [[]]
  | c :: rest =>
    if c == '\n' then [] :: splitNL rest
    else
      match splitNL rest with
      | [] => [[c]]
      | l :: ls => (c :: l) :: ls

/-- The scan of `strip_existing_header`: the first index `i > 1` whose line is
non-blank and passes the start-character filters (`content_start` stays 0 when
no line qualifies). -/
def contentStartFrom (keep : Str → Bool) : Nat → List Str → Option Nat
  | _, [] => none
  | i, l :: rest =>
    if 2 ≤ i ∧ keep l = true then some i else contentStartFrom keep (i + 1) rest

/-- Shared tail of the first two branches of `strip_existing_header`: split
the text from the found marker into lines, skip the heading and note lines,
join and strip the remainder.  `noStar` adds the `not line.startswith('*')`
filter of the old-marker branch. -/
def stripFromMarker (noStar : Bool) (tail : Str) : Str :=
  let lines := splitNL tail
  let keep : Str → Bool := fun l =>
    !(pstrip l).isEmpty && !((txt ">").isPrefixOf l) &&
      (!noStar || !((txt "*").isPrefixOf l))
  let start := (contentStartFrom keep 0 lines).getD 0
  pstrip (joinNL (lines.drop start))

/-- `strip_existing_header(text)` of `outline_sync.py`: keep only the legacy
content below a previously generated header. -/
def strip_existing_header (text : Str) : Str :=
  match splitFirst (txt "## 📜 Legacy Content") text with
  | some p => stripFromMarker false (txt "## 📜 Legacy Content" ++ p.2)
  | none =>
    match splitFirst (txt "## 📝 Tour Details") text with
    | some p => stripFromMarker true (txt "## 📝 Tour Details" ++ p.2)
    | none =>
      if containsSub text (txt "## 🔗 Reference IDs") then [] else text

/-- Python `s.lower()` (ASCII range). -/
def pyLower (v : Str) : Str := v.map Char.toLower

/-- `is_day_tour(tour)` of `outline_sync.py`. -/
def is_day_tour (tour : Tour) : Bool :=
  let tourType := pyLower (pyOr tour.tour_type [])
  if containsSub tourType (txt "multi-day") || containsSub tourType (txt "multi day") then
    false
  else if containsSub tourType (txt "day tour") || containsSub tourType (txt "day-tour") then
    true
  else
    let duration := pyLower (pyOr tour.duration [])
    if containsSub duration (txt "half") || containsSub duration (txt "full day") ||
        duration == txt "1 day" || duration == txt "1-day" then
      true
    else false

/-- One remote Outline API interaction.  `fetchDoc` is the read
(`documents.info`); `createDoc` and `updateDoc` are the writes
(`documents.create` / `documents.update`).  `backupSnapshot` models the
snapshot persisted per document by `backup_all_documents` of
`outline_consolidate.py`; it is available in the vocabulary of remote-side
effects so the absence of a backup before a write can be stated. -/
inductive RemoteCall where
  | fetchDoc (id : Str)
  | createDoc (title text collection parent : Str)
  | updateDoc (id text : Str)
  | backupSnapshot (id : Str)
deriving DecidableEq, Repr

/-- A remote write call (`documents.create` or `documents.update`). -/
def RemoteCall.isWrite : RemoteCall → Bool
  | .createDoc _ _ _ _ => true
  | .updateDoc _ _ => true
  | _ => false

/-- An update call. -/
def RemoteCall.isUpdate : RemoteCall → Bool
  | .updateDoc _ _ => true
  | _ => false

/-- A backup snapshot. -/
def RemoteCall.isBackup : RemoteCall → Bool
  | .backupSnapshot _ => true
  | _ => false

/-- An entry of the `existing_docs` map (`get_existing_tour_docs`). -/
structure ExistingDoc where
  id : Str
  title : Str
deriving DecidableEq, Repr

/-- The outcome of pushing one tour: the reported action string together with
the remote API calls performed, in order. -/
structure PushResult where
  action : Str
  calls : List RemoteCall
deriving DecidableEq, Repr

/-- `push_tour_to_outline(conn, tour, existing_docs, dry_run, force_update)` of
`outline_sync.py`.  `existing` is `existing_docs.get(slug)`; `store` maps a
document id to its current remote text (`get_outline_document` followed by
`.get('text', '')`); `collectionId`, `dayParent`, `mdParent` are the
environment-configured ids; `now` is the render timestamp of the create path.
The canonical-store writes (`update_tour_outline_doc_id`, `log_sync`) are
database side effects, not remote document calls, and are not part of
`calls`. -/
def push_tour_to_outline (tour : Tour) (days : List ItinDay)
    (pricing : List PricingEntry) (fees : List FeeEntry)
    (existing : Option ExistingDoc) (store : Str → Option Str)
    (collectionId dayParent mdParent : Str) (now : Str)
    (dryRun forceUpdate : Bool) : PushResult :=
  if dryRun then
    { action :=
        match existing with
        | some _ => if forceUpdate then txt "update" else txt "prepend"
        | none => txt "create"
      calls := [] }
  else
    match existing with
    | some d =>
      let existingText := (store d.id).getD []
      if containsSub existingText (txt "## ✏️ Editable Content") && !forceUpdate then
        { action := txt "skipped", calls := [.fetchDoc d.id] }
      else
        let legacy := strip_existing_header existingText
        let header := generate_reference_header tour pricing fees days
        let newText := if legacy ≠ [] then header ++ txt "\n" ++ legacy else header
        { action := if forceUpdate then txt "updated" else txt "prepended"
          calls := [.fetchDoc d.id, .updateDoc d.id newText] }
    | none =>
      let docText := generate_tour_document tour days pricing fees now
      { action := txt "created"
        calls := [.createDoc (pyOr tour.slug tour.title) docText collectionId
            (if is_day_tour tour then dayParent else mdParent)] }

/-! ## Canonical-store writes of the pull path -/

/-- A tour row of the canonical store, as the pull path sees it: the named
attribute columns, and the `last_outline_sync` bookkeeping column which the
`UPDATE` statement always sets alongside the written fields. -/
structure TourRow where
  attrs : Str → Option Str
  last_outline_sync : Option Str

/-- `update_tour_from_outline(conn, tour_id, updates)` of `outline_sync.py`:
filter the parsed updates to `EDITABLE_FIELDS`, and if anything remains, write
exactly those columns plus `last_outline_sync = CURRENT_TIMESTAMP`. -/
def update_tour_from_outline (row : TourRow) (updates : List (Str × Str))
    (nowTs : Str) : TourRow :=
  let safe := updates.filter fun p => EDITABLE_FIELDS.contains p.1
  if safe.isEmpty then row
  else
    { attrs := fun f =>
        match safe.find? (fun p => p.1 == f) with
        | some p => some p.2
        | none => row.attrs f
      last_outline_sync := some nowTs }

/-- A row of `tour_itinerary_days` as written by the pull path. -/
structure DayRow where
  miles : Option Str := none
  elevation : Option Str := none
  trails_waypoints : Option Str := none
  camp_lodging : Option Str := none
  meals : Option Str := none
  content : Option Str := none
  source : Str
deriving DecidableEq, Repr

/-- The itinerary table, keyed by `(tour_id, day_number)` (unique). -/
def ItinStore := Nat → Nat → Option DayRow

/-- The row written for a parsed day: every sub-field comes from the parsed
day (absent sub-fields become NULL) and the source is `'outline'`. -/
def dayRowOf (d : ParsedDay) : DayRow :=
  { miles := d.miles
    elevation := d.elevation
    trails_waypoints := d.trails_waypoints
    camp_lodging := d.camp_lodging
    meals := d.meals
    content := d.content
    source := txt "outline" }

/-- The `INSERT ... ON CONFLICT (tour_id, day_number) DO UPDATE` of
`update_itinerary_from_outline`: the row at `(tour_id, day_number)` is
replaced in full. -/
def upsertDay (store : ItinStore) (tourId : Nat) (d : ParsedDay) : ItinStore :=
  fun tid n => if tid == tourId && n == d.day_number then some (dayRowOf d) else store tid n

/-- `update_itinerary_from_outline(conn, tour_id, days)` of `outline_sync.py`:
upsert every parsed day with a truthy day number (day number 0 is skipped by
`if not day_num: continue`), returning the store and the count. -/
def update_itinerary_from_outline (store : ItinStore) (tourId : Nat)
    (days : List ParsedDay) : ItinStore × Nat :=
  days.foldl
    (fun acc d =>
      if d.day_number == 0 then acc else (upsertDay acc.1 tourId d, acc.2 + 1))
    (store, 0)

/-- `pull_tour_from_outline(conn, tour, dry_run)` of `outline_sync.py`:
fetch the linked document, parse it, and apply `update_tour_from_outline`
and (when days were parsed) `update_itinerary_from_outline`.  Returns the new
tour row, the new itinerary store, and the reported action. -/
def pull_tour_from_outline (row : TourRow) (store : ItinStore) (tourId : Nat)
    (docId : Option Str) (docStore : Str → Option Str) (nowTs : Str)
    (dryRun : Bool) : TourRow × ItinStore × Str :=
  match docId with
  | none => (row, store, txt "skipped")
  | some did =>
    match docStore did with
    | none => (row, store, txt "error")
    | some text =>
      let parsed := parse_outline_document text
      if dryRun then (row, store, txt "would_update")
      else
        let row' := update_tour_from_outline row parsed.fields nowTs
        let store' :=
          if parsed.itinerary_days.isEmpty then store
          else (update_itinerary_from_outline store tourId parsed.itinerary_days).1
        (row', store', txt "updated")


/-- A remote document text that contains a Field Block but not the
`## ✏️ Editable Content` heading (the shape `generate_tour_document`
produces). -/
def docWithFieldBlock : Str :=
  txt "# Doc\n<!-- FIELD:description -->\nhello\n<!-- /FIELD:description -->"

/-- A remote document text that contains the Reference IDs heading and the
`## ✏️ Editable Content` sentinel but no legacy-content heading. -/
def docWithSentinel : Str :=
  txt "## 🔗 Reference IDs\n## ✏️ Editable Content\nprecious content"

/-! ## Well-formedness predicates and expected round-trip output (C1)

The round-trip theorem holds for *tidy* stored values: free of the marker
lead-in character `<`, stripped of outer whitespace, not equal to a rendered
placeholder, single-line where the template renders them on a labelled line,
and free of the `*` / `|` characters that the day sub-field patterns key on. -/

/-- No `<` character (so the value cannot fake or break a marker). -/
def noLt (v : Str) : Bool := v.all (fun c => c != '<')

/-- No `*` character. -/
def starFree (v : Str) : Bool := v.all (fun c => c != '*')

/-- No `|` character. -/
def pipeFree (v : Str) : Bool := v.all (fun c => c != '|')

/-- No newline. -/
def oneLine (v : Str) : Bool := v.all (fun c => c != '\n')

/-- Stripping is the identity (no outer whitespace). -/
def strippedB (v : Str) : Bool := pstrip v == v

/-- A tidy read-only display value: it only needs to be `<`-free, since the
parser never extracts it. -/
def tidyRO (o : Option Str) : Bool :=
  match o with
  | some v => noLt v
  | none => true

/-- A tidy description-kind editable value (`short_description`,
`description`, `special_notes`): `<`-free, stripped (possibly multi-line) and
distinct from the rendered description placeholders. -/
def tidyDesc (o : Option Str) : Bool :=
  match o with
  | some v =>
    v.isEmpty ||
      (noLt v && strippedB v && v != txt "_No short description yet._" &&
        v != txt "_No description yet._")
  | none => true

/-- A tidy labelled editable value (`meeting_time` … `altitude`): `<`-free,
stripped, single-line, distinct from the placeholders the parser filters. -/
def tidyLabeled (o : Option Str) : Bool :=
  match o with
  | some v =>
    v.isEmpty ||
      (noLt v && strippedB v && oneLine v && v != txt "_Not specified_" &&
        v != txt "_No short description yet._" && v != txt "_No description yet._")
  | none => true

/-- A tidy day sub-field value: additionally `*`- and `|`-free and
single-line (these characters delimit the day sub-patterns). -/
def tidyDayVal (o : Option Str) : Bool :=
  match o with
  | some v => v.isEmpty || (noLt v && starFree v && pipeFree v && oneLine v && strippedB v)
  | none => true

/-- A tidy day free-text content: as `tidyDayVal` but newlines are allowed. -/
def tidyContent (o : Option Str) : Bool :=
  match o with
  | some v => v.isEmpty || (noLt v && starFree v && pipeFree v && strippedB v)
  | none => true

/-- All well-formedness conditions on a tour record's rendered values. -/
def tidyTour (tour : Tour) : Bool :=
  noLt tour.title && tidyRO tour.slug && tidyRO tour.permalink &&
  tidyRO tour.website_id && tidyRO tour.arctic_shortname && tidyRO tour.arctic_id &&
  tidyRO tour.tour_type && tidyRO tour.region && tidyRO tour.duration &&
  tidyRO tour.season && tidyRO tour.style && tidyRO tour.skill_level &&
  tidyRO tour.departs && tidyRO tour.distance && tidyRO tour.subtitle &&
  tidyDesc tour.short_description && tidyDesc tour.description &&
  tidyDesc tour.special_notes &&
  tidyLabeled tour.meeting_time && tidyLabeled tour.meeting_location &&
  tidyLabeled tour.tour_rating && tidyLabeled tour.terrain &&
  tidyLabeled tour.technical_difficulty && tidyLabeled tour.altitude

/-- All well-formedness conditions on one itinerary day's values. -/
def tidyDay (d : ItinDay) : Bool :=
  tidyDayVal d.miles && tidyDayVal d.elevation && tidyDayVal d.trails_waypoints &&
  tidyDayVal d.camp_lodging && tidyDayVal d.meals && tidyContent d.content

/-- The field-map entry contributed by one marker-wrapped editable field:
present iff the stored value is truthy. -/
def fieldEntry (nm : Str) (o : Option Str) : List (Str × Str) :=
  match o with
  | some v => if v = [] then [] else [(nm, v)]
  | none => []

/-- The field map that parsing a freshly rendered tour document recovers: the
nine marker-wrapped editable fields in document order, placeholders (rendered
for falsy values) excluded.  `title` and `subtitle` render without markers
and are absent by construction. -/
def expectedFields (tour : Tour) : List (Str × Str) :=
  fieldEntry (txt "short_description") tour.short_description
  ++ fieldEntry (txt "description") tour.description
  ++ fieldEntry (txt "special_notes") tour.special_notes
  ++ fieldEntry (txt "meeting_time") tour.meeting_time
  ++ fieldEntry (txt "meeting_location") tour.meeting_location
  ++ fieldEntry (txt "tour_rating") tour.tour_rating
  ++ fieldEntry (txt "terrain") tour.terrain
  ++ fieldEntry (txt "technical_difficulty") tour.technical_difficulty
  ++ fieldEntry (txt "altitude") tour.altitude

/-- Optional-value truthiness normalization (`some "" ↦ none`). -/
def tOpt (o : Option Str) : Option Str :=
  match o with
  | some v => if v = [] then none else some v
  | none => none

/-- The parsed day that round-tripping an itinerary day yields: the same day
number and the same truthy sub-field values. -/
def expectedDay (d : ItinDay) : ParsedDay :=
  { day_number := d.day_number
    miles := tOpt d.miles
    elevation := tOpt d.elevation
    trails_waypoints := tOpt d.trails_waypoints
    camp_lodging := tOpt d.camp_lodging
    meals := tOpt d.meals
    content := tOpt d.content }

/-- The string of one rendered Field Block (open-marker line, value line,
close-marker line, newline-joined). -/
def fbStr (nm v : Str) : Str :=
  txt "<!-- FIELD:" ++ nm ++ txt " -->" ++ ('\n' :: v) ++ '\n' :: closeF nm

/-- `lit` cannot match along `u` when continued by any text whose first
character is not `*`: either a mismatch occurs inside `u`, or `u` runs out
and the next character `lit` needs is `*`. -/
def mismatchWithin (lit : Str) : Str → Bool
  | [] =>
    match lit with
    | [] => false
    | l0 :: _ => l0 == '*'
  | u0 :: ur =>
    match lit with
    | [] => false
    | l0 :: lr => (l0 != u0) || mismatchWithin lr ur

/-- Every suffix position of `seg` blocks a match of `lit` (relative to a
star-free continuation). -/
def segBlocksB (lit : Str) : Str → Bool
  | [] => true
  | c :: r => mismatchWithin lit (c :: r) && segBlocksB lit r

/-- The items rendered inside a day block, one string per present sub-field
(the stats line merges miles and elevation). -/
def dayItems (day : ItinDay) : List Str :=
  (let stats := optStat (txt "**Miles:** ") day.miles
      ++ optStat (txt "**Elevation:** ") day.elevation
   if stats.isEmpty then [] else [joinSep (txt " | ") stats])
  ++ (match day.trails_waypoints with
      | some v => if v = [] then [] else [txt "**Route:** " ++ v]
      | none => [])
  ++ (match day.camp_lodging with
      | some v => if v = [] then [] else [txt "**Lodging:** " ++ v]
      | none => [])
  ++ (match day.meals with
      | some v => if v = [] then [] else [txt "**Meals:** " ++ v]
      | none => [])
  ++ (match day.content with
      | some v => if v = [] then [] else [v]
      | none => [])

/-- `lit` mismatches strictly inside `u` (before `u` runs out), so `lit`
cannot be a prefix of `u ++ b` for any continuation `b`. -/
def mismatchIn (lit : Str) : Str → Bool
  | [] => false
  | u0 :: ur =>
    match lit with
    | [] => false
    | l0 :: lr => (l0 != u0) || mismatchIn lr ur

/-- Every suffix of the segment mismatches `lit` strictly inside the segment:
no occurrence of `lit` can start in the segment, whatever follows it. -/
def segBlocksStrict (lit : Str) : Str → Bool
  | [] => true
  | c :: r => mismatchIn lit (c :: r) && segBlocksStrict lit r

/-- A line-level segment of a rendered document: a run of marker-free lines,
one field block, or one itinerary-day block. -/
inductive LSeg where
  | plain (ls : List Str)
  | fblock (nm v : Str)
  | dblock (ds : Str) (inner : List Str)

/-- The lines a segment contributes to the document. -/
def linesOf : LSeg → List Str
  | .plain ls => ls
  | .fblock nm v => fbLines nm v
  | .dblock ds inner =>
    (txt "<!-- ITINERARY_DAY:" ++ ds ++ txt " -->") ::
      inner ++ [txt "<!-- /ITINERARY_DAY:" ++ ds ++ txt " -->"]

/-- All lines of a segment list. -/
def flattenL (segs : List LSeg) : List Str := segs.flatMap linesOf

/-- The flat text of one segment (its lines newline-joined). -/
def segStr : LSeg → Str
  | .plain ls => joinNL ls
  | .fblock nm v => fbStr nm v
  | .dblock ds inner =>
    txt "<!-- ITINERARY_DAY:" ++ ds ++ txt " -->" ++
      ('\n' :: joinNL inner ++ ['\n']) ++ closeD ds

/-- The flat text of a segment list (segments newline-joined). -/
def flattenS : List LSeg → Str
  | [] => []
  | [s] => segStr s
  | s :: s' :: r => segStr s ++ '\n' :: flattenS (s' :: r)

/-- Well-formedness of one segment: plain lines nonempty and `<`-free, field
names nonempty word strings with `<`-free values, day numbers nonempty digit
strings with nonempty `<`-free inner lines. -/
def wfSeg : LSeg → Bool
  | .plain ls => !ls.isEmpty && ls.all noLt
  | .fblock nm v => !nm.isEmpty && nm.all isWordChar && noLt v
  | .dblock ds inner =>
    !ds.isEmpty && ds.all Char.isDigit && !inner.isEmpty && inner.all noLt

/-- What the field scanner recovers from one segment, prepended to `k`. -/
def fieldsOfSeg : LSeg → List (Str × Str) → List (Str × Str)
  | .fblock nm v, k => (nm, '\n' :: v ++ ['\n']) :: k
  | _, k => k

/-- What the field scanner recovers from a segment list. -/
def fieldsOf (segs : List LSeg) : List (Str × Str) :=
  segs.foldr fieldsOfSeg []

/-- What the day scanner recovers from one segment, prepended to `k`. -/
def daysOfSeg : LSeg → List (Str × Str) → List (Str × Str)
  | .dblock ds inner, k => (ds, '\n' :: joinNL inner ++ ['\n']) :: k
  | _, k => k

/-- What the day scanner recovers from a segment list. -/
def daysOf (segs : List LSeg) : List (Str × Str) :=
  segs.foldr daysOfSeg []

/-- The segments of one rendered itinerary day of `generate_tour_document`. -/
def dayLSegs (day : ItinDay) : List LSeg :=
  [.plain [txt "### Day " ++ natToStr day.day_number],
   .dblock (natToStr day.day_number) (dayInnerLines day),
   .plain [txt ""]]

/-- The lines of `generate_tour_document` before the first Field Block. -/
def docPre1 (tour : Tour) (pricing : List PricingEntry) (fees : List FeeEntry) :
    List Str :=
  [txt "# " ++ tour.title, txt ""]
  ++ (match tour.subtitle with
      | some v => if v = [] then [] else [txt "*" ++ v ++ txt "*", txt ""]
      | none => [])
  ++ [txt "---", txt "## 🔗 Reference IDs",
      txt "> ⚠️ **Read-Only** - Cross-system identifiers for this tour.", txt ""]
  ++ refIdTableLines tour
  ++ [txt "---", txt "## 📋 Tour Information",
      txt "> ⚠️ **Read-Only Section** - This data comes from the website and cannot be edited here.",
      txt ""]
  ++ infoItemLines tour
  ++ pricingSectionLines
      (txt "> ⚠️ **Read-Only Section** - Pricing is managed in Arctic Reservations.")
      pricing fees
  ++ [txt "---", txt "## ✏️ Description",
      txt "> ✅ **Editable Section** - You can edit this content.", txt "",
      txt "### Short Description"]

/-- The segment decomposition of `generate_tour_document`'s line list. -/
def docLSegs (tour : Tour) (days : List ItinDay) (pricing : List PricingEntry)
    (fees : List FeeEntry) (now : Str) : List LSeg :=
  [.plain (docPre1 tour pricing fees),
   .fblock (txt "short_description")
     (pyOr tour.short_description (txt "_No short description yet._")),
   .plain [txt "", txt "### Full Description"],
   .fblock (txt "description") (pyOr tour.description (txt "_No description yet._")),
   .plain [txt ""]]
  ++ (match tour.special_notes with
      | some v =>
        if v = [] then []
        else [.plain [txt "### Special Notes"], .fblock (txt "special_notes") v,
              .plain [txt ""]]
      | none => [])
  ++ [.plain [txt "---", txt "## ✏️ Trip Details",
        txt "> ✅ **Editable Section** - You can edit this content.", txt "",
        txt "### Meeting Information"],
      .fblock (txt "meeting_time")
        (txt "**Time:** " ++ pyOr tour.meeting_time (txt "_Not specified_")),
      .plain [txt ""],
      .fblock (txt "meeting_location")
        (txt "**Location:** " ++ pyOr tour.meeting_location (txt "_Not specified_")),
      .plain [txt "", txt "### Difficulty & Terrain"],
      .fblock (txt "tour_rating")
        (txt "**Tour Rating:** " ++ pyOr tour.tour_rating (txt "_Not specified_")),
      .plain [txt ""],
      .fblock (txt "terrain")
        (txt "**Terrain:** " ++ pyOr tour.terrain (txt "_Not specified_")),
      .plain [txt ""],
      .fblock (txt "technical_difficulty")
        (txt "**Technical Difficulty:** " ++
          pyOr tour.technical_difficulty (txt "_Not specified_")),
      .plain [txt ""],
      .fblock (txt "altitude")
        (txt "**Altitude:** " ++ pyOr tour.altitude (txt "_Not specified_")),
      .plain [txt ""]]
  ++ (if days.isEmpty then []
      else [.plain [txt "---", txt "## ✏️ Day-by-Day Itinerary",
              txt "> ✅ **Editable Section** - You can edit this content.", txt ""]]
        ++ days.flatMap dayLSegs)
  ++ [.plain [txt "---", txt "*This document is synced with the RimTours database.*",
        txt "*Last sync: " ++ now ++ txt "*"]]

/-- A tidy pricing row: its rendered label and display amount are `<`-free. -/
def tidyPricing (p : PricingEntry) : Bool := noLt (priceLabel p) && noLt p.2.2

/-- A tidy fee row: its rendered label and display amount are `<`-free. -/
def tidyFee (f : FeeEntry) : Bool :=
  noLt (titleCase (underscoreToSpace f.1)) && noLt f.2

/-- No entry of the association list carries the key `nm`. -/
def keyFree (nm : Str) (m : List (Str × Str)) : Bool :=
  m.all fun p => p.1 != nm

/-- The optional single-line items of a day block (`**Route:** v` etc.). -/
def optItem1 (pre : Str) (o : Option Str) : List Str :=
  match o with
  | some v => if v = [] then [] else [pre ++ v]
  | none => []

/-- The optional free-text item of a day block. -/
def optItem0 (o : Option Str) : List Str :=
  match o with
  | some v => if v = [] then [] else [v]
  | none => []

/-- The (zero- or one-element) stats-line item of a day block. -/
def statsItems (mo eo : Option Str) : List Str :=
  let stats := optStat (txt "**Miles:** ") mo ++ optStat (txt "**Elevation:** ") eo
  if stats.isEmpty then [] else [joinSep (txt " | ") stats]

/-- The transformation `parse_day_content` applies to reach its free-text
`remaining`: the five label-run deletions followed by the `|` filter. -/
def scrub (x : Str) : Str :=
  (subLabeled (txt "**Meals:**") isLineChar
    (subLabeled (txt "**Lodging:**") isLineChar
      (subLabeled (txt "**Route:**") isLineChar
        (subLabeled (txt "**Elevation:**") isMilesChar
          (subLabeled (txt "**Miles:**") isMilesChar x))))).filter (fun c => c != '|')

/-! ## Basic scanner lemmas -/

theorem splitFirst_eq {pat : Str} : ∀ {t b a : Str}, splitFirst pat t = some (b, a) →
    t = b ++ pat ++ a := by
  intro t
  induction t with
  | nil =>
    intro b a h
    simp only [splitFirst] at h
    split at h
    · rename_i hp
      simp only [Option.some.injEq, Prod.mk.injEq] at h
      obtain ⟨rfl, rfl⟩ := h
      simp_all [List.isEmpty_iff]
    · simp at h
  | cons c rest ih =>
    intro b a h
    simp only [splitFirst] at h
    split at h
    · rename_i hp
      simp only [Option.some.injEq, Prod.mk.injEq] at h
      obtain ⟨rfl, rfl⟩ := h
      obtain ⟨s2, hs⟩ := List.isPrefixOf_iff_prefix.mp hp
      conv_lhs => rw [← hs]
      rw [← hs, List.nil_append, List.drop_left]
    · simp only [Option.map_eq_some'] at h
      obtain ⟨⟨b', a'⟩, hb, he⟩ := h
      simp only [Prod.mk.injEq] at he
      obtain ⟨he1, rfl⟩ := he
      subst he1
      simp [ih hb]

theorem matchFieldOpen_after_lt {t name after}
    (h : matchFieldOpen t = some (name, after)) : after.length < t.length := by
  simp only [matchFieldOpen] at h
  split at h
  · rename_i hp
    split at h
    · simp at h
    · split at h
      · simp only [Option.some.injEq, Prod.mk.injEq] at h
        obtain ⟨-, rfl⟩ := h
        have h1 : (txt "<!-- FIELD:").length ≤ t.length :=
          (List.isPrefixOf_iff_prefix.mp hp).length_le
        have h2 : (txt "<!-- FIELD:").length = 11 := by decide
        simp only [List.length_drop]
        omega
      · simp at h
  · simp at h

theorem fieldStep_tail_lt {t x} (h : fieldStep t = some x) :
    x.2.length < t.length := by
  simp only [fieldStep] at h
  split at h
  · simp at h
  · rename_i name after hm
    split at h
    · simp at h
    · rename_i between tail hs
      simp only [Option.some.injEq] at h
      subst h
      have h1 := splitFirst_eq hs
      have h2 := matchFieldOpen_after_lt hm
      have h3 : after.length = between.length + (closeF name).length + tail.length := by
        rw [h1]; simp [Nat.add_assoc]
      simp only []
      omega

theorem scanFieldsAux_fuel : ∀ {f1 f2 : Nat} {t : Str}, t.length ≤ f1 → t.length ≤ f2 →
    scanFieldsAux f1 t = scanFieldsAux f2 t := by
  intro f1
  induction f1 with
  | zero =>
    intro f2 t h1 _
    rcases t with _ | ⟨c, rest⟩
    · cases f2 <;> rfl
    · simp at h1
  | succ f1 ih =>
    intro f2 t h1 h2
    rcases t with _ | ⟨c, rest⟩
    · cases f2 <;> rfl
    · rcases f2 with - | f2
      · simp at h2
      · simp only [scanFieldsAux]
        simp only [List.length_cons, Nat.add_le_add_iff_right] at h1 h2
        rcases hs : fieldStep (c :: rest) with - | x
        · dsimp only
          exact ih h1 h2
        · have := fieldStep_tail_lt hs
          simp only [List.length_cons] at this
          dsimp only
          rw [@ih f2 x.2 (by omega) (by omega)]

theorem scanFields_nil : scanFields [] = [] := rfl

theorem scanFields_cons_step {c rest x} (h : fieldStep (c :: rest) = some x) :
    scanFields (c :: rest) = x.1 :: scanFields x.2 := by
  have e : scanFields (c :: rest) = scanFieldsAux (rest.length + 1) (c :: rest) := rfl
  rw [e]
  simp only [scanFieldsAux, h]
  have := fieldStep_tail_lt h
  simp only [List.length_cons] at this
  rw [@scanFieldsAux_fuel rest.length x.2.length x.2 (by omega) (le_refl _)]
  rfl

theorem scanFields_cons_skip {c rest} (h : fieldStep (c :: rest) = none) :
    scanFields (c :: rest) = scanFields rest := by
  have e : scanFields (c :: rest) = scanFieldsAux (rest.length + 1) (c :: rest) := rfl
  rw [e]
  simp only [scanFieldsAux, h]
  rfl

theorem matchDayOpen_after_lt {t ds after}
    (h : matchDayOpen t = some (ds, after)) : after.length < t.length := by
  simp only [matchDayOpen] at h
  split at h
  · rename_i hp
    split at h
    · simp at h
    · split at h
      · simp only [Option.some.injEq, Prod.mk.injEq] at h
        obtain ⟨-, rfl⟩ := h
        have h1 : (txt "<!-- ITINERARY_DAY:").length ≤ t.length :=
          (List.isPrefixOf_iff_prefix.mp hp).length_le
        have h2 : (txt "<!-- ITINERARY_DAY:").length = 19 := by decide
        simp only [List.length_drop]
        omega
      · simp at h
  · simp at h

theorem dayStep_tail_lt {t x} (h : dayStep t = some x) : x.2.length < t.length := by
  simp only [dayStep] at h
  split at h
  · simp at h
  · rename_i ds after hm
    split at h
    · simp at h
    · rename_i between tail hs
      simp only [Option.some.injEq] at h
      subst h
      have h1 := splitFirst_eq hs
      have h2 := matchDayOpen_after_lt hm
      have h3 : after.length = between.length + (closeD ds).length + tail.length := by
        rw [h1]; simp [Nat.add_assoc]
      simp only []
      omega

theorem scanDaysAux_fuel : ∀ {f1 f2 : Nat} {t : Str}, t.length ≤ f1 → t.length ≤ f2 →
    scanDaysAux f1 t = scanDaysAux f2 t := by
  intro f1
  induction f1 with
  | zero =>
    intro f2 t h1 _
    rcases t with _ | ⟨c, rest⟩
    · cases f2 <;> rfl
    · simp at h1
  | succ f1 ih =>
    intro f2 t h1 h2
    rcases t with _ | ⟨c, rest⟩
    · cases f2 <;> rfl
    · rcases f2 with - | f2
      · simp at h2
      · simp only [scanDaysAux]
        simp only [List.length_cons, Nat.add_le_add_iff_right] at h1 h2
        rcases hs : dayStep (c :: rest) with - | x
        · dsimp only
          exact ih h1 h2
        · have := dayStep_tail_lt hs
          simp only [List.length_cons] at this
          dsimp only
          rw [@ih f2 x.2 (by omega) (by omega)]

theorem scanDays_nil : scanDays [] = [] := rfl

theorem scanDays_cons_step {c rest x} (h : dayStep (c :: rest) = some x) :
    scanDays (c :: rest) = x.1 :: scanDays x.2 := by
  have e : scanDays (c :: rest) = scanDaysAux (rest.length + 1) (c :: rest) := rfl
  rw [e]
  simp only [scanDaysAux, h]
  have := dayStep_tail_lt h
  simp only [List.length_cons] at this
  rw [@scanDaysAux_fuel rest.length x.2.length x.2 (by omega) (le_refl _)]
  rfl

theorem scanDays_cons_skip {c rest} (h : dayStep (c :: rest) = none) :
    scanDays (c :: rest) = scanDays rest := by
  have e : scanDays (c :: rest) = scanDaysAux (rest.length + 1) (c :: rest) := rfl
  rw [e]
  simp only [scanDaysAux, h]
  rfl

theorem subLabeledAux_fuel {lit P} : ∀ {f1 f2 : Nat} {t : Str},
    t.length ≤ f1 → t.length ≤ f2 → subLabeledAux lit P f1 t = subLabeledAux lit P f2 t := by
  intro f1
  induction f1 with
  | zero =>
    intro f2 t h1 _
    rcases t with _ | ⟨c, rest⟩
    · cases f2 <;> rfl
    · simp at h1
  | succ f1 ih =>
    intro f2 t h1 h2
    rcases t with _ | ⟨c, rest⟩
    · cases f2 <;> rfl
    · rcases f2 with - | f2
      · simp at h2
      · simp only [List.length_cons, Nat.add_le_add_iff_right] at h1 h2
        simp only [subLabeledAux]
        split
        · rcases hr : ((c :: rest).drop lit.length).takeWhile P with - | ⟨r0, rs⟩
          · rw [ih h1 h2]
          · have hl : (((c :: rest).drop lit.length).drop (rs.length + 1)).length ≤
                rest.length := by
              simp only [List.length_drop, List.length_cons]
              omega
            dsimp only
            rw [@ih f2 (((c :: rest).drop lit.length).drop (rs.length + 1)) (by omega)
              (by omega)]
        · rw [ih h1 h2]

theorem subLabeled_nil {lit P} : subLabeled lit P [] = [] := rfl

theorem subLabeled_cons_noPre {lit P c rest} (h : lit.isPrefixOf (c :: rest) = false) :
    subLabeled lit P (c :: rest) = c :: subLabeled lit P rest := by
  have e : subLabeled lit P (c :: rest) = subLabeledAux lit P (rest.length + 1) (c :: rest) :=
    rfl
  rw [e]
  simp only [subLabeledAux, h]
  simp only [Bool.false_eq_true, if_false]
  rfl

theorem subLabeled_cons_emptyRun {lit P c rest}
    (h : lit.isPrefixOf (c :: rest) = true)
    (hr : ((c :: rest).drop lit.length).takeWhile P = []) :
    subLabeled lit P (c :: rest) = c :: subLabeled lit P rest := by
  have e : subLabeled lit P (c :: rest) = subLabeledAux lit P (rest.length + 1) (c :: rest) :=
    rfl
  rw [e]
  simp only [subLabeledAux, h, if_true, hr]
  rfl

theorem subLabeled_cons_run {lit P c rest r0 rs}
    (h : lit.isPrefixOf (c :: rest) = true)
    (hr : ((c :: rest).drop lit.length).takeWhile P = r0 :: rs) :
    subLabeled lit P (c :: rest) =
      subLabeled lit P (((c :: rest).drop lit.length).drop (rs.length + 1)) := by
  have e : subLabeled lit P (c :: rest) = subLabeledAux lit P (rest.length + 1) (c :: rest) :=
    rfl
  rw [e]
  simp only [subLabeledAux, h, if_true, hr]
  apply subLabeledAux_fuel
  · simp only [List.length_drop, List.length_cons]
    omega
  · exact le_refl _

/-! ## Containment lemmas -/

theorem containsSub_of_prefix {t pat : Str} (h : pat.isPrefixOf t = true) :
    containsSub t pat = true := by
  rcases t with - | ⟨c, rest⟩
  · obtain ⟨s2, hs⟩ := List.isPrefixOf_iff_prefix.mp h
    rcases pat with - | ⟨p0, pr⟩
    · rfl
    · simp at hs
  · simp [containsSub, h]

theorem containsSub_cons_of {c : Char} {rest pat : Str}
    (h : containsSub rest pat = true) : containsSub (c :: rest) pat = true := by
  simp [containsSub, h]

theorem containsSub_append_right {x y pat : Str} (h : containsSub y pat = true) :
    containsSub (x ++ y) pat = true := by
  induction x with
  | nil => simpa
  | cons c cs ih => exact containsSub_cons_of ih

theorem containsSub_at {x y pat : Str} :
    containsSub (x ++ pat ++ y) pat = true := by
  rw [List.append_assoc]
  apply containsSub_append_right
  rcases pat with - | ⟨p0, pr⟩
  · rcases y with - | ⟨c, r⟩
    · rfl
    · simp [containsSub]
  · apply containsSub_of_prefix
    apply List.isPrefixOf_iff_prefix.mpr
    exact ⟨y, rfl⟩

theorem containsSub_of_drop {pat : Str} :
    ∀ {t : Str} {n : Nat}, containsSub (t.drop n) pat = true → containsSub t pat = true := by
  intro t
  induction t with
  | nil =>
    intro n h
    simpa using h
  | cons c rest ih =>
    intro n h
    rcases n with - | n
    · simpa using h
    · exact containsSub_cons_of (ih h)

theorem splitFirst_some_contains {pat t : Str} {p : Str × Str}
    (h : splitFirst pat t = some p) : containsSub t pat = true := by
  rw [splitFirst_eq h]
  exact containsSub_at

theorem splitFirst_none_of_not_contains {pat t : Str}
    (h : containsSub t pat = false) : splitFirst pat t = none := by
  rcases hs : splitFirst pat t with - | p
  · rfl
  · rw [splitFirst_some_contains hs] at h
    cases h

/-! ## C2 — ownership enforcement on pull -/

theorem find?_filter_editable_none {updates : List (Str × Str)} {f : Str}
    (hf : EDITABLE_FIELDS.contains f = false) :
    (updates.filter fun p => EDITABLE_FIELDS.contains p.1).find?
      (fun p => p.1 == f) = none := by
  rw [List.find?_eq_none]
  intro x hx hpx
  have hx1 : EDITABLE_FIELDS.contains x.1 = true := by
    have := (List.mem_filter.mp hx).2
    simpa using this
  have hxf : x.1 = f := by simpa using hpx
  rw [hxf] at hx1
  rw [hx1] at hf
  cases hf

theorem update_tour_preserves_non_editable {row : TourRow}
    {updates : List (Str × Str)} {nowTs : Str} {f : Str}
    (hf : EDITABLE_FIELDS.contains f = false) :
    (update_tour_from_outline row updates nowTs).attrs f = row.attrs f := by
  simp only [update_tour_from_outline]
  split
  · rfl
  · show (match (updates.filter fun p => EDITABLE_FIELDS.contains p.1).find?
        (fun p => p.1 == f) with
      | some p => some p.2
      | none => row.attrs f) = row.attrs f
    rw [find?_filter_editable_none hf]

/-- C2: for every field name that is not in `EDITABLE_FIELDS` (the fields
classified read-only-display or system-generated), a pull leaves that
attribute column of the canonical tour row unchanged, for every document
text the remote store may return — in particular even when the text contains
a Field Block carrying that field's name. -/
theorem C2_pull_never_writes_non_editable (row : TourRow) (store : ItinStore)
    (tourId : Nat) (docId : Option Str) (docStore : Str → Option Str)
    (nowTs : Str) (dryRun : Bool) (f : Str)
    (hf : EDITABLE_FIELDS.contains f = false) :
    (pull_tour_from_outline row store tourId docId docStore nowTs dryRun).1.attrs f =
      row.attrs f := by
  rcases docId with - | did
  · rfl
  · simp only [pull_tour_from_outline]
    rcases hds : docStore did with - | text
    · rfl
    · by_cases hd : dryRun = true
      · simp only [hd, if_true]
      · simp only [Bool.not_eq_true] at hd
        simp only [hd, Bool.false_eq_true, if_false]
        exact update_tour_preserves_non_editable hf

/-- Witness for C2: a document whose text consists of a Field Block named
`slug` (a read-only field) does not change the `slug` column. -/
theorem C2_witness :
    EDITABLE_FIELDS.contains (txt "slug") = false ∧
    (pull_tour_from_outline
        { attrs := fun f => if f == txt "slug" then some (txt "moab") else none,
          last_outline_sync := none }
        (fun _ _ => none) 1 (some (txt "d1"))
        (fun _ => some (txt "<!-- FIELD:slug -->\nhacked\n<!-- /FIELD:slug -->"))
        (txt "ts") false).1.attrs (txt "slug") = some (txt "moab") :=
  ⟨by decide,
   by
    rw [C2_pull_never_writes_non_editable _ _ _ _ _ _ _ _ (by decide)]
    decide⟩

/-! ## C6 — pull frame property for absent fields -/

theorem find?_filter_none_of_none {q : Str × Str → Bool} {updates : List (Str × Str)}
    {f : Str} (h : updates.find? (fun p => p.1 == f) = none) :
    (updates.filter q).find? (fun p => p.1 == f) = none := by
  rw [List.find?_eq_none] at h ⊢
  intro x hx
  exact h x (List.mem_of_mem_filter hx)

theorem update_tour_preserves_absent {row : TourRow} {updates : List (Str × Str)}
    {nowTs : Str} {f : Str} (hf : updates.find? (fun p => p.1 == f) = none) :
    (update_tour_from_outline row updates nowTs).attrs f = row.attrs f := by
  simp only [update_tour_from_outline]
  split
  · rfl
  · show (match (updates.filter fun p => EDITABLE_FIELDS.contains p.1).find?
        (fun p => p.1 == f) with
      | some p => some p.2
      | none => row.attrs f) = row.attrs f
    rw [find?_filter_none_of_none hf]

/-- C6: a pull writes only the columns named in the parsed field map (plus the
`last_outline_sync` timestamp): every attribute column absent from the parsed
map is left unchanged — in particular it is never nulled. -/
theorem C6_pull_frame (row : TourRow) (store : ItinStore) (tourId : Nat)
    (did : Str) (docStore : Str → Option Str) (text : Str) (nowTs : Str)
    (f : Str) (hdoc : docStore did = some text)
    (hf : dictGet? (parse_outline_document text).fields f = none) :
    (pull_tour_from_outline row store tourId (some did) docStore nowTs false).1.attrs f =
      row.attrs f := by
  simp only [pull_tour_from_outline, hdoc]
  simp only [dictGet?, Option.map_eq_none'] at hf
  simp only [Bool.false_eq_true, if_false]
  exact update_tour_preserves_absent hf

/-- Witness for C6: pulling a document that only carries a `description` block
leaves the (editable) `terrain` column untouched. -/
theorem C6_witness :
    dictGet?
      (parse_outline_document
        (txt "<!-- FIELD:description -->\ngreat\n<!-- /FIELD:description -->")).fields
      (txt "terrain") = none ∧
    (pull_tour_from_outline
        { attrs := fun f => if f == txt "terrain" then some (txt "rocky") else none,
          last_outline_sync := none }
        (fun _ _ => none) 1 (some (txt "d1"))
        (fun _ => some (txt "<!-- FIELD:description -->\ngreat\n<!-- /FIELD:description -->"))
        (txt "ts") false).1.attrs (txt "terrain") = some (txt "rocky") :=
  ⟨by decide,
   by
    have h := C6_pull_frame
      { attrs := fun f => if f == txt "terrain" then some (txt "rocky") else none,
        last_outline_sync := none }
      (fun _ _ => none) 1 (txt "d1")
      (fun _ => some (txt "<!-- FIELD:description -->\ngreat\n<!-- /FIELD:description -->"))
      (txt "<!-- FIELD:description -->\ngreat\n<!-- /FIELD:description -->")
      (txt "ts") (txt "terrain") rfl (by decide)
    rw [h]
    decide⟩

/-! ## C5 — day upsert replace semantics -/

theorem update_itinerary_spec (store : ItinStore) (tourId : Nat) :
    ∀ (days : List ParsedDay) (n : Nat), n ≠ 0 →
    (update_itinerary_from_outline store tourId days).1 tourId n =
      match days.reverse.find? (fun d => d.day_number == n) with
      | some d => some (dayRowOf d)
      | none => store tourId n := by
  have general : ∀ (days : List ParsedDay) (s : ItinStore) (k : Nat) (n : Nat), n ≠ 0 →
      (days.foldl
        (fun acc d =>
          if d.day_number == 0 then acc else (upsertDay acc.1 tourId d, acc.2 + 1))
        (s, k)).1 tourId n =
        match days.reverse.find? (fun d => d.day_number == n) with
        | some d => some (dayRowOf d)
        | none => s tourId n := by
    intro days
    induction days with
    | nil => intro s k n _; rfl
    | cons d rest ih =>
      intro s k n hn
      simp only [List.foldl_cons, List.reverse_cons]
      by_cases h0 : d.day_number = 0
      · have hb : (d.day_number == 0) = true := by simpa using h0
        rw [hb]
        simp only [if_true]
        rw [ih s k n hn, List.find?_append]
        have hdn : (d.day_number == n) = false := by
          simp only [beq_eq_false_iff_ne, ne_eq]
          omega
        rcases hr : rest.reverse.find? (fun d => d.day_number == n) with - | d' <;>
          rw [hr] <;> simp [List.find?, hdn]
      · have hb : (d.day_number == 0) = false := by simpa using h0
        rw [hb]
        simp only [Bool.false_eq_true, if_false]
        rw [ih (upsertDay s tourId d) (k + 1) n hn, List.find?_append]
        rcases hr : rest.reverse.find? (fun d => d.day_number == n) with - | d' <;> rw [hr]
        · by_cases hd : d.day_number = n
          · have h1 : (d.day_number == n) = true := by simpa using hd
            have h2 : (n == d.day_number) = true := by
              simp only [beq_iff_eq]
              omega
            simp [List.find?, upsertDay, h1, h2]
          · have h1 : (d.day_number == n) = false := by simpa using hd
            have h2 : (n == d.day_number) = false := by
              simp only [beq_eq_false_iff_ne, ne_eq]
              omega
            simp [List.find?, upsertDay, h1, h2]
        · simp
  intro days n hn
  exact general days store 0 n hn

/-- C5 (amended): for every parsed itinerary day whose day number `n` is
nonzero, `update_itinerary_from_outline` replaces the whole `(tour, n)` row
with the parsed sub-fields — absent sub-fields become NULL, nothing is merged
from the previous row — and sets the row's source to `'outline'`; when several
parsed days carry the same number, the last one wins.  (Parsed days with day
number 0 are skipped by `if not day_num: continue`, which is what the
counterexample exhibits.) -/
theorem C5_day_upsert_replaces (store : ItinStore) (tourId : Nat)
    (days : List ParsedDay) (pre post : List ParsedDay) (d : ParsedDay)
    (hsplit : days = pre ++ d :: post) (hn : d.day_number ≠ 0)
    (hlast : ∀ d' ∈ post, d'.day_number ≠ d.day_number) :
    (update_itinerary_from_outline store tourId days).1 tourId d.day_number =
      some (dayRowOf d) := by
  rw [update_itinerary_spec store tourId days d.day_number hn]
  subst hsplit
  have hfind : ((pre ++ d :: post).reverse.find? fun d' => d'.day_number == d.day_number) =
      some d := by
    rw [List.reverse_append, List.reverse_cons, List.append_assoc, List.find?_append,
      List.find?_append]
    have hpost : (post.reverse.find? fun d' => d'.day_number == d.day_number) = none := by
      rw [List.find?_eq_none]
      intro x hx hbx
      exact hlast x (List.mem_reverse.mp hx) (by simpa using hbx)
    rw [hpost]
    simp [List.find?]
  rw [hfind]

/-- Witness for C5: a pulled day-2 record with only `miles` set replaces an
existing fully populated day-2 row; lodging and content become NULL and the
source becomes `'outline'`. -/
theorem C5_witness :
    (update_itinerary_from_outline
        (fun tid n =>
          if tid == 1 && n == 2 then
            some { miles := some (txt "9"), camp_lodging := some (txt "camp"),
                   content := some (txt "old day"), source := txt "merge" }
          else none)
        1 [{ day_number := 2, miles := some (txt "12-14") }]).1 1 2 =
      some { miles := some (txt "12-14"), source := txt "outline" } := by
  have h := C5_day_upsert_replaces
    (fun tid n =>
      if tid == 1 && n == 2 then
        some { miles := some (txt "9"), camp_lodging := some (txt "camp"),
               content := some (txt "old day"), source := txt "merge" }
      else none)
    1 [{ day_number := 2, miles := some (txt "12-14") }]
    [] [] { day_number := 2, miles := some (txt "12-14") } rfl (by decide)
    (by intro d' hd'; cases hd')
  exact h

/-- Counterexample for C5 as stated: the parser accepts an
`ITINERARY_DAY:0` block, but `update_itinerary_from_outline` skips every
parsed day whose day number is 0 (`if not day_num: continue`), so the
existing `(tour, 0)` row keeps its old sub-fields and its old source. -/
theorem C5_counterexample :
    parseDays
        (txt "<!-- ITINERARY_DAY:0 -->\n**Miles:** new\n<!-- /ITINERARY_DAY:0 -->") =
      [{ day_number := 0, miles := some (txt "new") }] ∧
    (update_itinerary_from_outline
        (fun tid n =>
          if tid == 1 && n == 0 then
            some { miles := some (txt "old"), source := txt "legacy" }
          else none)
        1
        (parseDays
          (txt "<!-- ITINERARY_DAY:0 -->\n**Miles:** new\n<!-- /ITINERARY_DAY:0 -->"))).1
        1 0 =
      some { miles := some (txt "old"), source := txt "legacy" } := by
  constructor
  · decide
  · decide

/-! ## C7 — parser totality -/

theorem scanFields_eq_nil_of_no_open : ∀ {t : Str}, hasFieldOpen t = false →
    scanFields t = [] := by
  intro t
  induction t with
  | nil => intro _; rfl
  | cons c rest ih =>
    intro h
    simp only [hasFieldOpen, Bool.or_eq_false_iff] at h
    obtain ⟨ho, hrest⟩ := h
    have hstep : fieldStep (c :: rest) = none := by
      rcases hm : matchFieldOpen (c :: rest) with - | p
      · simp [fieldStep, hm]
      · rw [hm] at ho
        simp at ho
    rw [scanFields_cons_skip hstep]
    exact ih hrest

theorem scanDays_eq_nil_of_no_open : ∀ {t : Str}, hasDayOpen t = false →
    scanDays t = [] := by
  intro t
  induction t with
  | nil => intro _; rfl
  | cons c rest ih =>
    intro h
    simp only [hasDayOpen, Bool.or_eq_false_iff] at h
    obtain ⟨ho, hrest⟩ := h
    have hstep : dayStep (c :: rest) = none := by
      rcases hm : matchDayOpen (c :: rest) with - | p
      · simp [dayStep, hm]
      · rw [hm] at ho
        simp at ho
    rw [scanDays_cons_skip hstep]
    exact ih hrest

/-- C7: `parse_outline_document` is a total computable function (it is defined
by structural recursion, so it terminates and returns for every input text),
and on a text with no well-formed open marker at any position — hand-edited,
reordered, or marker-free text included — it returns the empty field map and
the empty itinerary list. -/
theorem C7_parse_total_worst_case (t : Str) (h1 : hasFieldOpen t = false)
    (h2 : hasDayOpen t = false) :
    parse_outline_document t = { fields := [], itinerary_days := [] } := by
  have hf := scanFields_eq_nil_of_no_open h1
  have hd := scanDays_eq_nil_of_no_open h2
  simp [parse_outline_document, parseFields, parseDays, hf, hd]

/-- Witness for C7 at a hand-edited text with a partial marker and no
well-formed one. -/
theorem C7_witness :
    hasFieldOpen (txt "free prose, a stray <!-- FIELD: --> and\nno real markers") = false ∧
    hasDayOpen (txt "free prose, a stray <!-- FIELD: --> and\nno real markers") = false ∧
    parse_outline_document (txt "free prose, a stray <!-- FIELD: --> and\nno real markers") =
      { fields := [], itinerary_days := [] } :=
  ⟨by decide, by decide,
   C7_parse_total_worst_case _ (by decide) (by decide)⟩

/-! ## C8 — malformed marker tolerance -/

theorem prefix_drop_eq {p s l : Str} (h : p ++ s = l) : l.drop p.length = s := by
  rw [← h, List.drop_left]

theorem matchFieldOpen_decomp {t name after : Str}
    (h : matchFieldOpen t = some (name, after)) :
    t = txt "<!-- FIELD:" ++ name ++ txt " -->" ++ after := by
  simp only [matchFieldOpen] at h
  split at h
  · rename_i hp
    split at h
    · simp at h
    · split at h
      · rename_i hq
        simp only [Option.some.injEq, Prod.mk.injEq] at h
        obtain ⟨h1, h2⟩ := h
        obtain ⟨s2, hs⟩ := List.isPrefixOf_iff_prefix.mp hp
        have e2 : t.drop 11 = s2 := by
          have := prefix_drop_eq hs
          simpa using this
        obtain ⟨u, hu⟩ := (List.takeWhile_prefix isWordChar (l := t.drop 11))
        obtain ⟨w, hw⟩ := List.isPrefixOf_iff_prefix.mp hq
        have e3 : (t.drop 11).drop ((t.drop 11).takeWhile isWordChar).length = u :=
          prefix_drop_eq hu
        rw [e3] at hw h2
        have e4 : u.drop 4 = w := by
          have := prefix_drop_eq hw
          simpa using this
        rw [e4] at h2
        subst h1
        subst h2
        rw [List.append_assoc, List.append_assoc, hw, hu, e2, hs]
      · simp at h
  · simp at h

theorem fieldStep_decomp {t : Str} {x : (Str × Str) × Str}
    (h : fieldStep t = some x) :
    t = txt "<!-- FIELD:" ++ x.1.1 ++ txt " -->" ++
        (x.1.2 ++ closeF x.1.1 ++ x.2) := by
  simp only [fieldStep] at h
  split at h
  · simp at h
  · rename_i name after hm
    split at h
    · simp at h
    · rename_i between tail hsp
      simp only [Option.some.injEq] at h
      subst h
      have h1 := matchFieldOpen_decomp hm
      have h2 := splitFirst_eq hsp
      rw [h1, h2]

theorem scanFieldsAux_mem_contains : ∀ {fuel : Nat} {t nm b : Str},
    (nm, b) ∈ scanFieldsAux fuel t →
    containsSub t (txt "<!-- FIELD:" ++ nm ++ txt " -->") = true ∧
    containsSub t (closeF nm) = true := by
  intro fuel
  induction fuel with
  | zero =>
    intro t nm b h
    rcases t with - | ⟨c, rest⟩ <;> simp [scanFieldsAux] at h
  | succ fuel ih =>
    intro t nm b h
    rcases t with - | ⟨c, rest⟩
    · simp [scanFieldsAux] at h
    · simp only [scanFieldsAux] at h
      rcases hs : fieldStep (c :: rest) with - | x
      · rw [hs] at h
        have := ih h
        exact ⟨containsSub_cons_of this.1, containsSub_cons_of this.2⟩
      · rw [hs] at h
        obtain ⟨⟨nm', b'⟩, tail'⟩ := x
        have hdec := fieldStep_decomp hs
        simp only at hdec
        simp only [List.mem_cons, Prod.mk.injEq] at h
        rcases h with ⟨rfl, rfl⟩ | h
        · constructor
          · rw [hdec]
            have e : txt "<!-- FIELD:" ++ nm ++ txt " -->" ++
                (b ++ closeF nm ++ tail') =
                [] ++ (txt "<!-- FIELD:" ++ nm ++ txt " -->") ++
                (b ++ closeF nm ++ tail') := by simp
            rw [e]
            exact containsSub_at
          · rw [hdec]
            apply containsSub_append_right
            exact containsSub_at
        · have hc := ih h
          constructor
          · rw [hdec]
            apply containsSub_append_right
            apply containsSub_append_right
            exact hc.1
          · rw [hdec]
            apply containsSub_append_right
            apply containsSub_append_right
            exact hc.2

theorem scanFields_mem_contains {t nm b : Str} (h : (nm, b) ∈ scanFields t) :
    containsSub t (txt "<!-- FIELD:" ++ nm ++ txt " -->") = true ∧
    containsSub t (closeF nm) = true :=
  scanFieldsAux_mem_contains h

theorem mem_dictInsert {m : List (Str × Str)} {k v nm u : Str}
    (h : (nm, u) ∈ dictInsert m k v) :
    (nm, u) ∈ m ∨ (nm = k ∧ u = v) := by
  simp only [dictInsert] at h
  split at h
  · obtain ⟨p, hp, he⟩ := List.mem_map.mp h
    split at he
    · right
      have he2 : (nm, u) = (k, v) := he.symm
      simp only [Prod.mk.injEq] at he2
      exact he2
    · left
      exact he ▸ hp
  · rcases List.mem_append.mp h with h | h
    · left; exact h
    · right
      simp only [List.mem_singleton, Prod.mk.injEq] at h
      exact h

theorem pfStep_fold_key : ∀ (l : List (Str × Str)) (m : List (Str × Str))
    {nm v : Str}, (nm, v) ∈ l.foldl pfStep m →
    (∃ b, (nm, b) ∈ l) ∨ (∃ v', (nm, v') ∈ m) := by
  intro l
  induction l with
  | nil =>
    intro m nm v h
    exact Or.inr ⟨v, h⟩
  | cons p rest ih =>
    intro m nm v h
    simp only [List.foldl_cons] at h
    rcases ih _ h with ⟨b, hb⟩ | ⟨v', hv'⟩
    · exact Or.inl ⟨b, List.mem_cons_of_mem _ hb⟩
    · simp only [pfStep] at hv'
      split at hv'
      · rcases mem_dictInsert hv' with hm | ⟨rfl, -⟩
        · exact Or.inr ⟨v', hm⟩
        · exact Or.inl ⟨p.2, List.mem_cons_self p rest⟩
      · exact Or.inr ⟨v', hv'⟩

theorem parseFields_key_scanned {t nm v : Str} (h : (nm, v) ∈ parseFields t) :
    ∃ b, (nm, b) ∈ scanFields t := by
  rcases pfStep_fold_key (scanFields t) [] h with h | ⟨v', hv'⟩
  · exact h
  · cases hv'

/-- C8: a field is recovered only when both a well-formed open marker and a
matching well-formed close marker with the same name occur in the text; in
particular, for every document text with no close marker
`<!-- /FIELD:description -->`, parsing yields no value for `description` (and,
the parser being a total function, no error). -/
theorem C8_unterminated_marker_no_value (t : Str)
    (h : containsSub t (closeF (txt "description")) = false) :
    dictGet? (parseFields t) (txt "description") = none := by
  rcases hg : dictGet? (parseFields t) (txt "description") with - | v
  · rfl
  · exfalso
    simp only [dictGet?, Option.map_eq_some'] at hg
    obtain ⟨p, hp, -⟩ := hg
    have hmem := List.mem_of_find?_eq_some hp
    have hk : p.1 = txt "description" := by
      have := List.find?_some hp
      simpa using this
    obtain ⟨b, hb⟩ := parseFields_key_scanned
      (show (p.1, p.2) ∈ parseFields t from by simpa using hmem)
    rw [hk] at hb
    have := (scanFields_mem_contains hb).2
    rw [this] at h
    cases h

/-- Witness for C8 at the unterminated document of the spec scenario. -/
theorem C8_witness :
    containsSub (txt "<!-- FIELD:description -->\nnew text, but the close marker is gone")
      (closeF (txt "description")) = false ∧
    dictGet?
      (parseFields
        (txt "<!-- FIELD:description -->\nnew text, but the close marker is gone"))
      (txt "description") = none :=
  ⟨by decide, C8_unterminated_marker_no_value _ (by decide)⟩

/-! ## C9 — placeholder exclusion -/

theorem pfStep_fold_values : ∀ (l : List (Str × Str)) (m : List (Str × Str)),
    (∀ p ∈ m, p.2 ≠ [] ∧ p.2 ≠ txt "_No short description yet._" ∧
      p.2 ≠ txt "_No description yet._") →
    ∀ p ∈ l.foldl pfStep m,
      p.2 ≠ [] ∧ p.2 ≠ txt "_No short description yet._" ∧
        p.2 ≠ txt "_No description yet._" := by
  intro l
  induction l with
  | nil =>
    intro m hm p hp
    exact hm p hp
  | cons q rest ih =>
    intro m hm p hp
    simp only [List.foldl_cons] at hp
    refine ih _ ?_ p hp
    intro r hr
    simp only [pfStep] at hr
    split at hr
    · rename_i hcond
      obtain ⟨r1, r2⟩ := r
      rcases mem_dictInsert hr with hrm | ⟨-, rfl⟩
      · exact hm _ hrm
      · exact hcond
    · exact hm _ hr

/-- C9 (amended): the parser excludes exactly the default placeholders of
`generate_tour_document`: every field value it emits is nonempty and differs
from `_No short description yet._` and `_No description yet._`, and for the
six labelled fields a rendered `**Label:** _Not specified_` line is mapped to
the empty value and therefore excluded (shown for the rendered
`meeting_time` block).  The placeholders that only
`generate_reference_header` writes are not excluded (see the
counterexample). -/
theorem C9_placeholder_exclusion :
    (∀ (t nm v : Str), (nm, v) ∈ parseFields t →
      v ≠ [] ∧ v ≠ txt "_No short description yet._" ∧
        v ≠ txt "_No description yet._") ∧
    parseFields
        (txt "<!-- FIELD:meeting_time -->\n**Time:** _Not specified_\n<!-- /FIELD:meeting_time -->") =
      [] := by
  constructor
  · intro t nm v h
    exact pfStep_fold_values (scanFields t) [] (by intro p hp; cases hp) (nm, v) h
  · decide

/-- Witness for C9: instantiating the universally quantified part at the
parse of a rendered document containing a real description value. -/
theorem C9_witness :
    (txt "description",
        txt "A real value") ∈
      parseFields (txt "<!-- FIELD:description -->\nA real value\n<!-- /FIELD:description -->") ∧
    txt "A real value" ≠ [] ∧
    txt "A real value" ≠ txt "_No short description yet._" ∧
    txt "A real value" ≠ txt "_No description yet._" :=
  ⟨by decide,
   C9_placeholder_exclusion.1
     (txt "<!-- FIELD:description -->\nA real value\n<!-- /FIELD:description -->")
     (txt "description") (txt "A real value") (by decide)⟩

/-- Counterexample for C9 as stated: the placeholder that
`generate_reference_header` renders for an empty description is parsed back
as a real value — the parser's exclusion list only covers the placeholders of
`generate_tour_document` — so a pull would overwrite the canonical
description with `_Enter the full tour description._`. -/
theorem C9_counterexample :
    dictGet?
        (parseFields (generate_reference_header { title := txt "T" } [] [] []))
        (txt "description") =
      some (txt "_Enter the full tour description._") := by
  decide

/-! ## C3 — push skip semantics -/

/-- C3 (amended): a push without the force flag performs zero remote write
calls and reports `skipped` exactly when the existing remote document's text
contains the heading `## ✏️ Editable Content` (the sentinel the code tests
for), for every tour and document.  The counterexample shows that the
presence of mere Field Blocks is not the tested condition. -/
theorem C3_push_skips_on_sentinel (tour : Tour) (days : List ItinDay)
    (pricing : List PricingEntry) (fees : List FeeEntry) (d : ExistingDoc)
    (store : Str → Option Str) (cid dp mp now : Str)
    (h : containsSub ((store d.id).getD []) (txt "## ✏️ Editable Content") = true) :
    ((push_tour_to_outline tour days pricing fees (some d) store cid dp mp now
        false false).calls.filter RemoteCall.isWrite = []) ∧
    (push_tour_to_outline tour days pricing fees (some d) store cid dp mp now
        false false).action = txt "skipped" := by
  simp only [push_tour_to_outline, Bool.false_eq_true, if_false]
  rw [h]
  simp [RemoteCall.isWrite, List.filter]

/-- Witness for C3: a document whose text is exactly the reference header of
some tour (hence contains the sentinel) is skipped with no write. -/
theorem C3_witness :
    containsSub
        ((fun i => if i == txt "d1" then
            some (generate_reference_header { title := txt "T" } [] [] []) else none)
          (txt "d1") |>.getD [])
        (txt "## ✏️ Editable Content") = true ∧
    ((push_tour_to_outline { title := txt "T" } [] [] []
        (some { id := txt "d1", title := txt "s" })
        (fun i => if i == txt "d1" then
          some (generate_reference_header { title := txt "T" } [] [] []) else none)
        [] [] [] (txt "now") false false).calls.filter RemoteCall.isWrite = []) :=
  ⟨by decide,
   (C3_push_skips_on_sentinel { title := txt "T" } [] [] []
     { id := txt "d1", title := txt "s" }
     (fun i => if i == txt "d1" then
       some (generate_reference_header { title := txt "T" } [] [] []) else none)
     [] [] [] (txt "now") (by decide)).1⟩

/-- Counterexample for C3 as stated: a remote document whose text contains a
Field Block (but, like every document `generate_tour_document` creates, not
the `## ✏️ Editable Content` heading) is not skipped — the push performs a
remote update write without the force flag. -/
theorem C3_counterexample :
    scanFields docWithFieldBlock ≠ [] ∧
    containsSub docWithFieldBlock (txt "## ✏️ Editable Content") = false ∧
    ((push_tour_to_outline { title := txt "T" } [] [] []
        (some { id := txt "d1", title := txt "s" })
        (fun i => if i == txt "d1" then some docWithFieldBlock else none)
        [] [] [] (txt "now") false false).calls.any RemoteCall.isWrite = true) ∧
    (push_tour_to_outline { title := txt "T" } [] [] []
        (some { id := txt "d1", title := txt "s" })
        (fun i => if i == txt "d1" then some docWithFieldBlock else none)
        [] [] [] (txt "now") false false).action = txt "prepended" := by
  refine ⟨by decide, by decide, by decide, by decide⟩

/-! ## C4 — no backup before the destructive force update -/

/-- C4 (code behaviour): when push force-updates an already-marked remote
document, its remote interaction trace contains the update write and no
backup snapshot whatsoever — the backup routine
(`backup_all_documents` of `outline_consolidate.py`) is a separate manual
operation that `push_tour_to_outline` never invokes. -/
theorem C4_force_update_without_backup (tour : Tour) (days : List ItinDay)
    (pricing : List PricingEntry) (fees : List FeeEntry) (d : ExistingDoc)
    (store : Str → Option Str) (cid dp mp now text : Str)
    (hs : store d.id = some text)
    (hm : containsSub text (txt "## ✏️ Editable Content") = true) :
    ((push_tour_to_outline tour days pricing fees (some d) store cid dp mp now
        false true).calls.any RemoteCall.isUpdate = true) ∧
    ((push_tour_to_outline tour days pricing fees (some d) store cid dp mp now
        false true).calls.any RemoteCall.isBackup = false) := by
  simp only [push_tour_to_outline, Bool.false_eq_true, if_false, hs]
  simp [RemoteCall.isUpdate, RemoteCall.isBackup]

/-- Witness for C4 at a concrete marked document. -/
theorem C4_witness :
    ((fun i => if i == txt "d1" then some docWithSentinel else none) (txt "d1") =
      some docWithSentinel) ∧
    containsSub docWithSentinel (txt "## ✏️ Editable Content") = true ∧
    ((push_tour_to_outline { title := txt "T" } [] [] []
        (some { id := txt "d1", title := txt "s" })
        (fun i => if i == txt "d1" then some docWithSentinel else none)
        [] [] [] (txt "now") false true).calls.any RemoteCall.isBackup = false) :=
  ⟨by decide, by decide,
   (C4_force_update_without_backup { title := txt "T" } [] [] []
     { id := txt "d1", title := txt "s" }
     (fun i => if i == txt "d1" then some docWithSentinel else none)
     [] [] [] (txt "now") docWithSentinel (by decide) (by decide)).2⟩

/-! ## C10 — strip of a header-only document and the push consequence -/

/-- C10 (amended): a text containing `## 🔗 Reference IDs` but neither
`## 📜 Legacy Content` nor `## 📝 Tour Details` strips to the empty string;
consequently a push that proceeds to update such a document (its text must
additionally lack the `## ✏️ Editable Content` skip sentinel, or the force
flag must be given — the counterexample shows the skip case) replaces the
entire body with the freshly generated reference header, preserving none of
the pre-existing content. -/
theorem C10_strip_empty_and_push_replaces :
    (∀ t : Str,
      containsSub t (txt "## 📜 Legacy Content") = false →
      containsSub t (txt "## 📝 Tour Details") = false →
      containsSub t (txt "## 🔗 Reference IDs") = true →
      strip_existing_header t = []) ∧
    (∀ (tour : Tour) (days : List ItinDay) (pricing : List PricingEntry)
        (fees : List FeeEntry) (d : ExistingDoc) (store : Str → Option Str)
        (cid dp mp now t : Str),
      store d.id = some t →
      containsSub t (txt "## 📜 Legacy Content") = false →
      containsSub t (txt "## 📝 Tour Details") = false →
      containsSub t (txt "## 🔗 Reference IDs") = true →
      containsSub t (txt "## ✏️ Editable Content") = false →
      push_tour_to_outline tour days pricing fees (some d) store cid dp mp now
          false false =
        { action := txt "prepended",
          calls := [.fetchDoc d.id,
            .updateDoc d.id (generate_reference_header tour pricing fees days)] }) := by
  have strip1 : ∀ t : Str,
      containsSub t (txt "## 📜 Legacy Content") = false →
      containsSub t (txt "## 📝 Tour Details") = false →
      containsSub t (txt "## 🔗 Reference IDs") = true →
      strip_existing_header t = [] := by
    intro t h1 h2 h3
    simp only [strip_existing_header]
    rw [splitFirst_none_of_not_contains h1, splitFirst_none_of_not_contains h2, h3]
    simp
  refine ⟨strip1, ?_⟩
  intro tour days pricing fees d store cid dp mp now t hs h1 h2 h3 hsent
  simp only [push_tour_to_outline, Bool.false_eq_true, if_false, hs]
  simp only [Option.getD_some]
  rw [hsent]
  simp only [Bool.false_and, Bool.false_eq_true, if_false]
  rw [strip1 t h1 h2 h3]
  simp

/-- Witness for C10: a document that is exactly a freshly rendered
`generate_tour_document` body — it contains the Reference IDs heading, no
legacy heading, no Tour Details heading and no sentinel — is force-replaced
by the bare header on push. -/
theorem C10_witness :
    containsSub (generate_tour_document { title := txt "T" } [] [] [] (txt "ts"))
        (txt "## 🔗 Reference IDs") = true ∧
    strip_existing_header (generate_tour_document { title := txt "T" } [] [] [] (txt "ts")) =
      [] ∧
    push_tour_to_outline { title := txt "T" } [] [] []
        (some { id := txt "d1", title := txt "s" })
        (fun i => if i == txt "d1" then
          some (generate_tour_document { title := txt "T" } [] [] [] (txt "ts")) else none)
        [] [] [] (txt "now") false false =
      { action := txt "prepended",
        calls := [.fetchDoc (txt "d1"),
          .updateDoc (txt "d1") (generate_reference_header { title := txt "T" } [] [] [])] } :=
  ⟨by decide,
   C10_strip_empty_and_push_replaces.1 _ (by decide) (by decide) (by decide),
   C10_strip_empty_and_push_replaces.2 { title := txt "T" } [] [] []
     { id := txt "d1", title := txt "s" }
     (fun i => if i == txt "d1" then
       some (generate_tour_document { title := txt "T" } [] [] [] (txt "ts")) else none)
     [] [] [] (txt "now")
     (generate_tour_document { title := txt "T" } [] [] [] (txt "ts"))
     rfl (by decide) (by decide) (by decide) (by decide)⟩

/-- Counterexample for C10 as stated: a document satisfying the claim's
conditions (Reference IDs heading present, neither legacy heading) whose text
also carries the `## ✏️ Editable Content` sentinel is skipped by a push
without force — nothing is replaced, so the stated consequence fails without
the extra proviso. -/
theorem C10_counterexample :
    containsSub docWithSentinel (txt "## 🔗 Reference IDs") = true ∧
    containsSub docWithSentinel (txt "## 📜 Legacy Content") = false ∧
    containsSub docWithSentinel (txt "## 📝 Tour Details") = false ∧
    push_tour_to_outline { title := txt "T" } [] [] []
        (some { id := txt "d1", title := txt "s" })
        (fun i => if i == txt "d1" then some docWithSentinel else none)
        [] [] [] (txt "now") false false =
      { action := txt "skipped", calls := [.fetchDoc (txt "d1")] } := by
  refine ⟨by decide, by decide, by decide, by decide⟩

/-! ## C1 — round-trip: counterexample as stated -/

/-- Counterexample for C1 as stated: `title` is an editable field
(`EDITABLE_FIELDS`), but `generate_tour_document` renders it without a Field
Block (`# {title}` and a read-only table row), so parsing the rendered
document restores no value for `title` even though the record holds a real
one. -/
theorem C1_counterexample :
    EDITABLE_FIELDS.contains (txt "title") = true ∧
    dictGet?
        (parseFields
          (generate_tour_document { title := txt "Moab Classic" } [] [] [] (txt "ts")))
        (txt "title") = none := by
  refine ⟨by decide, by decide⟩

/-! ## C1 — string toolkit -/

theorem isPrefixOf_append_self (a b : Str) : a.isPrefixOf (a ++ b) = true := by
  rw [List.isPrefixOf_iff_prefix]
  exact ⟨b, rfl⟩

theorem takeWhile_all_append {p : Char → Bool} : ∀ {a : Str} (b : Str),
    a.all p = true → (a ++ b).takeWhile p = a ++ b.takeWhile p := by
  intro a
  induction a with
  | nil => intro b _; rfl
  | cons c t ih =>
    intro b h
    simp only [List.all_cons, Bool.and_eq_true] at h
    simp only [List.cons_append, List.takeWhile_cons, h.1]
    simp [ih b h.2]

theorem takeWhile_cons_neg {p : Char → Bool} {c : Char} {t : Str}
    (h : p c = false) : (c :: t).takeWhile p = [] := by
  simp [List.takeWhile_cons, h]

theorem dropWhile_all_append {p : Char → Bool} : ∀ {a : Str} (b : Str),
    a.all p = true → (a ++ b).dropWhile p = b.dropWhile p := by
  intro a
  induction a with
  | nil => intro b _; rfl
  | cons c t ih =>
    intro b h
    simp only [List.all_cons, Bool.and_eq_true] at h
    simp only [List.cons_append, List.dropWhile_cons, h.1]
    exact ih b h.2

theorem dropWhile_cons_neg {p : Char → Bool} {c : Char} {t : Str}
    (h : p c = false) : (c :: t).dropWhile p = c :: t := by
  simp [List.dropWhile_cons, h]

theorem dropWhile_eq_self_of_length {p : Char → Bool} :
    ∀ {u : Str}, (u.dropWhile p).length = u.length → u.dropWhile p = u := by
  intro u
  induction u with
  | nil => intro _; rfl
  | cons c t ih =>
    intro h
    by_cases hp : p c = true
    · rw [List.dropWhile_cons, if_pos hp] at h ⊢
      exfalso
      have hle : (t.dropWhile p).length ≤ t.length := (List.dropWhile_sublist _).length_le
      simp only [List.length_cons] at h
      omega
    · rw [List.dropWhile_cons, if_neg hp]

theorem rstrip_length_le (u : Str) : (rstrip u).length ≤ u.length := by
  simp only [rstrip, List.length_reverse]
  have := (List.dropWhile_sublist (l := u.reverse) pyWS).length_le
  simpa using this

theorem lstrip_length_le (u : Str) : (lstrip u).length ≤ u.length := by
  simpa using (List.dropWhile_sublist (l := u) pyWS).length_le

theorem stripped_parts {u : Str} (h : strippedB u = true) :
    lstrip u = u ∧ rstrip u = u := by
  simp only [strippedB, beq_iff_eq, pstrip] at h
  have h1 : (lstrip u).length = u.length := by
    have ha := rstrip_length_le (lstrip u)
    have hb := lstrip_length_le u
    rw [h] at ha
    omega
  have h2 : lstrip u = u := dropWhile_eq_self_of_length h1
  rw [h2] at h
  exact ⟨h2, h⟩

theorem pstrip_eq_self {u : Str} (h : strippedB u = true) : pstrip u = u := by
  simp only [strippedB, beq_iff_eq] at h
  exact h

theorem rstrip_append_ws {u w : Str} (hw : w.all pyWS = true) :
    rstrip (u ++ w) = rstrip u := by
  simp only [rstrip, List.reverse_append]
  rw [dropWhile_all_append u.reverse (by simpa using hw)]

theorem lstrip_append_ws {u w : Str} (hw : w.all pyWS = true) :
    lstrip (w ++ u) = lstrip u := dropWhile_all_append u hw

theorem rstrip_append_keep {a u : Str} (h : rstrip u = u) (hne : u ≠ []) :
    rstrip (a ++ u) = a ++ u := by
  simp only [rstrip, List.reverse_append]
  have hrev : u.reverse.dropWhile pyWS = u.reverse := by
    have h2 : (u.reverse.dropWhile pyWS).reverse = u := h
    calc u.reverse.dropWhile pyWS = ((u.reverse.dropWhile pyWS).reverse).reverse := by
          rw [List.reverse_reverse]
      _ = u.reverse := by rw [h2]
  rcases hu : u.reverse with - | ⟨c, t⟩
  · exact absurd (by simpa using congrArg List.reverse hu) hne
  · have hc : pyWS c = false := by
      rw [hu] at hrev
      by_cases hp : pyWS c = true
      · exfalso
        rw [List.dropWhile_cons, if_pos hp] at hrev
        have hlen := congrArg List.length hrev
        have hle := (List.dropWhile_sublist (l := t) pyWS).length_le
        simp only [List.length_cons] at hlen
        omega
      · simpa using hp
    rw [List.cons_append, dropWhile_cons_neg hc, ← List.cons_append, ← hu,
      ← List.reverse_append, List.reverse_reverse]

theorem lstrip_cons_nonws {c : Char} {t : Str} (h : pyWS c = false) :
    lstrip (c :: t) = c :: t := dropWhile_cons_neg h

theorem stripped_head_nonws {u : Str} {c : Char} {t : Str}
    (h : strippedB u = true) (he : u = c :: t) : pyWS c = false := by
  have h1 := (stripped_parts h).1
  rw [he] at h1
  by_cases hp : pyWS c = true
  · exfalso
    rw [show lstrip (c :: t) = lstrip t from by
      simp [lstrip, List.dropWhile_cons, hp]] at h1
    have hlen := congrArg List.length h1
    have hle := lstrip_length_le t
    simp only [List.length_cons] at hlen
    simp only [lstrip] at hle hlen
    omega
  · simpa using hp

theorem pstrip_pad {w1 u w2 : Str} (h1 : w1.all pyWS = true)
    (h2 : w2.all pyWS = true) (hu : strippedB u = true) :
    pstrip (w1 ++ u ++ w2) = u := by
  obtain ⟨hl, hr⟩ := stripped_parts hu
  rcases hue : u with - | ⟨c, t⟩
  · simp only [List.append_nil, List.nil_append]
    simp only [pstrip]
    rw [lstrip_append_ws h1]
    have h3 : lstrip w2 = [] := by
      have h4 := @lstrip_append_ws [] w2 h2
      simpa using h4
    rw [h3]
    rfl
  · rw [← hue]
    simp only [pstrip, List.append_assoc]
    rw [lstrip_append_ws h1]
    have hc : pyWS c = false := stripped_head_nonws hu hue
    rw [hue, List.cons_append, lstrip_cons_nonws hc, ← List.cons_append, ← hue]
    rw [rstrip_append_ws h2]
    exact hr

theorem pstrip_wrap {u : Str} (hu : strippedB u = true) :
    pstrip ('\n' :: u ++ ['\n']) = u := by
  have h5 := @pstrip_pad ['\n'] u ['\n'] (by decide) (by decide) hu
  simpa using h5

/-! ## C1 — scanner walk lemmas -/

theorem isPrefixOf_cons_head_false {p0 : Char} {pr : Str} {c : Char} {t : Str}
    (h : (p0 == c) = false) : (p0 :: pr).isPrefixOf (c :: t) = false := by
  rw [Bool.eq_false_iff]
  intro hcontra
  rw [List.isPrefixOf_iff_prefix, List.cons_prefix_cons] at hcontra
  rw [hcontra.1] at h
  simp at h

theorem matchFieldOpen_cons_none {c : Char} {t : Str} (h : (c == '<') = false) :
    matchFieldOpen (c :: t) = none := by
  have hp : (txt "<!-- FIELD:").isPrefixOf (c :: t) = false := by
    have h2 : (('<' : Char) == c) = false := by
      rcases hb : (('<' : Char) == c) with - | -
      · rfl
      · rw [beq_iff_eq] at hb
        rw [← hb] at h
        simp at h
    exact isPrefixOf_cons_head_false h2
  simp only [matchFieldOpen, hp]
  simp

theorem matchDayOpen_cons_none {c : Char} {t : Str} (h : (c == '<') = false) :
    matchDayOpen (c :: t) = none := by
  have hp : (txt "<!-- ITINERARY_DAY:").isPrefixOf (c :: t) = false := by
    have h2 : (('<' : Char) == c) = false := by
      rcases hb : (('<' : Char) == c) with - | -
      · rfl
      · rw [beq_iff_eq] at hb
        rw [← hb] at h
        simp at h
    exact isPrefixOf_cons_head_false h2
  simp only [matchDayOpen, hp]
  simp

theorem fieldStep_none_of_open {t : Str} (h : matchFieldOpen t = none) :
    fieldStep t = none := by
  simp [fieldStep, h]

theorem dayStep_none_of_open {t : Str} (h : matchDayOpen t = none) :
    dayStep t = none := by
  simp [dayStep, h]

theorem scanFields_skip_char {c : Char} {t : Str} (h : (c == '<') = false) :
    scanFields (c :: t) = scanFields t :=
  scanFields_cons_skip (fieldStep_none_of_open (matchFieldOpen_cons_none h))

theorem scanDays_skip_char {c : Char} {t : Str} (h : (c == '<') = false) :
    scanDays (c :: t) = scanDays t :=
  scanDays_cons_skip (dayStep_none_of_open (matchDayOpen_cons_none h))

theorem scanFields_append_noLt : ∀ {a : Str} (b : Str), noLt a = true →
    scanFields (a ++ b) = scanFields b := by
  intro a
  induction a with
  | nil => intro b _; rfl
  | cons c t ih =>
    intro b h
    simp only [noLt, List.all_cons, Bool.and_eq_true] at h
    rw [List.cons_append, scanFields_skip_char (by simpa using h.1)]
    exact ih b (by simpa [noLt] using h.2)

theorem scanDays_append_noLt : ∀ {a : Str} (b : Str), noLt a = true →
    scanDays (a ++ b) = scanDays b := by
  intro a
  induction a with
  | nil => intro b _; rfl
  | cons c t ih =>
    intro b h
    simp only [noLt, List.all_cons, Bool.and_eq_true] at h
    rw [List.cons_append, scanDays_skip_char (by simpa using h.1)]
    exact ih b (by simpa [noLt] using h.2)

theorem scanFields_skip_seg {a : Str} (b : Str) {m : Str}
    (he : a = '<' :: m) (h0 : matchFieldOpen (a ++ b) = none)
    (hm : noLt m = true) : scanFields (a ++ b) = scanFields (m ++ b) := by
  subst he
  rw [List.cons_append, scanFields_cons_skip (fieldStep_none_of_open (by
    rw [← List.cons_append]; exact h0))]

theorem scanDays_skip_seg {a : Str} (b : Str) {m : Str}
    (he : a = '<' :: m) (h0 : matchDayOpen (a ++ b) = none)
    (hm : noLt m = true) : scanDays (a ++ b) = scanDays (m ++ b) := by
  subst he
  rw [List.cons_append, scanDays_cons_skip (dayStep_none_of_open (by
    rw [← List.cons_append]; exact h0))]

theorem splitFirst_at {pr w b : Str} (hw : noLt w = true) :
    splitFirst ('<' :: pr) (w ++ '<' :: pr ++ b) = some (w, b) := by
  induction w with
  | nil =>
    rw [List.nil_append, List.cons_append, splitFirst]
    rw [← List.cons_append, isPrefixOf_append_self]
    simp only [if_true]
    rw [List.drop_left]
  | cons c t ih =>
    simp only [noLt, List.all_cons, Bool.and_eq_true] at hw
    have hc : (('<' : Char) == c) = false := by
      rcases hb : (('<' : Char) == c) with - | -
      · rfl
      · rw [beq_iff_eq] at hb
        rw [← hb] at hw
        simp at hw
    rw [List.cons_append, List.cons_append, splitFirst]
    rw [isPrefixOf_cons_head_false hc]
    simp only [Bool.false_eq_true, if_false]
    rw [ih (by simpa [noLt] using hw.2)]
    rfl

theorem matchFieldOpen_block {nm : Str} (v b : Str)
    (hw : nm.all isWordChar = true) (hne : nm ≠ []) :
    matchFieldOpen (fbStr nm v ++ b) =
      some (nm, ('\n' :: v) ++ '\n' :: closeF nm ++ b) := by
  have he : fbStr nm v ++ b =
      txt "<!-- FIELD:" ++ (nm ++ (txt " -->" ++ (('\n' :: v) ++ '\n' :: closeF nm ++ b))) := by
    simp [fbStr, List.append_assoc]
  rw [he]
  simp only [matchFieldOpen, isPrefixOf_append_self, if_true]
  have h11 : (txt "<!-- FIELD:" ++
      (nm ++ (txt " -->" ++ (('\n' :: v) ++ '\n' :: closeF nm ++ b)))).drop 11 =
      nm ++ (txt " -->" ++ (('\n' :: v) ++ '\n' :: closeF nm ++ b)) := by
    rw [show (11 : Nat) = (txt "<!-- FIELD:").length from rfl, List.drop_left]
  rw [h11]
  have htw : (nm ++ (txt " -->" ++ (('\n' :: v) ++ '\n' :: closeF nm ++ b))).takeWhile
      isWordChar = nm := by
    rw [takeWhile_all_append _ hw]
    rw [show (txt " -->" ++ (('\n' :: v) ++ '\n' :: closeF nm ++ b)).takeWhile isWordChar =
      [] from takeWhile_cons_neg (by decide)]
    simp
  rw [htw]
  have hie : nm.isEmpty = false := by
    rcases nm with - | ⟨c, t⟩
    · exact absurd rfl hne
    · rfl
  rw [hie]
  simp only [Bool.false_eq_true, if_false]
  rw [List.drop_left]
  rw [show (txt " -->" ++ (('\n' :: v) ++ '\n' :: closeF nm ++ b)) =
    txt " -->" ++ (('\n' :: v) ++ '\n' :: closeF nm ++ b) from rfl]
  rw [isPrefixOf_append_self]
  simp only [if_true]
  rw [show (4 : Nat) = (txt " -->").length from rfl, List.drop_left]

theorem scanFields_block {nm : Str} (v b : Str)
    (hw : nm.all isWordChar = true) (hne : nm ≠ [])
    (hv : noLt v = true) :
    scanFields (fbStr nm v ++ b) = (nm, '\n' :: v ++ ['\n']) :: scanFields b := by
  have hstep : fieldStep (fbStr nm v ++ b) =
      some ((nm, '\n' :: v ++ ['\n']), b) := by
    simp only [fieldStep, matchFieldOpen_block v b hw hne]
    have hclose : closeF nm = '<' :: (txt "!-- /FIELD:" ++ nm ++ txt " -->") := by
      simp [closeF]
      rw [show txt "<!-- /FIELD:" = '<' :: txt "!-- /FIELD:" from rfl]
      simp
    have hsp : splitFirst (closeF nm) (('\n' :: v) ++ '\n' :: closeF nm ++ b) =
        some ('\n' :: v ++ ['\n'], b) := by
      have he2 : ('\n' :: v) ++ '\n' :: closeF nm ++ b =
          ('\n' :: v ++ ['\n']) ++ closeF nm ++ b := by
        simp
      rw [he2, hclose]
      exact splitFirst_at (by simpa [noLt] using hv)
    rw [hsp]
  have hcons : fbStr nm v ++ b = '<' :: (txt "!-- FIELD:" ++ nm ++ txt " -->" ++
      (('\n' :: v) ++ '\n' :: closeF nm ++ b)) := by
    simp [fbStr, List.append_assoc]
    rw [show txt "<!-- FIELD:" = '<' :: txt "!-- FIELD:" from rfl]
    simp
  rw [hcons] at hstep ⊢
  rw [scanFields_cons_step hstep]

theorem matchDayOpen_block {ds : Str} (w b : Str)
    (hd : ds.all Char.isDigit = true) (hne : ds ≠ []) :
    matchDayOpen (txt "<!-- ITINERARY_DAY:" ++ ds ++ txt " -->" ++ w ++ b) =
      some (ds, w ++ b) := by
  have he : txt "<!-- ITINERARY_DAY:" ++ ds ++ txt " -->" ++ w ++ b =
      txt "<!-- ITINERARY_DAY:" ++ (ds ++ (txt " -->" ++ (w ++ b))) := by
    simp [List.append_assoc]
  rw [he]
  simp only [matchDayOpen, isPrefixOf_append_self, if_true]
  have h19 : (txt "<!-- ITINERARY_DAY:" ++ (ds ++ (txt " -->" ++ (w ++ b)))).drop 19 =
      ds ++ (txt " -->" ++ (w ++ b)) := by
    rw [show (19 : Nat) = (txt "<!-- ITINERARY_DAY:").length from rfl, List.drop_left]
  rw [h19]
  have htw : (ds ++ (txt " -->" ++ (w ++ b))).takeWhile Char.isDigit = ds := by
    rw [takeWhile_all_append _ hd]
    rw [show (txt " -->" ++ (w ++ b)).takeWhile Char.isDigit = [] from
      takeWhile_cons_neg (by decide)]
    simp
  rw [htw]
  have hie : ds.isEmpty = false := by
    rcases ds with - | ⟨c, t⟩
    · exact absurd rfl hne
    · rfl
  rw [hie]
  simp only [Bool.false_eq_true, if_false]
  rw [List.drop_left]
  rw [isPrefixOf_append_self]
  simp only [if_true]
  rw [show (4 : Nat) = (txt " -->").length from rfl, List.drop_left]

theorem scanDays_block {ds : Str} (w b : Str)
    (hd : ds.all Char.isDigit = true) (hne : ds ≠ [])
    (hw : noLt w = true) :
    scanDays (txt "<!-- ITINERARY_DAY:" ++ ds ++ txt " -->" ++ (w ++ closeD ds) ++ b) =
      (ds, w) :: scanDays b := by
  have hstep : dayStep (txt "<!-- ITINERARY_DAY:" ++ ds ++ txt " -->" ++
      (w ++ closeD ds) ++ b) = some ((ds, w), b) := by
    have hclose : closeD ds = '<' :: (txt "!-- /ITINERARY_DAY:" ++ ds ++ txt " -->") := by
      simp [closeD]
      rw [show txt "<!-- /ITINERARY_DAY:" = '<' :: txt "!-- /ITINERARY_DAY:" from rfl]
      simp
    have hsp : splitFirst (closeD ds) ((w ++ closeD ds) ++ b) = some (w, b) := by
      rw [hclose]
      exact splitFirst_at hw
    simp only [dayStep, matchDayOpen_block (w ++ closeD ds) b hd hne, hsp]
  have hcons : txt "<!-- ITINERARY_DAY:" ++ ds ++ txt " -->" ++ (w ++ closeD ds) ++ b =
      '<' :: (txt "!-- ITINERARY_DAY:" ++ ds ++ txt " -->" ++ ((w ++ closeD ds) ++ b)) := by
    simp [List.append_assoc]
    rw [show txt "<!-- ITINERARY_DAY:" = '<' :: txt "!-- ITINERARY_DAY:" from rfl]
    simp
  rw [hcons] at hstep ⊢
  rw [scanDays_cons_step hstep]

/-! ## C1 — document structure glue -/

theorem joinSep_append (sep : Str) : ∀ {A : List Str} (B : List Str), A ≠ [] → B ≠ [] →
    joinSep sep (A ++ B) = joinSep sep A ++ sep ++ joinSep sep B := by
  intro A
  induction A with
  | nil => intro B h _; exact absurd rfl h
  | cons a as ih =>
    intro B _ hB
    cases as with
    | nil =>
      cases B with
      | nil => exact absurd rfl hB
      | cons b bs => simp [joinSep]
    | cons a2 as2 =>
      have h2 := ih B (by simp) hB
      have hlhs : joinSep sep ((a :: a2 :: as2) ++ B) =
          a ++ sep ++ joinSep sep ((a2 :: as2) ++ B) := by
        rw [List.cons_append, List.cons_append]
        rw [show joinSep sep (a :: a2 :: (as2 ++ B)) =
          a ++ sep ++ joinSep sep (a2 :: (as2 ++ B)) from rfl]
      rw [hlhs, h2]
      rw [show joinSep sep (a :: a2 :: as2) = a ++ sep ++ joinSep sep (a2 :: as2) from rfl]
      simp [List.append_assoc]

theorem joinNL_append {A B : List Str} (hA : A ≠ []) (hB : B ≠ []) :
    joinNL (A ++ B) = joinNL A ++ '\n' :: joinNL B := by
  have h := joinSep_append (txt "\n") B hA hB
  simp only [joinNL] at h ⊢
  rw [h]
  simp [List.append_assoc]
  rfl

theorem dayItems_parts (d : ItinDay) :
    dayItems d = statsItems d.miles d.elevation
      ++ optItem1 (txt "**Route:** ") d.trails_waypoints
      ++ optItem1 (txt "**Lodging:** ") d.camp_lodging
      ++ optItem1 (txt "**Meals:** ") d.meals
      ++ optItem0 d.content := rfl

theorem flatMap_pair_statsItems (mo eo : Option Str) :
    (statsItems mo eo).flatMap (fun it => [it, txt ""]) =
      (let stats := optStat (txt "**Miles:** ") mo ++ optStat (txt "**Elevation:** ") eo
       if stats.isEmpty then [] else [joinSep (txt " | ") stats, txt ""]) := by
  simp only [statsItems]
  split
  · rfl
  · rfl

theorem flatMap_pair_optItem1 (pre : Str) (o : Option Str) :
    (optItem1 pre o).flatMap (fun it => [it, txt ""]) = optDayLine pre o := by
  rcases o with - | v
  · rfl
  · simp only [optItem1, optDayLine]
    split
    · rfl
    · rfl

theorem dayInnerLines_items (d : ItinDay) :
    dayInnerLines d = txt "" :: (dayItems d).flatMap (fun it => [it, txt ""]) := by
  rw [dayItems_parts]
  simp only [List.flatMap_append, flatMap_pair_statsItems, flatMap_pair_optItem1]
  have hc : (optItem0 d.content).flatMap (fun it => [it, txt ""]) =
      (match d.content with
       | some v => if v = [] then [] else [v, txt ""]
       | none => []) := by
    rcases d.content with - | v
    · rfl
    · simp only [optItem0]
      split
      · rfl
      · rfl
  rw [hc]
  simp only [dayInnerLines]
  simp [List.append_assoc]

theorem flatMap_dayLSegs (days : List ItinDay) :
    (days.flatMap dayLSegs).flatMap linesOf = days.flatMap dayLines := by
  induction days with
  | nil => rfl
  | cons d ds ih =>
    simp only [List.flatMap_cons, List.flatMap_append, ih]
    have h1 : (dayLSegs d).flatMap linesOf = dayLines d := by
      simp only [dayLSegs, List.flatMap_cons, List.flatMap_nil, linesOf, dayLines]
      simp [List.append_assoc]
    rw [h1]

theorem tourDocLines_eq (tour : Tour) (days : List ItinDay)
    (pricing : List PricingEntry) (fees : List FeeEntry) (now : Str) :
    tourDocLines tour days pricing fees now =
      flattenL (docLSegs tour days pricing fees now) := by
  have hdays : (if days.isEmpty then ([] : List LSeg)
      else [.plain [txt "---", txt "## ✏️ Day-by-Day Itinerary",
              txt "> ✅ **Editable Section** - You can edit this content.", txt ""]]
        ++ days.flatMap dayLSegs).flatMap linesOf = itinSectionLines days := by
    by_cases he : days.isEmpty
    · simp [he, itinSectionLines]
    · have hfm : ∀ l : List ItinDay, l.flatMap dayLines = (l.map dayLines).flatten := by
        intro l
        induction l with
        | nil => rfl
        | cons d ds ih => simp [List.flatMap_cons, ih]
      simp only [if_neg he, itinSectionLines, List.flatMap_append, List.flatMap_cons,
        List.flatMap_nil, linesOf, flatMap_dayLSegs, hfm]
      simp
  have hsn : ((match tour.special_notes with
      | some v =>
        if v = [] then ([] : List LSeg)
        else [.plain [txt "### Special Notes"], .fblock (txt "special_notes") v,
              .plain [txt ""]]
      | none => []) : List LSeg).flatMap linesOf =
      (match tour.special_notes with
       | some v =>
         if v = [] then []
         else [txt "### Special Notes"] ++ fbLines (txt "special_notes") v ++ [txt ""]
       | none => []) := by
    rcases tour.special_notes with - | v
    · rfl
    · by_cases hv : v = []
      · simp [hv]
      · simp [hv, linesOf]
  simp only [docLSegs, flattenL, List.flatMap_append, List.flatMap_cons, List.flatMap_nil,
    linesOf, hsn, hdays]
  simp only [tourDocLines, docPre1]
  simp [List.append_assoc]

theorem joinNL_fbLines (nm v : Str) : joinNL (fbLines nm v) = fbStr nm v := by
  simp only [fbLines, fbStr, closeF, joinNL, joinSep]
  simp [List.append_assoc]
  rfl

theorem joinNL_dblock {ds : Str} {inner : List Str} (h : inner ≠ []) :
    joinNL ((txt "<!-- ITINERARY_DAY:" ++ ds ++ txt " -->") ::
        inner ++ [txt "<!-- /ITINERARY_DAY:" ++ ds ++ txt " -->"]) =
      txt "<!-- ITINERARY_DAY:" ++ ds ++ txt " -->" ++
        ('\n' :: joinNL inner ++ ['\n']) ++ closeD ds := by
  rw [show (txt "<!-- ITINERARY_DAY:" ++ ds ++ txt " -->") ::
      inner ++ [txt "<!-- /ITINERARY_DAY:" ++ ds ++ txt " -->"] =
      [txt "<!-- ITINERARY_DAY:" ++ ds ++ txt " -->"] ++
        (inner ++ [txt "<!-- /ITINERARY_DAY:" ++ ds ++ txt " -->"]) from rfl]
  rw [joinNL_append (by simp) (by simp)]
  rw [joinNL_append h (by simp)]
  simp only [joinNL, joinSep, closeD]
  simp [List.append_assoc]

theorem linesOf_ne_nil {s : LSeg} (h : wfSeg s = true) : linesOf s ≠ [] := by
  rcases s with ls | ⟨nm, v⟩ | ⟨ds, inner⟩
  · simp only [wfSeg, Bool.and_eq_true] at h
    simp only [linesOf]
    intro hc
    rw [hc] at h
    simp at h
  · simp [linesOf, fbLines]
  · simp [linesOf]

theorem joinNL_flattenS : ∀ {segs : List LSeg}, segs.all wfSeg = true →
    joinNL (flattenL segs) = flattenS segs := by
  intro segs
  induction segs with
  | nil => intro _; rfl
  | cons s rest ih =>
    intro h
    simp only [List.all_cons, Bool.and_eq_true] at h
    have hseg : joinNL (linesOf s) = segStr s := by
      rcases s with ls | ⟨nm, v⟩ | ⟨ds, inner⟩
      · rfl
      · exact joinNL_fbLines nm v
      · have hinner : inner ≠ [] := by
          have h2 := h.1
          simp only [wfSeg, Bool.and_eq_true] at h2
          intro hc
          rw [hc] at h2
          simp at h2
        simpa only [linesOf, segStr] using joinNL_dblock hinner
    cases rest with
    | nil =>
      simp only [flattenS, flattenL, List.flatMap_cons, List.flatMap_nil, List.append_nil]
      exact hseg
    | cons s2 r2 =>
      have hne2 : flattenL (s2 :: r2) ≠ [] := by
        simp only [flattenL, List.flatMap_cons]
        have := linesOf_ne_nil (by
          simp only [List.all_cons, Bool.and_eq_true] at h
          exact h.2.1)
        intro hc
        rcases List.append_eq_nil.mp hc with ⟨h1, -⟩
        exact this h1
      have hstep : flattenL (s :: s2 :: r2) = linesOf s ++ flattenL (s2 :: r2) := by
        simp [flattenL, List.flatMap_cons]
      rw [hstep, joinNL_append (linesOf_ne_nil h.1) hne2, hseg, ih h.2]
      rfl

/-! ## C1 — `<`-freeness infrastructure -/

theorem noLt_append {a b : Str} : noLt (a ++ b) = (noLt a && noLt b) := by
  simp [noLt, List.all_append]

theorem noLt_cons {c : Char} {t : Str} : noLt (c :: t) = ((c != '<') && noLt t) := rfl

theorem noLt_joinSep {sep : Str} (hs : noLt sep = true) :
    ∀ {L : List Str}, L.all noLt = true → noLt (joinSep sep L) = true := by
  intro L
  induction L with
  | nil => intro _; rfl
  | cons l ls ih =>
    intro h
    simp only [List.all_cons, Bool.and_eq_true] at h
    cases ls with
    | nil => exact h.1
    | cons l2 ls2 =>
      rw [show joinSep sep (l :: l2 :: ls2) = l ++ sep ++ joinSep sep (l2 :: ls2) from rfl]
      rw [noLt_append, noLt_append]
      simp only [Bool.and_eq_true]
      exact ⟨⟨h.1, hs⟩, ih h.2⟩

theorem noLt_joinNL {L : List Str} (h : L.all noLt = true) : noLt (joinNL L) = true :=
  noLt_joinSep (by decide) h

theorem digit_ne_lt {c : Char} (h : c.isDigit = true) : (c != '<') = true := by
  rcases hb : (c == '<') with - | -
  · simp [bne, hb]
  · rw [beq_iff_eq] at hb
    subst hb
    exact absurd h (by decide)

theorem wordChar_ne_lt {c : Char} (h : isWordChar c = true) : (c != '<') = true := by
  rcases hb : (c == '<') with - | -
  · simp [bne, hb]
  · rw [beq_iff_eq] at hb
    subst hb
    exact absurd h (by decide)

theorem all_digit_noLt {ds : Str} (h : ds.all Char.isDigit = true) : noLt ds = true := by
  simp only [noLt, List.all_eq_true] at h ⊢
  intro c hc
  exact digit_ne_lt (h c hc)

theorem all_word_noLt {nm : Str} (h : nm.all isWordChar = true) : noLt nm = true := by
  simp only [noLt, List.all_eq_true] at h ⊢
  intro c hc
  exact wordChar_ne_lt (h c hc)

/-! ## C1 — cross-scanner marker skipping -/

theorem matchFieldOpen_dayOpen (x : Str) :
    matchFieldOpen (txt "<!-- ITINERARY_DAY:" ++ x) = none := rfl

theorem matchFieldOpen_dayClose (x : Str) :
    matchFieldOpen (txt "<!-- /ITINERARY_DAY:" ++ x) = none := rfl

theorem matchDayOpen_fieldOpen (x : Str) :
    matchDayOpen (txt "<!-- FIELD:" ++ x) = none := rfl

theorem matchDayOpen_fieldClose (x : Str) :
    matchDayOpen (txt "<!-- /FIELD:" ++ x) = none := rfl

theorem scanFields_skip_marker {m b : Str} (h0 : matchFieldOpen ('<' :: (m ++ b)) = none)
    (hm : noLt m = true) : scanFields ('<' :: (m ++ b)) = scanFields b := by
  rw [scanFields_cons_skip (fieldStep_none_of_open h0)]
  exact scanFields_append_noLt b hm

theorem scanDays_skip_marker {m b : Str} (h0 : matchDayOpen ('<' :: (m ++ b)) = none)
    (hm : noLt m = true) : scanDays ('<' :: (m ++ b)) = scanDays b := by
  rw [scanDays_cons_skip (dayStep_none_of_open h0)]
  exact scanDays_append_noLt b hm

theorem scanFields_skip_dayOpen (ds b : Str) (hd : ds.all Char.isDigit = true) :
    scanFields (txt "<!-- ITINERARY_DAY:" ++ ds ++ txt " -->" ++ b) = scanFields b := by
  have he : txt "<!-- ITINERARY_DAY:" ++ ds ++ txt " -->" ++ b =
      '<' :: ((txt "!-- ITINERARY_DAY:" ++ ds ++ txt " -->") ++ b) := by
    rw [show txt "<!-- ITINERARY_DAY:" = '<' :: txt "!-- ITINERARY_DAY:" from rfl]
    simp [List.append_assoc]
  have h0 : matchFieldOpen ('<' :: ((txt "!-- ITINERARY_DAY:" ++ ds ++ txt " -->") ++ b)) =
      none := by
    rw [← he]
    rw [show txt "<!-- ITINERARY_DAY:" ++ ds ++ txt " -->" ++ b =
      txt "<!-- ITINERARY_DAY:" ++ (ds ++ (txt " -->" ++ b)) from by simp [List.append_assoc]]
    exact matchFieldOpen_dayOpen _
  rw [he]
  refine scanFields_skip_marker h0 ?_
  rw [noLt_append, noLt_append]
  simp only [Bool.and_eq_true]
  exact ⟨⟨by decide, all_digit_noLt hd⟩, by decide⟩

theorem scanFields_skip_dayClose (ds b : Str) (hd : ds.all Char.isDigit = true) :
    scanFields (closeD ds ++ b) = scanFields b := by
  have he : closeD ds ++ b =
      '<' :: ((txt "!-- /ITINERARY_DAY:" ++ ds ++ txt " -->") ++ b) := by
    simp only [closeD]
    rw [show txt "<!-- /ITINERARY_DAY:" = '<' :: txt "!-- /ITINERARY_DAY:" from rfl]
    simp [List.append_assoc]
  have h0 : matchFieldOpen ('<' :: ((txt "!-- /ITINERARY_DAY:" ++ ds ++ txt " -->") ++ b)) =
      none := by
    rw [← he]
    rw [show closeD ds ++ b =
      txt "<!-- /ITINERARY_DAY:" ++ (ds ++ (txt " -->" ++ b)) from by
        simp [closeD, List.append_assoc]]
    exact matchFieldOpen_dayClose _
  rw [he]
  refine scanFields_skip_marker h0 ?_
  rw [noLt_append, noLt_append]
  simp only [Bool.and_eq_true]
  exact ⟨⟨by decide, all_digit_noLt hd⟩, by decide⟩

theorem scanDays_skip_fieldOpen (nm b : Str) (hw : nm.all isWordChar = true) :
    scanDays (txt "<!-- FIELD:" ++ nm ++ txt " -->" ++ b) = scanDays b := by
  have he : txt "<!-- FIELD:" ++ nm ++ txt " -->" ++ b =
      '<' :: ((txt "!-- FIELD:" ++ nm ++ txt " -->") ++ b) := by
    rw [show txt "<!-- FIELD:" = '<' :: txt "!-- FIELD:" from rfl]
    simp [List.append_assoc]
  have h0 : matchDayOpen ('<' :: ((txt "!-- FIELD:" ++ nm ++ txt " -->") ++ b)) = none := by
    rw [← he]
    rw [show txt "<!-- FIELD:" ++ nm ++ txt " -->" ++ b =
      txt "<!-- FIELD:" ++ (nm ++ (txt " -->" ++ b)) from by simp [List.append_assoc]]
    exact matchDayOpen_fieldOpen _
  rw [he]
  refine scanDays_skip_marker h0 ?_
  rw [noLt_append, noLt_append]
  simp only [Bool.and_eq_true]
  exact ⟨⟨by decide, all_word_noLt hw⟩, by decide⟩

theorem scanDays_skip_fieldClose (nm b : Str) (hw : nm.all isWordChar = true) :
    scanDays (closeF nm ++ b) = scanDays b := by
  have he : closeF nm ++ b = '<' :: ((txt "!-- /FIELD:" ++ nm ++ txt " -->") ++ b) := by
    simp only [closeF]
    rw [show txt "<!-- /FIELD:" = '<' :: txt "!-- /FIELD:" from rfl]
    simp [List.append_assoc]
  have h0 : matchDayOpen ('<' :: ((txt "!-- /FIELD:" ++ nm ++ txt " -->") ++ b)) = none := by
    rw [← he]
    rw [show closeF nm ++ b = txt "<!-- /FIELD:" ++ (nm ++ (txt " -->" ++ b)) from by
      simp [closeF, List.append_assoc]]
    exact matchDayOpen_fieldClose _
  rw [he]
  refine scanDays_skip_marker h0 ?_
  rw [noLt_append, noLt_append]
  simp only [Bool.and_eq_true]
  exact ⟨⟨by decide, all_word_noLt hw⟩, by decide⟩

theorem scanDays_skip_fblock (nm v b : Str) (hw : nm.all isWordChar = true)
    (hv : noLt v = true) : scanDays (fbStr nm v ++ b) = scanDays b := by
  have he : fbStr nm v ++ b =
      txt "<!-- FIELD:" ++ nm ++ txt " -->" ++ (('\n' :: v ++ ['\n']) ++ (closeF nm ++ b)) := by
    simp [fbStr, List.append_assoc]
  rw [he, scanDays_skip_fieldOpen nm _ hw]
  rw [scanDays_append_noLt _ (by
    rw [noLt_append, noLt_cons]
    simp only [Bool.and_eq_true]
    exact ⟨⟨by decide, hv⟩, by decide⟩)]
  exact scanDays_skip_fieldClose nm b hw

/-! ## C1 — the scanners over a segment list -/

theorem scanFields_seg (s : LSeg) (b : Str) (h : wfSeg s = true) :
    scanFields (segStr s ++ b) = fieldsOfSeg s (scanFields b) := by
  rcases s with ls | ⟨nm, v⟩ | ⟨ds, inner⟩
  · simp only [wfSeg, Bool.and_eq_true] at h
    simp only [segStr, fieldsOfSeg]
    exact scanFields_append_noLt b (noLt_joinNL h.2)
  · simp only [wfSeg, Bool.and_eq_true] at h
    simp only [segStr, fieldsOfSeg]
    exact scanFields_block v b h.1.2 (by
      intro hc
      rw [hc] at h
      simp at h) h.2
  · simp only [wfSeg, Bool.and_eq_true] at h
    simp only [segStr, fieldsOfSeg]
    rw [show txt "<!-- ITINERARY_DAY:" ++ ds ++ txt " -->" ++
        ('\n' :: joinNL inner ++ ['\n']) ++ closeD ds ++ b =
      txt "<!-- ITINERARY_DAY:" ++ ds ++ txt " -->" ++
        (('\n' :: joinNL inner ++ ['\n']) ++ (closeD ds ++ b)) from by
      simp [List.append_assoc]]
    rw [scanFields_skip_dayOpen ds _ h.1.1.2]
    rw [scanFields_append_noLt _ (by
      rw [noLt_append, noLt_cons]
      simp only [Bool.and_eq_true]
      exact ⟨⟨by decide, noLt_joinNL h.2⟩, by decide⟩)]
    exact scanFields_skip_dayClose ds b h.1.1.2

theorem scanDays_seg (s : LSeg) (b : Str) (h : wfSeg s = true) :
    scanDays (segStr s ++ b) = daysOfSeg s (scanDays b) := by
  rcases s with ls | ⟨nm, v⟩ | ⟨ds, inner⟩
  · simp only [wfSeg, Bool.and_eq_true] at h
    simp only [segStr, daysOfSeg]
    exact scanDays_append_noLt b (noLt_joinNL h.2)
  · simp only [wfSeg, Bool.and_eq_true] at h
    simp only [segStr, daysOfSeg]
    exact scanDays_skip_fblock nm v b h.1.2 h.2
  · simp only [wfSeg, Bool.and_eq_true] at h
    simp only [segStr, daysOfSeg]
    rw [show txt "<!-- ITINERARY_DAY:" ++ ds ++ txt " -->" ++
        ('\n' :: joinNL inner ++ ['\n']) ++ closeD ds ++ b =
      txt "<!-- ITINERARY_DAY:" ++ ds ++ txt " -->" ++
        (('\n' :: joinNL inner ++ ['\n']) ++ closeD ds) ++ b from by
      simp [List.append_assoc]]
    rw [scanDays_block _ b h.1.1.2 (by
      intro hc
      rw [hc] at h
      simp at h) (by
      rw [noLt_append, noLt_cons]
      simp only [Bool.and_eq_true]
      exact ⟨⟨by decide, noLt_joinNL h.2⟩, by decide⟩)]

theorem scanFields_flattenS : ∀ {segs : List LSeg}, segs.all wfSeg = true →
    scanFields (flattenS segs) = fieldsOf segs := by
  intro segs
  induction segs with
  | nil => intro _; rfl
  | cons s rest ih =>
    intro h
    simp only [List.all_cons, Bool.and_eq_true] at h
    cases rest with
    | nil =>
      rw [show flattenS [s] = segStr s ++ [] from by simp [flattenS]]
      rw [scanFields_seg s [] h.1]
      rfl
    | cons s2 r2 =>
      rw [show flattenS (s :: s2 :: r2) = segStr s ++ '\n' :: flattenS (s2 :: r2) from rfl]
      rw [scanFields_seg s _ h.1]
      rw [scanFields_skip_char (by decide)]
      rw [ih h.2]
      rfl

theorem scanDays_flattenS : ∀ {segs : List LSeg}, segs.all wfSeg = true →
    scanDays (flattenS segs) = daysOf segs := by
  intro segs
  induction segs with
  | nil => intro _; rfl
  | cons s rest ih =>
    intro h
    simp only [List.all_cons, Bool.and_eq_true] at h
    cases rest with
    | nil =>
      rw [show flattenS [s] = segStr s ++ [] from by simp [flattenS]]
      rw [scanDays_seg s [] h.1]
      rfl
    | cons s2 r2 =>
      rw [show flattenS (s :: s2 :: r2) = segStr s ++ '\n' :: flattenS (s2 :: r2) from rfl]
      rw [scanDays_seg s _ h.1]
      rw [scanDays_skip_char (by decide)]
      rw [ih h.2]
      rfl

/-! ## C1 — decimal rendering of day numbers -/

theorem natToStrAux_ne_nil (fuel n : Nat) : natToStrAux (fuel + 1) n ≠ [] := by
  simp only [natToStrAux]
  split
  · simp
  · simp

theorem natToStr_ne_nil (n : Nat) : natToStr n ≠ [] := natToStrAux_ne_nil n n

theorem natToStrAux_digits : ∀ (fuel n : Nat), n < fuel →
    (natToStrAux fuel n).all Char.isDigit = true := by
  intro fuel
  induction fuel with
  | zero => intro n h; omega
  | succ f ih =>
    intro n h
    simp only [natToStrAux]
    split
    · rename_i h10
      simp only [List.all_cons, List.all_nil, Bool.and_true]
      interval_cases n <;> decide
    · rename_i h10
      rw [List.all_append]
      simp only [Bool.and_eq_true]
      constructor
      · refine ih (n / 10) ?_
        have hd := Nat.div_lt_self (show 0 < n by omega) (show 1 < 10 by omega)
        omega
      · simp only [List.all_cons, List.all_nil, Bool.and_true]
        have hm : n % 10 < 10 := Nat.mod_lt _ (by omega)
        set r := n % 10 with hr
        interval_cases r <;> decide

theorem natToStr_digits (n : Nat) : (natToStr n).all Char.isDigit = true :=
  natToStrAux_digits (n + 1) n (by omega)

theorem natToStrAux_val : ∀ (fuel n : Nat), n < fuel →
    digitsVal (natToStrAux fuel n) = n := by
  intro fuel
  induction fuel with
  | zero => intro n h; omega
  | succ f ih =>
    intro n h
    simp only [natToStrAux]
    split
    · rename_i h10
      interval_cases n <;> decide
    · rename_i h10
      simp only [digitsVal, List.foldl_append, List.foldl_cons, List.foldl_nil]
      have hpre := ih (n / 10) (by
        have hd := Nat.div_lt_self (show 0 < n by omega) (show 1 < 10 by omega)
        omega)
      simp only [digitsVal] at hpre
      rw [hpre]
      have hm : n % 10 < 10 := Nat.mod_lt _ (by omega)
      have hc : (Char.ofNat (48 + n % 10)).toNat = 48 + n % 10 := by
        set r := n % 10 with hr
        interval_cases r <;> decide
      rw [hc]
      omega

theorem digitsVal_natToStr (n : Nat) : digitsVal (natToStr n) = n :=
  natToStrAux_val (n + 1) n (by omega)

/-! ## C1 — tidiness accessors -/

theorem tidyT_title {tour : Tour} (h : tidyTour tour = true) : noLt tour.title = true := by
  simp only [tidyTour, Bool.and_eq_true] at h
  tauto

theorem tidyT_slug {tour : Tour} (h : tidyTour tour = true) : tidyRO tour.slug = true := by
  simp only [tidyTour, Bool.and_eq_true] at h
  tauto

theorem tidyT_permalink {tour : Tour} (h : tidyTour tour = true) :
    tidyRO tour.permalink = true := by
  simp only [tidyTour, Bool.and_eq_true] at h
  tauto

theorem tidyT_website_id {tour : Tour} (h : tidyTour tour = true) :
    tidyRO tour.website_id = true := by
  simp only [tidyTour, Bool.and_eq_true] at h
  tauto

theorem tidyT_arctic_shortname {tour : Tour} (h : tidyTour tour = true) :
    tidyRO tour.arctic_shortname = true := by
  simp only [tidyTour, Bool.and_eq_true] at h
  tauto

theorem tidyT_arctic_id {tour : Tour} (h : tidyTour tour = true) :
    tidyRO tour.arctic_id = true := by
  simp only [tidyTour, Bool.and_eq_true] at h
  tauto

theorem tidyT_tour_type {tour : Tour} (h : tidyTour tour = true) :
    tidyRO tour.tour_type = true := by
  simp only [tidyTour, Bool.and_eq_true] at h
  tauto

theorem tidyT_region {tour : Tour} (h : tidyTour tour = true) :
    tidyRO tour.region = true := by
  simp only [tidyTour, Bool.and_eq_true] at h
  tauto

theorem tidyT_duration {tour : Tour} (h : tidyTour tour = true) :
    tidyRO tour.duration = true := by
  simp only [tidyTour, Bool.and_eq_true] at h
  tauto

theorem tidyT_season {tour : Tour} (h : tidyTour tour = true) :
    tidyRO tour.season = true := by
  simp only [tidyTour, Bool.and_eq_true] at h
  tauto

theorem tidyT_style {tour : Tour} (h : tidyTour tour = true) :
    tidyRO tour.style = true := by
  simp only [tidyTour, Bool.and_eq_true] at h
  tauto

theorem tidyT_skill_level {tour : Tour} (h : tidyTour tour = true) :
    tidyRO tour.skill_level = true := by
  simp only [tidyTour, Bool.and_eq_true] at h
  tauto

theorem tidyT_departs {tour : Tour} (h : tidyTour tour = true) :
    tidyRO tour.departs = true := by
  simp only [tidyTour, Bool.and_eq_true] at h
  tauto

theorem tidyT_distance {tour : Tour} (h : tidyTour tour = true) :
    tidyRO tour.distance = true := by
  simp only [tidyTour, Bool.and_eq_true] at h
  tauto

theorem tidyT_subtitle {tour : Tour} (h : tidyTour tour = true) :
    tidyRO tour.subtitle = true := by
  simp only [tidyTour, Bool.and_eq_true] at h
  tauto

theorem tidyT_short_description {tour : Tour} (h : tidyTour tour = true) :
    tidyDesc tour.short_description = true := by
  simp only [tidyTour, Bool.and_eq_true] at h
  tauto

theorem tidyT_description {tour : Tour} (h : tidyTour tour = true) :
    tidyDesc tour.description = true := by
  simp only [tidyTour, Bool.and_eq_true] at h
  tauto

theorem tidyT_special_notes {tour : Tour} (h : tidyTour tour = true) :
    tidyDesc tour.special_notes = true := by
  simp only [tidyTour, Bool.and_eq_true] at h
  tauto

theorem tidyT_meeting_time {tour : Tour} (h : tidyTour tour = true) :
    tidyLabeled tour.meeting_time = true := by
  simp only [tidyTour, Bool.and_eq_true] at h
  tauto

theorem tidyT_meeting_location {tour : Tour} (h : tidyTour tour = true) :
    tidyLabeled tour.meeting_location = true := by
  simp only [tidyTour, Bool.and_eq_true] at h
  tauto

theorem tidyT_tour_rating {tour : Tour} (h : tidyTour tour = true) :
    tidyLabeled tour.tour_rating = true := by
  simp only [tidyTour, Bool.and_eq_true] at h
  tauto

theorem tidyT_terrain {tour : Tour} (h : tidyTour tour = true) :
    tidyLabeled tour.terrain = true := by
  simp only [tidyTour, Bool.and_eq_true] at h
  tauto

theorem tidyT_technical_difficulty {tour : Tour} (h : tidyTour tour = true) :
    tidyLabeled tour.technical_difficulty = true := by
  simp only [tidyTour, Bool.and_eq_true] at h
  tauto

theorem tidyT_altitude {tour : Tour} (h : tidyTour tour = true) :
    tidyLabeled tour.altitude = true := by
  simp only [tidyTour, Bool.and_eq_true] at h
  tauto

theorem tidyD_miles {d : ItinDay} (h : tidyDay d = true) : tidyDayVal d.miles = true := by
  simp only [tidyDay, Bool.and_eq_true] at h
  tauto

theorem tidyD_elevation {d : ItinDay} (h : tidyDay d = true) :
    tidyDayVal d.elevation = true := by
  simp only [tidyDay, Bool.and_eq_true] at h
  tauto

theorem tidyD_trails {d : ItinDay} (h : tidyDay d = true) :
    tidyDayVal d.trails_waypoints = true := by
  simp only [tidyDay, Bool.and_eq_true] at h
  tauto

theorem tidyD_lodging {d : ItinDay} (h : tidyDay d = true) :
    tidyDayVal d.camp_lodging = true := by
  simp only [tidyDay, Bool.and_eq_true] at h
  tauto

theorem tidyD_meals {d : ItinDay} (h : tidyDay d = true) : tidyDayVal d.meals = true := by
  simp only [tidyDay, Bool.and_eq_true] at h
  tauto

theorem tidyD_content {d : ItinDay} (h : tidyDay d = true) :
    tidyContent d.content = true := by
  simp only [tidyDay, Bool.and_eq_true] at h
  tauto

theorem tidyRO_noLt {o : Option Str} {v : Str} (h : tidyRO o = true) (he : o = some v) :
    noLt v = true := by
  subst he
  simpa [tidyRO] using h

theorem tidyDesc_noLt {o : Option Str} {v : Str} (h : tidyDesc o = true) (he : o = some v)
    (hne : v ≠ []) : noLt v = true := by
  subst he
  simp only [tidyDesc, Bool.or_eq_true, Bool.and_eq_true] at h
  rcases h with h | h
  · exact absurd (List.isEmpty_iff.mp h) hne
  · tauto

theorem tidyLabeled_noLt {o : Option Str} {v : Str} (h : tidyLabeled o = true)
    (he : o = some v) (hne : v ≠ []) : noLt v = true := by
  subst he
  simp only [tidyLabeled, Bool.or_eq_true, Bool.and_eq_true] at h
  rcases h with h | h
  · exact absurd (List.isEmpty_iff.mp h) hne
  · tauto

theorem tidyDayVal_noLt {o : Option Str} {v : Str} (h : tidyDayVal o = true)
    (he : o = some v) (hne : v ≠ []) : noLt v = true := by
  subst he
  simp only [tidyDayVal, Bool.or_eq_true, Bool.and_eq_true] at h
  rcases h with h | h
  · exact absurd (List.isEmpty_iff.mp h) hne
  · tauto

theorem tidyContent_noLt {o : Option Str} {v : Str} (h : tidyContent o = true)
    (he : o = some v) (hne : v ≠ []) : noLt v = true := by
  subst he
  simp only [tidyContent, Bool.or_eq_true, Bool.and_eq_true] at h
  rcases h with h | h
  · exact absurd (List.isEmpty_iff.mp h) hne
  · tauto

theorem noLt_pyOr {o : Option Str} {ph : Str} (hph : noLt ph = true)
    (hv : ∀ v, o = some v → v ≠ [] → noLt v = true) : noLt (pyOr o ph) = true := by
  rcases o with - | v
  · exact hph
  · simp only [pyOr]
    split
    · exact hph
    · rename_i hne
      exact hv v rfl hne

theorem isEmpty_false_of_ne_nil {α : Type} {l : List α} (h : l ≠ []) :
    l.isEmpty = false := by
  rcases l with - | ⟨c, t⟩
  · exact absurd rfl h
  · rfl

/-! ## C1 — well-formedness of the rendered segments -/

theorem optTableLine_noLt {pre post : Str} {o : Option Str} (hp : noLt pre = true)
    (hq : noLt post = true) (ho : tidyRO o = true) :
    (optTableLine pre o post).all noLt = true := by
  rcases he : o with - | v
  · rfl
  · simp only [optTableLine]
    split
    · rfl
    · simp only [List.all_cons, List.all_nil, Bool.and_true]
      rw [noLt_append, noLt_append]
      simp only [Bool.and_eq_true]
      exact ⟨⟨hp, tidyRO_noLt ho he⟩, hq⟩

theorem optItemLine_noLt {label : Str} {o : Option Str} (hl : noLt label = true)
    (ho : tidyRO o = true) : (optItemLine label o).all noLt = true := by
  rcases he : o with - | v
  · rfl
  · simp only [optItemLine]
    split
    · rfl
    · simp only [List.all_cons, List.all_nil, Bool.and_true]
      rw [noLt_append, noLt_append, noLt_append]
      simp only [Bool.and_eq_true]
      exact ⟨⟨⟨by decide, hl⟩, by decide⟩, tidyRO_noLt ho he⟩

theorem refIdTableLines_noLt {tour : Tour} (h : tidyTour tour = true) :
    (refIdTableLines tour).all noLt = true := by
  have hA : ([txt "| System | Identifier |", txt "|--------|------------|",
      txt "| **Title** | " ++ tour.title ++ txt " |"]).all noLt = true := by
    simp only [List.all_cons, List.all_nil, Bool.and_true, Bool.and_eq_true]
    refine ⟨by decide, by decide, ?_⟩
    rw [noLt_append, noLt_append]
    simp only [Bool.and_eq_true]
    exact ⟨⟨by decide, tidyT_title h⟩, by decide⟩
  have h0 : ([txt ""]).all noLt = true := by decide
  have hs1 : (optTableLine (txt "| **Slug** | `") tour.slug (txt "` |")).all noLt = true :=
    optTableLine_noLt (by decide) (by decide) (tidyT_slug h)
  have hs2 : (optTableLine (txt "| **Website ID** | ") tour.website_id (txt " |")).all
      noLt = true :=
    optTableLine_noLt (by decide) (by decide) (tidyT_website_id h)
  have hs3 : (optTableLine (txt "| **Arctic Shortname** | `") tour.arctic_shortname
      (txt "` |")).all noLt = true :=
    optTableLine_noLt (by decide) (by decide) (tidyT_arctic_shortname h)
  have hs4 : (optTableLine (txt "| **Arctic ID** | ") tour.arctic_id (txt " |")).all
      noLt = true :=
    optTableLine_noLt (by decide) (by decide) (tidyT_arctic_id h)
  simp only [refIdTableLines, List.all_append, hA, h0, hs1, hs2, hs3, hs4, Bool.and_self]

theorem infoItemLines_noLt {tour : Tour} (h : tidyTour tour = true) :
    (infoItemLines tour).all noLt = true := by
  have hperm : ((match tour.permalink with
      | some v =>
        if v = [] then []
        else [txt "- **Website:** [" ++ v ++ txt "](" ++ v ++ txt ")"]
      | none => []) : List Str).all noLt = true := by
    rcases he : tour.permalink with - | v
    · rfl
    · simp only []
      split
      · rfl
      · simp only [List.all_cons, List.all_nil, Bool.and_true]
        have hv : noLt v = true := tidyRO_noLt (tidyT_permalink h) he
        rw [noLt_append, noLt_append, noLt_append, noLt_append]
        simp only [Bool.and_eq_true]
        exact ⟨⟨⟨⟨by decide, hv⟩, by decide⟩, hv⟩, by decide⟩
  have h0 : ([txt ""]).all noLt = true := by decide
  have hi1 : (optItemLine (txt "Tour Type") tour.tour_type).all noLt = true :=
    optItemLine_noLt (by decide) (tidyT_tour_type h)
  have hi2 : (optItemLine (txt "Region") tour.region).all noLt = true :=
    optItemLine_noLt (by decide) (tidyT_region h)
  have hi3 : (optItemLine (txt "Duration") tour.duration).all noLt = true :=
    optItemLine_noLt (by decide) (tidyT_duration h)
  have hi4 : (optItemLine (txt "Season") tour.season).all noLt = true :=
    optItemLine_noLt (by decide) (tidyT_season h)
  have hi5 : (optItemLine (txt "Style") tour.style).all noLt = true :=
    optItemLine_noLt (by decide) (tidyT_style h)
  have hi6 : (optItemLine (txt "Skill Level") tour.skill_level).all noLt = true :=
    optItemLine_noLt (by decide) (tidyT_skill_level h)
  have hi7 : (optItemLine (txt "Departs From") tour.departs).all noLt = true :=
    optItemLine_noLt (by decide) (tidyT_departs h)
  have hi8 : (optItemLine (txt "Distance") tour.distance).all noLt = true :=
    optItemLine_noLt (by decide) (tidyT_distance h)
  simp only [infoItemLines, List.all_append, hperm, h0, hi1, hi2, hi3, hi4, hi5, hi6,
    hi7, hi8, Bool.and_self]

theorem pricingBodyLines_noLt {pricing : List PricingEntry} {fees : List FeeEntry}
    (hp : pricing.all tidyPricing = true) (hf : fees.all tidyFee = true) :
    (pricingBodyLines pricing fees).all noLt = true := by
  have h1 : (pricing.map
      (fun p => txt "- **" ++ priceLabel p ++ txt ":** " ++ p.2.2)).all noLt = true := by
    rw [List.all_eq_true]
    intro x hx
    rw [List.mem_map] at hx
    obtain ⟨p, hpm, rfl⟩ := hx
    have h2 : tidyPricing p = true := (List.all_eq_true.mp hp) p hpm
    simp only [tidyPricing, Bool.and_eq_true] at h2
    rw [noLt_append, noLt_append, noLt_append]
    simp only [Bool.and_eq_true]
    exact ⟨⟨⟨by decide, h2.1⟩, by decide⟩, h2.2⟩
  have h2 : ((if fees.isEmpty then []
      else [txt "", txt "**Additional Fees:**"]
        ++ fees.map fun f =>
          txt "- " ++ titleCase (underscoreToSpace f.1) ++ txt ": " ++ f.2) :
      List Str).all noLt = true := by
    split
    · rfl
    · have h3 : (fees.map
          (fun f => txt "- " ++ titleCase (underscoreToSpace f.1) ++ txt ": " ++ f.2)).all
            noLt = true := by
        rw [List.all_eq_true]
        intro x hx
        rw [List.mem_map] at hx
        obtain ⟨f, hfm, rfl⟩ := hx
        have h4 : tidyFee f = true := (List.all_eq_true.mp hf) f hfm
        simp only [tidyFee, Bool.and_eq_true] at h4
        rw [noLt_append, noLt_append, noLt_append]
        simp only [Bool.and_eq_true]
        exact ⟨⟨⟨by decide, h4.1⟩, by decide⟩, h4.2⟩
      simp only [List.all_append, h3]
      decide
  simp only [pricingBodyLines, List.all_append, h1, h2, Bool.and_self]

theorem pricingSectionLines_noLt {note : Str} {pricing : List PricingEntry}
    {fees : List FeeEntry} (hn : noLt note = true) (hp : pricing.all tidyPricing = true)
    (hf : fees.all tidyFee = true) :
    (pricingSectionLines note pricing fees).all noLt = true := by
  simp only [pricingSectionLines]
  split
  · rfl
  · have hhd : ([txt "---", txt "## 💰 Pricing", note, txt ""]).all noLt = true := by
      simp only [List.all_cons, List.all_nil, Bool.and_true, Bool.and_eq_true]
      exact ⟨by decide, by decide, hn, by decide⟩
    have h0 : ([txt ""]).all noLt = true := by decide
    simp only [List.all_append, hhd, h0, pricingBodyLines_noLt hp hf, Bool.and_self]

theorem docPre1_noLt {tour : Tour} {pricing : List PricingEntry} {fees : List FeeEntry}
    (h : tidyTour tour = true) (hp : pricing.all tidyPricing = true)
    (hf : fees.all tidyFee = true) : (docPre1 tour pricing fees).all noLt = true := by
  have h1 : ([txt "# " ++ tour.title, txt ""]).all noLt = true := by
    simp only [List.all_cons, List.all_nil, Bool.and_true, Bool.and_eq_true]
    constructor
    · rw [noLt_append]
      simp only [Bool.and_eq_true]
      exact ⟨by decide, tidyT_title h⟩
    · decide
  have h2 : ((match tour.subtitle with
      | some v => if v = [] then [] else [txt "*" ++ v ++ txt "*", txt ""]
      | none => []) : List Str).all noLt = true := by
    rcases he : tour.subtitle with - | v
    · rfl
    · simp only []
      split
      · rfl
      · simp only [List.all_cons, List.all_nil, Bool.and_true, Bool.and_eq_true]
        have hv : noLt v = true := tidyRO_noLt (tidyT_subtitle h) he
        constructor
        · rw [noLt_append, noLt_append]
          simp only [Bool.and_eq_true]
          exact ⟨⟨by decide, hv⟩, by decide⟩
        · decide
  have h3 : ([txt "---", txt "## 🔗 Reference IDs",
      txt "> ⚠️ **Read-Only** - Cross-system identifiers for this tour.", txt ""]).all
        noLt = true := by decide
  have h4 : ([txt "---", txt "## 📋 Tour Information",
      txt "> ⚠️ **Read-Only Section** - This data comes from the website and cannot be edited here.",
      txt ""]).all noLt = true := by decide
  have h5 : ([txt "---", txt "## ✏️ Description",
      txt "> ✅ **Editable Section** - You can edit this content.", txt "",
      txt "### Short Description"]).all noLt = true := by decide
  have h6 : (pricingSectionLines
      (txt "> ⚠️ **Read-Only Section** - Pricing is managed in Arctic Reservations.")
      pricing fees).all noLt = true :=
    pricingSectionLines_noLt (by decide) hp hf
  simp only [docPre1, List.all_append, h1, h2, h3, h4, h5, h6, refIdTableLines_noLt h,
    infoItemLines_noLt h, Bool.and_self]

theorem optStat_noLt {pre : Str} {o : Option Str} (hp : noLt pre = true)
    (ho : tidyDayVal o = true) : (optStat pre o).all noLt = true := by
  rcases he : o with - | v
  · rfl
  · simp only [optStat]
    split
    · rfl
    · rename_i hne
      simp only [List.all_cons, List.all_nil, Bool.and_true]
      rw [noLt_append]
      simp only [Bool.and_eq_true]
      exact ⟨hp, tidyDayVal_noLt ho he hne⟩

theorem optDayLine_noLt {pre : Str} {o : Option Str} (hp : noLt pre = true)
    (ho : tidyDayVal o = true) : (optDayLine pre o).all noLt = true := by
  rcases he : o with - | v
  · rfl
  · simp only [optDayLine]
    split
    · rfl
    · rename_i hne
      simp only [List.all_cons, List.all_nil, Bool.and_true, Bool.and_eq_true]
      constructor
      · rw [noLt_append]
        simp only [Bool.and_eq_true]
        exact ⟨hp, tidyDayVal_noLt ho he hne⟩
      · decide

theorem dayInnerLines_noLt {d : ItinDay} (h : tidyDay d = true) :
    (dayInnerLines d).all noLt = true := by
  have hstats : ((let stats := optStat (txt "**Miles:** ") d.miles
        ++ optStat (txt "**Elevation:** ") d.elevation
      if stats.isEmpty then [] else [joinSep (txt " | ") stats, txt ""]) :
      List Str).all noLt = true := by
    simp only []
    split
    · rfl
    · simp only [List.all_cons, List.all_nil, Bool.and_true, Bool.and_eq_true]
      constructor
      · refine noLt_joinSep (by decide) ?_
        rw [List.all_append]
        simp only [Bool.and_eq_true]
        exact ⟨optStat_noLt (by decide) (tidyD_miles h),
          optStat_noLt (by decide) (tidyD_elevation h)⟩
      · decide
  have hcont : ((match d.content with
      | some v => if v = [] then [] else [v, txt ""]
      | none => []) : List Str).all noLt = true := by
    rcases he : d.content with - | v
    · rfl
    · simp only []
      split
      · rfl
      · rename_i hne
        simp only [List.all_cons, List.all_nil, Bool.and_true, Bool.and_eq_true]
        exact ⟨tidyContent_noLt (tidyD_content h) he hne, by decide⟩
  have h0 : ([txt ""]).all noLt = true := by decide
  have hr : (optDayLine (txt "**Route:** ") d.trails_waypoints).all noLt = true :=
    optDayLine_noLt (by decide) (tidyD_trails h)
  have hl : (optDayLine (txt "**Lodging:** ") d.camp_lodging).all noLt = true :=
    optDayLine_noLt (by decide) (tidyD_lodging h)
  have hm : (optDayLine (txt "**Meals:** ") d.meals).all noLt = true :=
    optDayLine_noLt (by decide) (tidyD_meals h)
  simp only [dayInnerLines, List.all_append, h0, hstats, hcont, hr, hl, hm,
    Bool.and_self]

theorem dayLSegs_wf {d : ItinDay} (h : tidyDay d = true) :
    (dayLSegs d).all wfSeg = true := by
  simp only [dayLSegs, List.all_cons, List.all_nil, Bool.and_true, wfSeg,
    Bool.and_eq_true]
  refine ⟨⟨by rfl, ?_⟩,
    ⟨⟨⟨?_, natToStr_digits d.day_number⟩, ?_⟩, dayInnerLines_noLt h⟩, by decide⟩
  · rw [noLt_append]
    simp only [Bool.and_eq_true]
    exact ⟨by decide, all_digit_noLt (natToStr_digits d.day_number)⟩
  · have hne : (natToStr d.day_number).isEmpty = false :=
      isEmpty_false_of_ne_nil (natToStr_ne_nil d.day_number)
    rw [hne]
    rfl
  · have hne0 : dayInnerLines d ≠ [] := by
      rw [dayInnerLines_items]
      simp
    have hne : (dayInnerLines d).isEmpty = false := isEmpty_false_of_ne_nil hne0
    rw [hne]
    rfl

theorem flatMap_dayLSegs_wf {days : List ItinDay} (h : days.all tidyDay = true) :
    (days.flatMap dayLSegs).all wfSeg = true := by
  induction days with
  | nil => rfl
  | cons d ds ih =>
    simp only [List.all_cons, Bool.and_eq_true] at h
    simp only [List.flatMap_cons, List.all_append, Bool.and_eq_true]
    exact ⟨dayLSegs_wf h.1, ih h.2⟩

theorem tidyDesc_val {o : Option Str} (h : tidyDesc o = true) :
    ∀ v, o = some v → v ≠ [] → noLt v = true := by
  intro v he hne
  exact tidyDesc_noLt h he hne

theorem tidyLabeled_val {o : Option Str} (h : tidyLabeled o = true) :
    ∀ v, o = some v → v ≠ [] → noLt v = true := by
  intro v he hne
  exact tidyLabeled_noLt h he hne

theorem docLSegs_wf {tour : Tour} {days : List ItinDay} {pricing : List PricingEntry}
    {fees : List FeeEntry} {now : Str} (ht : tidyTour tour = true)
    (hd : days.all tidyDay = true) (hp : pricing.all tidyPricing = true)
    (hf : fees.all tidyFee = true) (hn : noLt now = true) :
    (docLSegs tour days pricing fees now).all wfSeg = true := by
  have hv1 : noLt (txt "**Time:** " ++ pyOr tour.meeting_time (txt "_Not specified_")) =
      true := by
    rw [noLt_append]
    simp only [Bool.and_eq_true]
    exact ⟨by decide, noLt_pyOr (by decide) (tidyLabeled_val (tidyT_meeting_time ht))⟩
  have hv2 : noLt (txt "**Location:** " ++
      pyOr tour.meeting_location (txt "_Not specified_")) = true := by
    rw [noLt_append]
    simp only [Bool.and_eq_true]
    exact ⟨by decide, noLt_pyOr (by decide) (tidyLabeled_val (tidyT_meeting_location ht))⟩
  have hv3 : noLt (txt "**Tour Rating:** " ++
      pyOr tour.tour_rating (txt "_Not specified_")) = true := by
    rw [noLt_append]
    simp only [Bool.and_eq_true]
    exact ⟨by decide, noLt_pyOr (by decide) (tidyLabeled_val (tidyT_tour_rating ht))⟩
  have hv4 : noLt (txt "**Terrain:** " ++ pyOr tour.terrain (txt "_Not specified_")) =
      true := by
    rw [noLt_append]
    simp only [Bool.and_eq_true]
    exact ⟨by decide, noLt_pyOr (by decide) (tidyLabeled_val (tidyT_terrain ht))⟩
  have hv5 : noLt (txt "**Technical Difficulty:** " ++
      pyOr tour.technical_difficulty (txt "_Not specified_")) = true := by
    rw [noLt_append]
    simp only [Bool.and_eq_true]
    exact ⟨by decide, noLt_pyOr (by decide) (tidyLabeled_val (tidyT_technical_difficulty ht))⟩
  have hv6 : noLt (txt "**Altitude:** " ++ pyOr tour.altitude (txt "_Not specified_")) =
      true := by
    rw [noLt_append]
    simp only [Bool.and_eq_true]
    exact ⟨by decide, noLt_pyOr (by decide) (tidyLabeled_val (tidyT_altitude ht))⟩
  have hA : ([(.plain (docPre1 tour pricing fees) : LSeg),
      .fblock (txt "short_description")
        (pyOr tour.short_description (txt "_No short description yet._")),
      .plain [txt "", txt "### Full Description"],
      .fblock (txt "description") (pyOr tour.description (txt "_No description yet._")),
      .plain [txt ""]]).all wfSeg = true := by
    simp only [List.all_cons, List.all_nil, Bool.and_true, wfSeg, Bool.and_eq_true]
    refine ⟨⟨by rfl, docPre1_noLt ht hp hf⟩,
      ⟨⟨by decide, by decide⟩,
        noLt_pyOr (by decide) (tidyDesc_val (tidyT_short_description ht))⟩,
      by decide,
      ⟨⟨by decide, by decide⟩,
        noLt_pyOr (by decide) (tidyDesc_val (tidyT_description ht))⟩,
      by decide⟩
  have hSn : ((match tour.special_notes with
      | some v =>
        if v = [] then ([] : List LSeg)
        else [.plain [txt "### Special Notes"], .fblock (txt "special_notes") v,
              .plain [txt ""]]
      | none => []) : List LSeg).all wfSeg = true := by
    rcases he : tour.special_notes with - | v
    · rfl
    · simp only []
      split
      · rfl
      · rename_i hne
        simp only [List.all_cons, List.all_nil, Bool.and_true, wfSeg, Bool.and_eq_true]
        exact ⟨by decide,
          ⟨⟨by decide, by decide⟩, tidyDesc_noLt (tidyT_special_notes ht) he hne⟩,
          by decide⟩
  have hL2 : ([(.plain [txt "---", txt "## ✏️ Trip Details",
        txt "> ✅ **Editable Section** - You can edit this content.", txt "",
        txt "### Meeting Information"] : LSeg),
      .fblock (txt "meeting_time")
        (txt "**Time:** " ++ pyOr tour.meeting_time (txt "_Not specified_")),
      .plain [txt ""],
      .fblock (txt "meeting_location")
        (txt "**Location:** " ++ pyOr tour.meeting_location (txt "_Not specified_")),
      .plain [txt "", txt "### Difficulty & Terrain"],
      .fblock (txt "tour_rating")
        (txt "**Tour Rating:** " ++ pyOr tour.tour_rating (txt "_Not specified_")),
      .plain [txt ""],
      .fblock (txt "terrain")
        (txt "**Terrain:** " ++ pyOr tour.terrain (txt "_Not specified_")),
      .plain [txt ""],
      .fblock (txt "technical_difficulty")
        (txt "**Technical Difficulty:** " ++
          pyOr tour.technical_difficulty (txt "_Not specified_")),
      .plain [txt ""],
      .fblock (txt "altitude")
        (txt "**Altitude:** " ++ pyOr tour.altitude (txt "_Not specified_")),
      .plain [txt ""]]).all wfSeg = true := by
    simp only [List.all_cons, List.all_nil, Bool.and_true, wfSeg, Bool.and_eq_true]
    exact ⟨by decide, ⟨⟨by decide, by decide⟩, hv1⟩, by decide,
      ⟨⟨by decide, by decide⟩, hv2⟩, by decide,
      ⟨⟨by decide, by decide⟩, hv3⟩, by decide,
      ⟨⟨by decide, by decide⟩, hv4⟩, by decide,
      ⟨⟨by decide, by decide⟩, hv5⟩, by decide,
      ⟨⟨by decide, by decide⟩, hv6⟩, by decide⟩
  have hDays : ((if days.isEmpty then ([] : List LSeg)
      else [.plain [txt "---", txt "## ✏️ Day-by-Day Itinerary",
              txt "> ✅ **Editable Section** - You can edit this content.", txt ""]]
        ++ days.flatMap dayLSegs) : List LSeg).all wfSeg = true := by
    split
    · rfl
    · simp only [List.all_append, List.all_cons, List.all_nil, Bool.and_true, wfSeg,
        Bool.and_eq_true]
      exact ⟨⟨by decide, by decide⟩, flatMap_dayLSegs_wf hd⟩
  have hL3 : ([(.plain [txt "---",
      txt "*This document is synced with the RimTours database.*",
      txt "*Last sync: " ++ now ++ txt "*"] : LSeg)]).all wfSeg = true := by
    simp only [List.all_cons, List.all_nil, Bool.and_true, wfSeg, Bool.and_eq_true]
    refine ⟨by rfl, by decide, by decide, ?_⟩
    rw [noLt_append, noLt_append]
    simp only [Bool.and_eq_true]
    exact ⟨⟨by decide, hn⟩, by decide⟩
  simp only [docLSegs, List.all_append, hA, hSn, hL2, hDays, hL3, Bool.and_self]

/-! ## C1 — scanners applied to the rendered document -/

theorem scanFields_doc {tour : Tour} {days : List ItinDay} {pricing : List PricingEntry}
    {fees : List FeeEntry} {now : Str} (ht : tidyTour tour = true)
    (hd : days.all tidyDay = true) (hp : pricing.all tidyPricing = true)
    (hf : fees.all tidyFee = true) (hn : noLt now = true) :
    scanFields (generate_tour_document tour days pricing fees now) =
      fieldsOf (docLSegs tour days pricing fees now) := by
  have hwf := docLSegs_wf ht hd hp hf hn
  rw [generate_tour_document, tourDocLines_eq, joinNL_flattenS hwf]
  exact scanFields_flattenS hwf

theorem scanDays_doc {tour : Tour} {days : List ItinDay} {pricing : List PricingEntry}
    {fees : List FeeEntry} {now : Str} (ht : tidyTour tour = true)
    (hd : days.all tidyDay = true) (hp : pricing.all tidyPricing = true)
    (hf : fees.all tidyFee = true) (hn : noLt now = true) :
    scanDays (generate_tour_document tour days pricing fees now) =
      daysOf (docLSegs tour days pricing fees now) := by
  have hwf := docLSegs_wf ht hd hp hf hn
  rw [generate_tour_document, tourDocLines_eq, joinNL_flattenS hwf]
  exact scanDays_flattenS hwf

theorem fieldsOf_dayLSegs : ∀ (days : List ItinDay) (k : List (Str × Str)),
    (days.flatMap dayLSegs).foldr fieldsOfSeg k = k := by
  intro days
  induction days with
  | nil => intro k; rfl
  | cons d ds ih =>
    intro k
    simp only [List.flatMap_cons, List.foldr_append, ih]
    rfl

theorem daysOf_dayLSegs : ∀ (days : List ItinDay) (k : List (Str × Str)),
    (days.flatMap dayLSegs).foldr daysOfSeg k =
      days.map (fun d =>
        (natToStr d.day_number, '\n' :: joinNL (dayInnerLines d) ++ ['\n'])) ++ k := by
  intro days
  induction days with
  | nil => intro k; rfl
  | cons d ds ih =>
    intro k
    simp only [List.flatMap_cons, List.foldr_append, ih, List.map_cons, List.cons_append]
    rfl

theorem fieldsOf_doc (tour : Tour) (days : List ItinDay) (pricing : List PricingEntry)
    (fees : List FeeEntry) (now : Str) :
    fieldsOf (docLSegs tour days pricing fees now) =
      (txt "short_description",
        '\n' :: pyOr tour.short_description (txt "_No short description yet._") ++ ['\n']) ::
      (txt "description",
        '\n' :: pyOr tour.description (txt "_No description yet._") ++ ['\n']) ::
      ((match tour.special_notes with
        | some v => if v = [] then []
          else [(txt "special_notes", '\n' :: v ++ ['\n'])]
        | none => []) ++
       [(txt "meeting_time",
          '\n' :: (txt "**Time:** " ++ pyOr tour.meeting_time (txt "_Not specified_")) ++
            ['\n']),
        (txt "meeting_location",
          '\n' :: (txt "**Location:** " ++
            pyOr tour.meeting_location (txt "_Not specified_")) ++ ['\n']),
        (txt "tour_rating",
          '\n' :: (txt "**Tour Rating:** " ++
            pyOr tour.tour_rating (txt "_Not specified_")) ++ ['\n']),
        (txt "terrain",
          '\n' :: (txt "**Terrain:** " ++ pyOr tour.terrain (txt "_Not specified_")) ++
            ['\n']),
        (txt "technical_difficulty",
          '\n' :: (txt "**Technical Difficulty:** " ++
            pyOr tour.technical_difficulty (txt "_Not specified_")) ++ ['\n']),
        (txt "altitude",
          '\n' :: (txt "**Altitude:** " ++ pyOr tour.altitude (txt "_Not specified_")) ++
            ['\n'])]) := by
  have hday : ∀ (k : List (Str × Str)),
      ((if days.isEmpty then ([] : List LSeg)
        else [.plain [txt "---", txt "## ✏️ Day-by-Day Itinerary",
                txt "> ✅ **Editable Section** - You can edit this content.", txt ""]]
          ++ days.flatMap dayLSegs)).foldr fieldsOfSeg k = k := by
    intro k
    split
    · rfl
    · simp only [List.foldr_append, fieldsOf_dayLSegs]
      rfl
  rcases hsn : tour.special_notes with - | v
  · simp only [docLSegs, hsn, fieldsOf, List.foldr_append, List.foldr_cons,
      List.foldr_nil, fieldsOfSeg, hday]
    simp
  · by_cases hv : v = []
    · simp only [docLSegs, hsn, hv, if_true, fieldsOf, List.foldr_append,
        List.foldr_cons, List.foldr_nil, fieldsOfSeg, hday]
      simp
    · simp only [docLSegs, hsn, if_neg hv, fieldsOf, List.foldr_append, List.foldr_cons,
        List.foldr_nil, fieldsOfSeg, hday]
      simp

theorem daysOf_doc (tour : Tour) (days : List ItinDay) (pricing : List PricingEntry)
    (fees : List FeeEntry) (now : Str) :
    daysOf (docLSegs tour days pricing fees now) =
      days.map (fun d =>
        (natToStr d.day_number, '\n' :: joinNL (dayInnerLines d) ++ ['\n'])) := by
  have hday : ((if days.isEmpty then ([] : List LSeg)
      else [.plain [txt "---", txt "## ✏️ Day-by-Day Itinerary",
              txt "> ✅ **Editable Section** - You can edit this content.", txt ""]]
        ++ days.flatMap dayLSegs)).foldr daysOfSeg ([] : List (Str × Str)) =
      days.map (fun d =>
        (natToStr d.day_number, '\n' :: joinNL (dayInnerLines d) ++ ['\n'])) := by
    split
    · rename_i he
      have hnil : days = [] := List.isEmpty_iff.mp he
      rw [hnil]
      rfl
    · simp only [List.foldr_append, daysOf_dayLSegs]
      simp only [List.append_nil]
      rfl
  rcases hsn : tour.special_notes with - | v
  · simp only [docLSegs, hsn, daysOf, List.foldr_append, List.foldr_cons,
      List.foldr_nil, daysOfSeg, hday]
  · by_cases hv : v = []
    · simp only [docLSegs, hsn, hv, if_true, daysOf, List.foldr_append, List.foldr_cons,
        List.foldr_nil, daysOfSeg, hday]
    · simp only [docLSegs, hsn, if_neg hv, daysOf, List.foldr_append, List.foldr_cons,
        List.foldr_nil, daysOfSeg, hday]

/-! ## C1 — evaluating the field fold -/

theorem takeWhile_all {p : Char → Bool} {u : Str} (h : u.all p = true) :
    u.takeWhile p = u := by
  have h2 := takeWhile_all_append ([] : Str) h
  simpa using h2

theorem keyFree_append_true {nm : Str} {a b : List (Str × Str)}
    (ha : keyFree nm a = true) (hb : keyFree nm b = true) :
    keyFree nm (a ++ b) = true := by
  simp only [keyFree, List.all_append, Bool.and_eq_true]
  exact ⟨ha, hb⟩

theorem keyFree_fieldEntry {nm nm' : Str} (o : Option Str) (h : (nm' == nm) = false) :
    keyFree nm (fieldEntry nm' o) = true := by
  rcases o with - | v
  · rfl
  · simp only [fieldEntry]
    split
    · rfl
    · simp [keyFree, bne, h]

theorem dictInsert_append_of_keyFree {m : List (Str × Str)} {nm v : Str}
    (hk : keyFree nm m = true) : dictInsert m nm v = m ++ [(nm, v)] := by
  simp only [dictInsert]
  have hany : m.any (fun p => p.1 == nm) = false := by
    simp only [keyFree, List.all_eq_true] at hk
    rw [List.any_eq_false]
    intro p hp
    have h2 := hk p hp
    simp only [bne] at h2
    simp only [Bool.not_eq_true'] at h2
    simp [h2]
  rw [hany]
  simp

theorem strippedB_append_right {a : Str} {c : Char} {t : Str} {v : Str}
    (ha : a = c :: t) (hc : pyWS c = false) (hv : strippedB v = true) (hvne : v ≠ []) :
    strippedB (a ++ v) = true := by
  subst ha
  simp only [strippedB, beq_iff_eq, pstrip]
  rw [List.cons_append, lstrip_cons_nonws hc, ← List.cons_append,
    rstrip_append_keep (stripped_parts hv).2 hvne]

theorem cleanFieldValue_plain {nm v : Str} (hnm : labeledFields.contains nm = false)
    (hv : strippedB v = true) : cleanFieldValue nm ('\n' :: v ++ ['\n']) = v := by
  simp only [cleanFieldValue, hnm, Bool.false_eq_true, if_false]
  exact pstrip_wrap hv

theorem pfStep_plain_keep {m : List (Str × Str)} {nm v : Str}
    (hnm : labeledFields.contains nm = false) (hv : strippedB v = true) (hne : v ≠ [])
    (h1 : v ≠ txt "_No short description yet._") (h2 : v ≠ txt "_No description yet._")
    (hk : keyFree nm m = true) :
    pfStep m (nm, '\n' :: v ++ ['\n']) = m ++ [(nm, v)] := by
  simp only [pfStep, cleanFieldValue_plain hnm hv]
  rw [if_pos ⟨hne, h1, h2⟩]
  exact dictInsert_append_of_keyFree hk

theorem tidyDesc_props {o : Option Str} {v : Str} (h : tidyDesc o = true)
    (he : o = some v) (hne : v ≠ []) :
    strippedB v = true ∧ v ≠ txt "_No short description yet._" ∧
      v ≠ txt "_No description yet._" := by
  subst he
  simp only [tidyDesc, Bool.or_eq_true, Bool.and_eq_true] at h
  rcases h with h | h
  · exact absurd (List.isEmpty_iff.mp h) hne
  · obtain ⟨⟨⟨-, hs⟩, h1⟩, h2⟩ := h
    exact ⟨hs, bne_iff_ne.mp h1, bne_iff_ne.mp h2⟩

theorem tidyLabeled_props {o : Option Str} {v : Str} (h : tidyLabeled o = true)
    (he : o = some v) (hne : v ≠ []) :
    strippedB v = true ∧ oneLine v = true ∧ v ≠ txt "_Not specified_" ∧
      v ≠ txt "_No short description yet._" ∧ v ≠ txt "_No description yet._" := by
  subst he
  simp only [tidyLabeled, Bool.or_eq_true, Bool.and_eq_true] at h
  rcases h with h | h
  · exact absurd (List.isEmpty_iff.mp h) hne
  · obtain ⟨⟨⟨⟨⟨-, hs⟩, ho⟩, hns⟩, h1⟩, h2⟩ := h
    exact ⟨hs, ho, bne_iff_ne.mp hns, bne_iff_ne.mp h1, bne_iff_ne.mp h2⟩

theorem labelAt_pos {lbl v : Str} (hstar : lbl.all (fun c => c != '*') = true)
    (hlne : lbl ≠ []) (hvne : v ≠ []) (hv1 : oneLine v = true)
    (hvs : strippedB v = true) :
    labelAt (txt "**" ++ lbl ++ txt ":** " ++ v) = some v := by
  have he : txt "**" ++ lbl ++ txt ":** " ++ v =
      txt "**" ++ (lbl ++ (txt ":** " ++ v)) := by
    simp [List.append_assoc]
  rw [he]
  simp only [labelAt, isPrefixOf_append_self, if_true]
  have hdrop : (txt "**" ++ (lbl ++ (txt ":** " ++ v))).drop 2 =
      lbl ++ (txt ":** " ++ v) := by
    rw [show (2 : Nat) = (txt "**").length from rfl, List.drop_left]
  rw [hdrop]
  have htw : (lbl ++ (txt ":** " ++ v)).takeWhile (fun c => c != '*') =
      lbl ++ [':'] := by
    rw [takeWhile_all_append _ hstar]
    rw [show txt ":** " ++ v = ':' :: ('*' :: (txt "* " ++ v)) from rfl]
    rw [show (':' :: ('*' :: (txt "* " ++ v))).takeWhile (fun c => c != '*') =
      ':' :: (('*' :: (txt "* " ++ v)).takeWhile (fun c => c != '*')) from by
      simp [List.takeWhile_cons]]
    rw [takeWhile_cons_neg (by decide)]
  rw [htw]
  have hlen : 2 ≤ (lbl ++ [':']).length := by
    rcases lbl with - | ⟨c, t⟩
    · exact absurd rfl hlne
    · simp only [List.length_append, List.length_cons]
      omega
  have hlast : (lbl ++ [':']).getLast? = some ':' := List.getLast?_concat _
  have hdrop2 : (lbl ++ (txt ":** " ++ v)).drop (lbl ++ [':']).length =
      txt "** " ++ v := by
    have hsplit : lbl ++ (txt ":** " ++ v) = (lbl ++ [':']) ++ (txt "** " ++ v) := by
      rw [List.append_assoc]
      rfl
    rw [hsplit, List.drop_left]
  rw [hdrop2]
  have hpre : (txt "**").isPrefixOf (txt "** " ++ v) = true := by
    rw [show txt "** " ++ v = txt "**" ++ (' ' :: v) from rfl]
    exact isPrefixOf_append_self _ _
  rw [if_pos ⟨hlen, hlast, hpre⟩]
  have hdrop3 : (txt "** " ++ v).drop 2 = ' ' :: v := by
    rw [show txt "** " ++ v = txt "**" ++ (' ' :: v) from rfl]
    rw [show (2 : Nat) = (txt "**").length from rfl, List.drop_left]
  rw [hdrop3]
  simp only [wsDotPlus]
  rcases hv : v with - | ⟨c, t⟩
  · exact absurd hv hvne
  · rw [← hv]
    have hws : (' ' :: v).takeWhile pyWS = [' '] := by
      rw [show (' ' :: v).takeWhile pyWS = ' ' :: (v.takeWhile pyWS) from by
        simp [List.takeWhile_cons]
        decide]
      rw [hv, takeWhile_cons_neg (stripped_head_nonws hvs hv)]
    rw [hws]
    simp only [List.length_cons, List.length_nil]
    rw [show (' ' :: v).drop 1 = v from rfl]
    rw [isEmpty_false_of_ne_nil hvne]
    simp only [Bool.false_eq_true, if_false]
    rw [takeWhile_all (by simpa [oneLine] using hv1)]

theorem labelSearch_pos {lbl v : Str} (hstar : lbl.all (fun c => c != '*') = true)
    (hlne : lbl ≠ []) (hvne : v ≠ []) (hv1 : oneLine v = true)
    (hvs : strippedB v = true) :
    labelSearch (txt "**" ++ lbl ++ txt ":** " ++ v) = some v := by
  have he1 : txt "**" ++ lbl ++ txt ":** " ++ v =
      txt "**" ++ (lbl ++ (txt ":** " ++ v)) := by
    simp [List.append_assoc]
  rw [he1]
  rw [show labelSearch (txt "**" ++ (lbl ++ (txt ":** " ++ v))) =
    (match labelAt (txt "**" ++ (lbl ++ (txt ":** " ++ v))) with
     | some g => some g
     | none => labelSearch ('*' :: (lbl ++ (txt ":** " ++ v)))) from rfl]
  rw [← he1, labelAt_pos hstar hlne hvne hv1 hvs]

theorem cleanFieldValue_labeled {nm lbl v : Str}
    (hnm : labeledFields.contains nm = true)
    (hstar : lbl.all (fun c => c != '*') = true) (hlne : lbl ≠ [])
    (hvne : v ≠ []) (hv1 : oneLine v = true) (hvs : strippedB v = true)
    (hns : v ≠ txt "_Not specified_") :
    cleanFieldValue nm ('\n' :: (txt "**" ++ lbl ++ txt ":** " ++ v) ++ ['\n']) = v := by
  simp only [cleanFieldValue, hnm, if_true]
  have ha : txt "**" ++ lbl ++ txt ":** " = '*' :: (('*' :: lbl) ++ txt ":** ") := rfl
  have hline : strippedB (txt "**" ++ lbl ++ txt ":** " ++ v) = true :=
    strippedB_append_right ha (by decide) hvs hvne
  rw [pstrip_wrap hline, labelSearch_pos hstar hlne hvne hv1 hvs]
  simp only []
  rw [pstrip_eq_self hvs]
  rw [if_neg hns]

theorem pfStep_labeled_keep {m : List (Str × Str)} {nm lbl v : Str}
    (hnm : labeledFields.contains nm = true)
    (hstar : lbl.all (fun c => c != '*') = true) (hlne : lbl ≠ [])
    (hvne : v ≠ []) (hv1 : oneLine v = true) (hvs : strippedB v = true)
    (hns : v ≠ txt "_Not specified_")
    (h1 : v ≠ txt "_No short description yet._") (h2 : v ≠ txt "_No description yet._")
    (hk : keyFree nm m = true) :
    pfStep m (nm, '\n' :: (txt "**" ++ lbl ++ txt ":** " ++ v) ++ ['\n']) =
      m ++ [(nm, v)] := by
  simp only [pfStep, cleanFieldValue_labeled hnm hstar hlne hvne hv1 hvs hns]
  rw [if_pos ⟨hvne, h1, h2⟩]
  exact dictInsert_append_of_keyFree hk

theorem cleanFieldValue_labeled_ph {nm lbl : Str}
    (hnm : labeledFields.contains nm = true)
    (hstar : lbl.all (fun c => c != '*') = true) (hlne : lbl ≠ []) :
    cleanFieldValue nm
      ('\n' :: (txt "**" ++ lbl ++ txt ":** " ++ txt "_Not specified_") ++ ['\n']) =
      [] := by
  simp only [cleanFieldValue, hnm, if_true]
  have ha : txt "**" ++ lbl ++ txt ":** " = '*' :: (('*' :: lbl) ++ txt ":** ") := rfl
  have hline : strippedB (txt "**" ++ lbl ++ txt ":** " ++ txt "_Not specified_") =
      true :=
    strippedB_append_right ha (by decide) (by decide) (by decide)
  rw [pstrip_wrap hline,
    labelSearch_pos hstar hlne (by decide) (by decide) (by decide)]
  simp only []
  rw [show pstrip (txt "_Not specified_") = txt "_Not specified_" from rfl]
  rw [if_pos rfl]

theorem pfStep_pyOr_desc {m : List (Str × Str)} {nm : Str} {o : Option Str} {ph : Str}
    (hnm : labeledFields.contains nm = false)
    (hph : ph = txt "_No short description yet._" ∨ ph = txt "_No description yet._")
    (ho : tidyDesc o = true) (hk : keyFree nm m = true) :
    pfStep m (nm, '\n' :: pyOr o ph ++ ['\n']) = m ++ fieldEntry nm o := by
  have hdrop : pfStep m (nm, '\n' :: ph ++ ['\n']) = m := by
    rcases hph with h | h <;> subst h
    · have hcl : cleanFieldValue nm
          ('\n' :: txt "_No short description yet._" ++ ['\n']) =
          txt "_No short description yet._" := cleanFieldValue_plain hnm (by decide)
      simp only [pfStep, hcl]
      rw [if_neg (by
        intro hc
        exact hc.2.1 rfl)]
    · have hcl : cleanFieldValue nm ('\n' :: txt "_No description yet._" ++ ['\n']) =
          txt "_No description yet._" := cleanFieldValue_plain hnm (by decide)
      simp only [pfStep, hcl]
      rw [if_neg (by
        intro hc
        exact hc.2.2 rfl)]
  rcases hoe : o with - | v
  · simp only [pyOr, fieldEntry, List.append_nil]
    exact hdrop
  · simp only [pyOr, fieldEntry]
    split
    · simp only [List.append_nil]
      exact hdrop
    · rename_i hvne
      have hp := tidyDesc_props ho hoe hvne
      exact pfStep_plain_keep hnm hp.1 hvne hp.2.1 hp.2.2 hk

theorem pfStep_pyOr_labeled {m : List (Str × Str)} {nm lbl : Str} {o : Option Str}
    (hnm : labeledFields.contains nm = true)
    (hstar : lbl.all (fun c => c != '*') = true) (hlne : lbl ≠ [])
    (ho : tidyLabeled o = true) (hk : keyFree nm m = true) :
    pfStep m (nm,
      '\n' :: (txt "**" ++ lbl ++ txt ":** " ++ pyOr o (txt "_Not specified_")) ++
        ['\n']) = m ++ fieldEntry nm o := by
  have hdrop : pfStep m (nm,
      '\n' :: (txt "**" ++ lbl ++ txt ":** " ++ txt "_Not specified_") ++ ['\n']) =
      m := by
    simp only [pfStep, cleanFieldValue_labeled_ph hnm hstar hlne]
    rw [if_neg (by
      intro hc
      exact hc.1 rfl)]
  rcases hoe : o with - | v
  · simp only [pyOr, fieldEntry, List.append_nil]
    exact hdrop
  · simp only [pyOr, fieldEntry]
    split
    · simp only [List.append_nil]
      exact hdrop
    · rename_i hvne
      have hp := tidyLabeled_props ho hoe hvne
      exact pfStep_labeled_keep hnm hstar hlne hvne hp.2.1 hp.1 hp.2.2.1 hp.2.2.2.1
        hp.2.2.2.2 hk

theorem foldl_pfStep_sn {o : Option Str} {m : List (Str × Str)}
    (hk : keyFree (txt "special_notes") m = true) :
    tidyDesc o = true →
    List.foldl pfStep m
      ((match o with
        | some v => if v = [] then []
          else [(txt "special_notes", '\n' :: v ++ ['\n'])]
        | none => []) : List (Str × Str)) = m ++ fieldEntry (txt "special_notes") o := by
  rcases o with - | v
  · intro ho
    simp [fieldEntry]
  · intro ho
    by_cases hv : v = []
    · subst hv
      simp [fieldEntry]
    · simp only [if_neg hv, List.foldl_cons, List.foldl_nil]
      have hp := tidyDesc_props ho rfl hv
      rw [pfStep_plain_keep (by decide) hp.1 hv hp.2.1 hp.2.2 hk]
      simp [fieldEntry, if_neg hv]

theorem parseFields_doc {tour : Tour} {days : List ItinDay} {pricing : List PricingEntry}
    {fees : List FeeEntry} {now : Str} (ht : tidyTour tour = true)
    (hd : days.all tidyDay = true) (hp : pricing.all tidyPricing = true)
    (hf : fees.all tidyFee = true) (hn : noLt now = true) :
    parseFields (generate_tour_document tour days pricing fees now) =
      expectedFields tour := by
  rw [parseFields, scanFields_doc ht hd hp hf hn, fieldsOf_doc]
  rw [List.foldl_cons,
    pfStep_pyOr_desc (by decide) (Or.inl rfl) (tidyT_short_description ht) (by rfl)]
  simp only [List.nil_append]
  rw [List.foldl_cons,
    pfStep_pyOr_desc (by decide) (Or.inr rfl) (tidyT_description ht)
      (keyFree_fieldEntry _ (by decide))]
  rw [List.foldl_append]
  rw [foldl_pfStep_sn
    (keyFree_append_true (keyFree_fieldEntry _ (by decide))
      (keyFree_fieldEntry _ (by decide)))
    (tidyT_special_notes ht)]
  have hkm : ∀ nm2 : Str, (txt "short_description" == nm2) = false →
      (txt "description" == nm2) = false → (txt "special_notes" == nm2) = false →
      keyFree nm2 ((fieldEntry (txt "short_description") tour.short_description ++
        fieldEntry (txt "description") tour.description) ++
        fieldEntry (txt "special_notes") tour.special_notes) = true := by
    intro nm2 ha hb hc
    exact keyFree_append_true
      (keyFree_append_true (keyFree_fieldEntry _ ha) (keyFree_fieldEntry _ hb))
      (keyFree_fieldEntry _ hc)
  rw [List.foldl_cons,
    show txt "**Time:** " = txt "**" ++ txt "Time" ++ txt ":** " from rfl,
    pfStep_pyOr_labeled (by decide) (by decide) (by decide) (tidyT_meeting_time ht)
      (hkm _ (by decide) (by decide) (by decide))]
  rw [List.foldl_cons,
    show txt "**Location:** " = txt "**" ++ txt "Location" ++ txt ":** " from rfl,
    pfStep_pyOr_labeled (by decide) (by decide) (by decide) (tidyT_meeting_location ht)
      (keyFree_append_true (hkm _ (by decide) (by decide) (by decide))
        (keyFree_fieldEntry _ (by decide)))]
  rw [List.foldl_cons,
    show txt "**Tour Rating:** " = txt "**" ++ txt "Tour Rating" ++ txt ":** " from rfl,
    pfStep_pyOr_labeled (by decide) (by decide) (by decide) (tidyT_tour_rating ht)
      (keyFree_append_true
        (keyFree_append_true (hkm _ (by decide) (by decide) (by decide))
          (keyFree_fieldEntry _ (by decide)))
        (keyFree_fieldEntry _ (by decide)))]
  rw [List.foldl_cons,
    show txt "**Terrain:** " = txt "**" ++ txt "Terrain" ++ txt ":** " from rfl,
    pfStep_pyOr_labeled (by decide) (by decide) (by decide) (tidyT_terrain ht)
      (keyFree_append_true
        (keyFree_append_true
          (keyFree_append_true (hkm _ (by decide) (by decide) (by decide))
            (keyFree_fieldEntry _ (by decide)))
          (keyFree_fieldEntry _ (by decide)))
        (keyFree_fieldEntry _ (by decide)))]
  rw [List.foldl_cons,
    show txt "**Technical Difficulty:** " =
      txt "**" ++ txt "Technical Difficulty" ++ txt ":** " from rfl,
    pfStep_pyOr_labeled (by decide) (by decide) (by decide)
      (tidyT_technical_difficulty ht)
      (keyFree_append_true
        (keyFree_append_true
          (keyFree_append_true
            (keyFree_append_true (hkm _ (by decide) (by decide) (by decide))
              (keyFree_fieldEntry _ (by decide)))
            (keyFree_fieldEntry _ (by decide)))
          (keyFree_fieldEntry _ (by decide)))
        (keyFree_fieldEntry _ (by decide)))]
  rw [List.foldl_cons,
    show txt "**Altitude:** " = txt "**" ++ txt "Altitude" ++ txt ":** " from rfl,
    pfStep_pyOr_labeled (by decide) (by decide) (by decide) (tidyT_altitude ht)
      (keyFree_append_true
        (keyFree_append_true
          (keyFree_append_true
            (keyFree_append_true
              (keyFree_append_true (hkm _ (by decide) (by decide) (by decide))
                (keyFree_fieldEntry _ (by decide)))
              (keyFree_fieldEntry _ (by decide)))
            (keyFree_fieldEntry _ (by decide)))
          (keyFree_fieldEntry _ (by decide)))
        (keyFree_fieldEntry _ (by decide)))]
  rw [List.foldl_nil]
  simp [expectedFields, List.append_assoc]

/-! ## C1 — label-search and label-deletion traversal lemmas -/

theorem mismatchIn_append {lit : Str} : ∀ {u : Str} (x : Str),
    mismatchIn lit u = true → mismatchIn lit (u ++ x) = true := by
  induction lit with
  | nil =>
    intro u x h
    rcases u with - | ⟨u0, ur⟩
    · simp [mismatchIn] at h
    · simp [mismatchIn] at h
  | cons l0 lr ih =>
    intro u x h
    rcases u with - | ⟨u0, ur⟩
    · simp [mismatchIn] at h
    · simp only [mismatchIn, Bool.or_eq_true] at h ⊢
      rcases h with h | h
      · exact Or.inl h
      · exact Or.inr (ih x h)

theorem isPrefixOf_false_of_mismatchIn {lit : Str} : ∀ {u : Str} (x : Str),
    mismatchIn lit u = true → lit.isPrefixOf (u ++ x) = false := by
  induction lit with
  | nil =>
    intro u x h
    rcases u with - | ⟨u0, ur⟩
    · simp [mismatchIn] at h
    · simp [mismatchIn] at h
  | cons l0 lr ih =>
    intro u x h
    rcases u with - | ⟨u0, ur⟩
    · simp [mismatchIn] at h
    · simp only [mismatchIn, Bool.or_eq_true] at h
      rw [List.cons_append]
      rcases h with h | h
      · exact isPrefixOf_cons_head_false (by
          simp only [bne] at h
          simpa using h)
      · rw [show (l0 :: lr).isPrefixOf (u0 :: (ur ++ x)) =
          ((l0 == u0) && lr.isPrefixOf (ur ++ x)) from rfl]
        rw [ih x h]
        simp

theorem segBlocksStrict_starFree {lit : Str} {l0r : Str} (he : lit = '*' :: l0r) :
    ∀ {u : Str}, starFree u = true → segBlocksStrict lit u = true := by
  intro u
  induction u with
  | nil => intro _; rfl
  | cons c t ih =>
    intro h
    simp only [starFree, List.all_cons, Bool.and_eq_true] at h
    subst he
    simp only [segBlocksStrict, Bool.and_eq_true]
    constructor
    · simp only [mismatchIn, Bool.or_eq_true]
      left
      have hne : c ≠ '*' := by
        intro hc
        rw [hc] at h
        simp at h
      exact bne_iff_ne.mpr (Ne.symm hne)
    · exact ih (by simpa [starFree] using h.2)

theorem segBlocksStrict_append {lit : Str} : ∀ {a : Str} (b : Str),
    segBlocksStrict lit a = true → segBlocksStrict lit b = true →
    segBlocksStrict lit (a ++ b) = true := by
  intro a
  induction a with
  | nil => intro b _ hb; exact hb
  | cons c t ih =>
    intro b ha hb
    simp only [segBlocksStrict, Bool.and_eq_true] at ha
    rw [List.cons_append]
    simp only [segBlocksStrict, Bool.and_eq_true]
    constructor
    · rw [← List.cons_append]
      exact mismatchIn_append b ha.1
    · exact ih b ha.2 hb

theorem searchLabeled_skip {lit : Str} (P : Char → Bool) : ∀ {a : Str} (b : Str),
    segBlocksStrict lit a = true →
    searchLabeled lit P (a ++ b) = searchLabeled lit P b := by
  intro a
  induction a with
  | nil => intro b _; rfl
  | cons c t ih =>
    intro b h
    simp only [segBlocksStrict, Bool.and_eq_true] at h
    rw [List.cons_append]
    rw [show searchLabeled lit P (c :: (t ++ b)) =
      (if lit.isPrefixOf (c :: (t ++ b)) = true then
        (match classAfterWS P ((c :: (t ++ b)).drop lit.length) with
         | some g => some g
         | none => searchLabeled lit P (t ++ b))
       else searchLabeled lit P (t ++ b)) from by
      rw [searchLabeled]]
    rw [show lit.isPrefixOf (c :: (t ++ b)) = false from by
      rw [← List.cons_append]
      exact isPrefixOf_false_of_mismatchIn b h.1]
    simp only [Bool.false_eq_true, if_false]
    exact ih b h.2

theorem searchLabeled_none {lit : Str} (P : Char → Bool) {t : Str}
    (h : segBlocksStrict lit t = true) : searchLabeled lit P t = none := by
  have h2 := searchLabeled_skip P ([] : Str) h
  simpa using h2

theorem classAfterWS_pos {P : Char → Bool} {v tail : Str} (hva : v.all P = true)
    (hvne : v ≠ []) (hvs : strippedB v = true) :
    classAfterWS P (' ' :: (v ++ tail)) = some (v ++ tail.takeWhile P) := by
  rcases hv : v with - | ⟨c, t⟩
  · exact absurd hv hvne
  · rw [← hv]
    have hws : (' ' :: (v ++ tail)).takeWhile pyWS = [' '] := by
      rw [show (' ' :: (v ++ tail)).takeWhile pyWS =
        ' ' :: ((v ++ tail).takeWhile pyWS) from by
        rw [List.takeWhile_cons, if_pos (show pyWS ' ' = true by decide)]]
      rw [hv, List.cons_append, takeWhile_cons_neg (stripped_head_nonws hvs hv)]
    have hhead : (v ++ tail).head? = some c := by
      rw [hv]
      rfl
    have hc2 : P c = true := by
      rw [hv] at hva
      simp only [List.all_cons, Bool.and_eq_true] at hva
      exact hva.1
    have ht : tryClassAt P (' ' :: (v ++ tail)) 1 = some ((v ++ tail).takeWhile P) := by
      rw [show (1 : Nat) = 0 + 1 from rfl]
      simp only [tryClassAt]
      rw [show (' ' :: (v ++ tail)).drop (0 + 1) = v ++ tail from rfl]
      rw [hhead]
      simp only [hc2, if_true]
    simp only [classAfterWS, hws]
    rw [show ([' '] : Str).length = 1 from rfl]
    rw [ht]
    rw [takeWhile_all_append _ hva]

theorem searchLabeled_at {lit : Str} {l0 : Char} {lr : Str} (he : lit = l0 :: lr)
    (P : Char → Bool) {rest : Str} {g : Str} (hcl : classAfterWS P rest = some g) :
    searchLabeled lit P (lit ++ rest) = some g := by
  subst he
  rw [List.cons_append]
  rw [show searchLabeled (l0 :: lr) P (l0 :: (lr ++ rest)) =
    (if (l0 :: lr).isPrefixOf (l0 :: (lr ++ rest)) = true then
      (match classAfterWS P ((l0 :: (lr ++ rest)).drop (l0 :: lr).length) with
       | some g => some g
       | none => searchLabeled (l0 :: lr) P (lr ++ rest))
     else searchLabeled (l0 :: lr) P (lr ++ rest)) from by
    rw [searchLabeled]]
  rw [show (l0 :: lr).isPrefixOf (l0 :: (lr ++ rest)) = true from by
    rw [← List.cons_append]
    exact isPrefixOf_append_self _ _]
  simp only [if_true]
  rw [show (l0 :: (lr ++ rest)).drop (l0 :: lr).length = rest from by
    rw [← List.cons_append]
    exact List.drop_left _ _]
  rw [hcl]

theorem searchLabeled_pos_dc {lit : Str} {l0 : Char} {lr : Str} (he : lit = l0 :: lr)
    {P : Char → Bool} {A v tail : Str} (hA : segBlocksStrict lit A = true)
    (hva : v.all P = true) (hvne : v ≠ []) (hvs : strippedB v = true)
    (hwt : (tail.takeWhile P).all pyWS = true) :
    (searchLabeled lit P (A ++ (lit ++ (' ' :: (v ++ tail))))).map pstrip = some v := by
  rw [searchLabeled_skip P _ hA]
  rw [searchLabeled_at he P (classAfterWS_pos hva hvne hvs)]
  simp only [Option.map_some']
  have h2 := @pstrip_pad [] v (tail.takeWhile P) (by decide) hwt hvs
  simpa using h2

theorem subLabeled_skip {lit : Str} {P : Char → Bool} : ∀ {a : Str} (b : Str),
    segBlocksStrict lit a = true →
    subLabeled lit P (a ++ b) = a ++ subLabeled lit P b := by
  intro a
  induction a with
  | nil => intro b _; rfl
  | cons c t ih =>
    intro b h
    simp only [segBlocksStrict, Bool.and_eq_true] at h
    rw [List.cons_append]
    rw [subLabeled_cons_noPre (by
      rw [← List.cons_append]
      exact isPrefixOf_false_of_mismatchIn b h.1)]
    rw [ih b h.2]
    rfl

theorem subLabeled_unchanged {lit : Str} {P : Char → Bool} {t : Str}
    (h : segBlocksStrict lit t = true) : subLabeled lit P t = t := by
  have h2 := subLabeled_skip (P := P) ([] : Str) h
  simpa [subLabeled_nil] using h2

theorem drop_takeWhile_length {P : Char → Bool} : ∀ (l : Str),
    l.drop (l.takeWhile P).length = l.dropWhile P := by
  intro l
  induction l with
  | nil => rfl
  | cons c t ih =>
    by_cases hc : P c = true
    · rw [show (c :: t).takeWhile P = c :: t.takeWhile P from by
        simp [List.takeWhile_cons, hc]]
      rw [show (c :: t).dropWhile P = t.dropWhile P from by
        simp [List.dropWhile_cons, hc]]
      simp only [List.length_cons]
      rw [show (c :: t).drop ((t.takeWhile P).length + 1) =
        t.drop (t.takeWhile P).length from rfl]
      exact ih
    · rw [takeWhile_cons_neg (by simpa using hc)]
      rw [dropWhile_cons_neg (by simpa using hc)]
      rfl

theorem subLabeled_del {lit : Str} {l0 : Char} {lr : Str} (he : lit = l0 :: lr)
    {P : Char → Bool} (hsp : P ' ' = true) {v tail : Str} (hva : v.all P = true) :
    subLabeled lit P (lit ++ (' ' :: (v ++ tail))) =
      subLabeled lit P (tail.dropWhile P) := by
  subst he
  rw [List.cons_append]
  have hpre : (l0 :: lr).isPrefixOf (l0 :: (lr ++ (' ' :: (v ++ tail)))) = true := by
    rw [← List.cons_append]
    exact isPrefixOf_append_self _ _
  have hdrop : (l0 :: (lr ++ (' ' :: (v ++ tail)))).drop (l0 :: lr).length =
      ' ' :: (v ++ tail) := by
    rw [← List.cons_append]
    exact List.drop_left _ _
  have hrun : ((l0 :: (lr ++ (' ' :: (v ++ tail)))).drop (l0 :: lr).length).takeWhile P =
      ' ' :: (v ++ tail.takeWhile P) := by
    rw [hdrop]
    rw [show (' ' :: (v ++ tail)).takeWhile P =
      ' ' :: ((v ++ tail).takeWhile P) from by
      simp [List.takeWhile_cons, hsp]]
    rw [takeWhile_all_append _ hva]
  rw [subLabeled_cons_run hpre hrun]
  rw [hdrop]
  rw [show (' ' :: (v ++ tail)).drop ((v ++ tail.takeWhile P).length + 1) =
    (v ++ tail).drop (v ++ tail.takeWhile P).length from rfl]
  rw [List.length_append]
  rw [← List.drop_drop]
  rw [List.drop_left]
  rw [drop_takeWhile_length]

/-! ## C1 — the day body in double-newline-joined item form -/

theorem joinNL_pairs : ∀ {items : List Str}, items ≠ [] →
    joinNL (items.flatMap (fun it => [it, txt ""])) =
      joinSep (txt "\n\n") items ++ ['\n'] := by
  intro items
  induction items with
  | nil => intro h; exact absurd rfl h
  | cons i rest ih =>
    intro _
    cases rest with
    | nil =>
      simp [joinNL, joinSep]
      rfl
    | cons i2 r2 =>
      rw [show (i :: i2 :: r2).flatMap (fun it => [it, txt ""]) =
        [i, txt ""] ++ (i2 :: r2).flatMap (fun it => [it, txt ""]) from by
        simp [List.flatMap_cons]]
      have hne : (i2 :: r2).flatMap (fun it => [it, txt ""]) ≠ [] := by
        simp [List.flatMap_cons]
      rw [show ([i, txt ""] : List Str) ++ (i2 :: r2).flatMap (fun it => [it, txt ""]) =
        [i] ++ ((txt "" :: []) ++ (i2 :: r2).flatMap (fun it => [it, txt ""])) from by
        simp]
      rw [joinNL_append (by simp) (by simp)]
      rw [show (txt "" :: []) ++ (i2 :: r2).flatMap (fun it => [it, txt ""]) =
        (txt "" :: (i2 :: r2).flatMap (fun it => [it, txt ""])) from rfl]
      rw [show (txt "" :: (i2 :: r2).flatMap (fun it => [it, txt ""])) =
        [txt ""] ++ (i2 :: r2).flatMap (fun it => [it, txt ""]) from rfl]
      rw [joinNL_append (by simp) hne]
      rw [ih (by simp)]
      rw [show joinSep (txt "\n\n") (i :: i2 :: r2) =
        i ++ txt "\n\n" ++ joinSep (txt "\n\n") (i2 :: r2) from rfl]
      simp only [joinNL, joinSep]
      simp [List.append_assoc]
      rfl

theorem strippedB_glue {a m b : Str} (ha : strippedB a = true) (hane : a ≠ [])
    (hb : strippedB b = true) (hbne : b ≠ []) : strippedB (a ++ m ++ b) = true := by
  rcases haa : a with - | ⟨c, t⟩
  · exact absurd haa hane
  · simp only [strippedB, beq_iff_eq, pstrip]
    rw [List.append_assoc, List.cons_append,
      lstrip_cons_nonws (stripped_head_nonws ha haa), ← List.cons_append,
      ← List.append_assoc]
    rw [rstrip_append_keep (stripped_parts hb).2 hbne]

theorem joinSep_ne_nil {sep : Str} {i : Str} {rest : List Str} (hne : i ≠ []) :
    joinSep sep (i :: rest) ≠ [] := by
  cases rest with
  | nil => exact hne
  | cons i2 r2 =>
    rw [show joinSep sep (i :: i2 :: r2) = i ++ sep ++ joinSep sep (i2 :: r2) from rfl]
    intro hc
    rcases List.append_eq_nil.mp hc with ⟨h1, -⟩
    rcases List.append_eq_nil.mp h1 with ⟨h2, -⟩
    exact hne h2

theorem strippedB_joinDD : ∀ {items : List Str},
    items.all (fun it => !it.isEmpty && strippedB it) = true →
    strippedB (joinSep (txt "\n\n") items) = true := by
  intro items
  induction items with
  | nil => intro _; rfl
  | cons i rest ih =>
    intro h
    simp only [List.all_cons, Bool.and_eq_true] at h
    have hine : i ≠ [] := by
      intro hc
      rw [hc] at h
      simp at h
    cases rest with
    | nil => exact h.1.2
    | cons i2 r2 =>
      rw [show joinSep (txt "\n\n") (i :: i2 :: r2) =
        i ++ txt "\n\n" ++ joinSep (txt "\n\n") (i2 :: r2) from rfl]
      have hrest := ih h.2
      have hrne : joinSep (txt "\n\n") (i2 :: r2) ≠ [] := by
        have h2 : i2 ≠ [] := by
          have hr := h.2
          simp only [List.all_cons, Bool.and_eq_true] at hr
          intro hc
          rw [hc] at hr
          simp at hr
        exact joinSep_ne_nil h2
      exact strippedB_glue h.1.2 hine hrest hrne

/-! ## C1 — `re.sub` acts item-by-item on the newline-joined day body -/

theorem isPrefixOf_append_nl_eq {lit : Str}
    (hlit : lit.all (fun c => c != '\n') = true) :
    ∀ (a b : Str), lit.isPrefixOf (a ++ '\n' :: b) = lit.isPrefixOf a := by
  induction lit with
  | nil => intro a b; simp [List.isPrefixOf]
  | cons l0 lr ih =>
    intro a b
    simp only [List.all_cons, Bool.and_eq_true] at hlit
    rcases a with - | ⟨c, t⟩
    · rw [List.nil_append]
      rw [show (l0 :: lr).isPrefixOf ('\n' :: b) = ((l0 == '\n') && lr.isPrefixOf b)
        from rfl]
      rw [show (l0 :: lr).isPrefixOf ([] : Str) = false from rfl]
      have hne : (l0 == '\n') = false := by
        have h2 := hlit.1
        simp only [bne] at h2
        simpa using h2
      rw [hne]
      simp
    · rw [List.cons_append]
      rw [show (l0 :: lr).isPrefixOf (c :: (t ++ '\n' :: b)) =
        ((l0 == c) && lr.isPrefixOf (t ++ '\n' :: b)) from rfl]
      rw [show (l0 :: lr).isPrefixOf (c :: t) = ((l0 == c) && lr.isPrefixOf t) from rfl]
      rw [ih (by simpa using hlit.2) t b]

theorem takeWhile_append_nl {P : Char → Bool} (hnl : P '\n' = false) :
    ∀ (x y : Str), (x ++ '\n' :: y).takeWhile P = x.takeWhile P := by
  intro x y
  induction x with
  | nil =>
    rw [List.nil_append]
    exact takeWhile_cons_neg hnl
  | cons c t ih =>
    rw [List.cons_append]
    by_cases hc : P c = true
    · rw [show (c :: (t ++ '\n' :: y)).takeWhile P = c :: ((t ++ '\n' :: y).takeWhile P)
        from by simp [List.takeWhile_cons, hc]]
      rw [show (c :: t).takeWhile P = c :: (t.takeWhile P) from by
        simp [List.takeWhile_cons, hc]]
      rw [ih]
    · rw [takeWhile_cons_neg (by simpa using hc)]
      rw [takeWhile_cons_neg (by simpa using hc)]

theorem subLabeled_append_nl {lit : Str} {l0r : Str} (he : lit = '*' :: l0r)
    (hlit : lit.all (fun c => c != '\n') = true) {P : Char → Bool}
    (hnl : P '\n' = false) :
    ∀ (n : Nat) (a b : Str), a.length ≤ n →
    subLabeled lit P (a ++ '\n' :: b) =
      subLabeled lit P a ++ '\n' :: subLabeled lit P b := by
  intro n
  induction n with
  | zero =>
    intro a b hlen
    rcases a with - | ⟨c, t⟩
    · rw [List.nil_append, subLabeled_nil, List.nil_append]
      rw [subLabeled_cons_noPre (by
        rw [he]
        exact isPrefixOf_cons_head_false (by decide))]
    · simp at hlen
  | succ n ih =>
    intro a b hlen
    rcases a with - | ⟨c, t⟩
    · rw [List.nil_append, subLabeled_nil, List.nil_append]
      rw [subLabeled_cons_noPre (by
        rw [he]
        exact isPrefixOf_cons_head_false (by decide))]
    · rw [List.cons_append]
      have hlitlen : lit ≠ [] := by
        rw [he]
        simp
      by_cases hpre : lit.isPrefixOf (c :: t) = true
      · have hpre2 : lit.isPrefixOf (c :: (t ++ '\n' :: b)) = true := by
          rw [← List.cons_append, isPrefixOf_append_nl_eq hlit]
          exact hpre
        have hlitle : lit.length ≤ (c :: t).length :=
          (List.isPrefixOf_iff_prefix.mp hpre).length_le
        have hdropeq : (c :: (t ++ '\n' :: b)).drop lit.length =
            (c :: t).drop lit.length ++ '\n' :: b := by
          rw [← List.cons_append]
          exact List.drop_append_of_le_length hlitle
        have hruneq : ((c :: (t ++ '\n' :: b)).drop lit.length).takeWhile P =
            ((c :: t).drop lit.length).takeWhile P := by
          rw [hdropeq, takeWhile_append_nl hnl]
        rcases hr : ((c :: t).drop lit.length).takeWhile P with - | ⟨r0, rs⟩
        · rw [subLabeled_cons_emptyRun hpre2 (by rw [hruneq, hr])]
          rw [subLabeled_cons_emptyRun hpre hr]
          rw [ih t b (by simpa using Nat.le_of_succ_le_succ (by simpa using hlen))]
          rfl
        · rw [subLabeled_cons_run hpre2 (by rw [hruneq, hr])]
          rw [subLabeled_cons_run hpre hr]
          have hrle : rs.length + 1 ≤ ((c :: t).drop lit.length).length := by
            have h2 : (r0 :: rs).length ≤ ((c :: t).drop lit.length).length := by
              rw [← hr]
              exact (List.takeWhile_sublist _).length_le
            simpa using h2
          rw [hdropeq, List.drop_append_of_le_length hrle]
          refine ih _ b ?_
          have h3 : ((c :: t).drop lit.length).length ≤ t.length := by
            simp only [List.length_drop, List.length_cons]
            rcases hl : lit with - | ⟨x, xs⟩
            · exact absurd hl hlitlen
            · simp only [List.length_cons]
              omega
          have h4 : (((c :: t).drop lit.length).drop (rs.length + 1)).length ≤
              ((c :: t).drop lit.length).length := by
            rw [List.length_drop]
            omega
          simp only [List.length_cons] at hlen
          omega
      · have hpre2 : lit.isPrefixOf (c :: (t ++ '\n' :: b)) = false := by
          rw [← List.cons_append, isPrefixOf_append_nl_eq hlit]
          exact Bool.eq_false_iff.mpr hpre
        rw [subLabeled_cons_noPre hpre2]
        rw [subLabeled_cons_noPre (Bool.eq_false_iff.mpr hpre)]
        rw [ih t b (by simp only [List.length_cons] at hlen; omega)]
        rfl

theorem subLabeled_joinDD {lit : Str} {l0r : Str} (he : lit = '*' :: l0r)
    (hlit : lit.all (fun c => c != '\n') = true) {P : Char → Bool}
    (hnl : P '\n' = false) :
    ∀ (items : List Str),
    subLabeled lit P (joinSep (txt "\n\n") items) =
      joinSep (txt "\n\n") (items.map (subLabeled lit P)) := by
  intro items
  induction items with
  | nil => rfl
  | cons i rest ih =>
    cases rest with
    | nil => rfl
    | cons i2 r2 =>
      rw [show joinSep (txt "\n\n") (i :: i2 :: r2) =
        i ++ txt "\n\n" ++ joinSep (txt "\n\n") (i2 :: r2) from rfl]
      rw [show i ++ txt "\n\n" ++ joinSep (txt "\n\n") (i2 :: r2) =
        i ++ '\n' :: ('\n' :: joinSep (txt "\n\n") (i2 :: r2)) from by
        simp [List.append_assoc]
        rfl]
      rw [subLabeled_append_nl he hlit hnl i.length i _ (le_refl _)]
      rw [subLabeled_cons_noPre (by
        rw [he]
        exact isPrefixOf_cons_head_false (by decide))]
      rw [ih]
      rw [show (i :: i2 :: r2).map (subLabeled lit P) =
        subLabeled lit P i :: (i2 :: r2).map (subLabeled lit P) from rfl]
      rw [show joinSep (txt "\n\n") (subLabeled lit P i :: (i2 :: r2).map (subLabeled lit P)) =
        subLabeled lit P i ++ txt "\n\n" ++
          joinSep (txt "\n\n") ((i2 :: r2).map (subLabeled lit P)) from by
        rcases hm : (i2 :: r2).map (subLabeled lit P) with - | ⟨j, js⟩
        · simp at hm
        · rfl]
      simp [List.append_assoc]
      rfl

theorem filter_joinDD {q : Char → Bool} (hq : q '\n' = true) :
    ∀ (items : List Str),
    (joinSep (txt "\n\n") items).filter q =
      joinSep (txt "\n\n") (items.map (List.filter q)) := by
  intro items
  induction items with
  | nil => rfl
  | cons i rest ih =>
    cases rest with
    | nil => rfl
    | cons i2 r2 =>
      rw [show joinSep (txt "\n\n") (i :: i2 :: r2) =
        i ++ txt "\n\n" ++ joinSep (txt "\n\n") (i2 :: r2) from rfl]
      rw [List.filter_append, List.filter_append, ih]
      rw [show (txt "\n\n").filter q = txt "\n\n" from by
        rw [show txt "\n\n" = ['\n', '\n'] from rfl]
        simp [List.filter, hq]]
      rcases hm : (i2 :: r2).map (List.filter q) with - | ⟨j, js⟩
      · simp at hm
      · rw [show (i :: i2 :: r2).map (List.filter q) =
          i.filter q :: (i2 :: r2).map (List.filter q) from rfl]
        rw [hm]
        rfl

theorem pstrip_allws {u : Str} (h : u.all pyWS = true) : pstrip u = [] := by
  have h2 : lstrip u = [] := by
    have h3 := @dropWhile_all_append pyWS u [] h
    rw [List.append_nil] at h3
    exact h3
  rw [pstrip, h2]
  rfl

theorem allws_joinDD : ∀ {W : List Str}, W.all (fun w => w.all pyWS) = true →
    (joinSep (txt "\n\n") W).all pyWS = true := by
  intro W
  induction W with
  | nil => intro _; rfl
  | cons w rest ih =>
    intro h
    simp only [List.all_cons, Bool.and_eq_true] at h
    cases rest with
    | nil => exact h.1
    | cons w2 r2 =>
      rw [show joinSep (txt "\n\n") (w :: w2 :: r2) =
        w ++ txt "\n\n" ++ joinSep (txt "\n\n") (w2 :: r2) from rfl]
      rw [List.all_append, List.all_append]
      simp only [Bool.and_eq_true]
      exact ⟨⟨h.1, by decide⟩, ih h.2⟩

theorem pstrip_joinDD_content {W : List Str} {c : Str}
    (hW : W.all (fun w => w.all pyWS) = true) (hc : strippedB c = true)
    (hcne : c ≠ []) :
    pstrip (joinSep (txt "\n\n") (W ++ [c])) = c := by
  cases W with
  | nil =>
    rw [List.nil_append]
    exact pstrip_eq_self hc
  | cons w rest =>
    rw [joinSep_append _ [c] (by simp) (by simp)]
    rw [show joinSep (txt "\n\n") [c] = c from rfl]
    have hws : ((joinSep (txt "\n\n") (w :: rest)) ++ txt "\n\n").all pyWS = true := by
      rw [List.all_append]
      simp only [Bool.and_eq_true]
      exact ⟨allws_joinDD hW, by decide⟩
    have h2 := @pstrip_pad (joinSep (txt "\n\n") (w :: rest) ++ txt "\n\n") c [] hws
      (by decide) hc
    simpa [List.append_assoc] using h2

/-! ## C1 — day sub-field value properties -/

theorem tidyDayVal_props {o : Option Str} {v : Str} (h : tidyDayVal o = true)
    (he : o = some v) (hne : v ≠ []) :
    starFree v = true ∧ pipeFree v = true ∧ oneLine v = true ∧ strippedB v = true := by
  subst he
  simp only [tidyDayVal, Bool.or_eq_true, Bool.and_eq_true] at h
  rcases h with h | h
  · exact absurd (List.isEmpty_iff.mp h) hne
  · obtain ⟨⟨⟨⟨-, hst⟩, hpp⟩, ho⟩, hs⟩ := h
    exact ⟨hst, hpp, ho, hs⟩

theorem tidyContent_props {o : Option Str} {v : Str} (h : tidyContent o = true)
    (he : o = some v) (hne : v ≠ []) :
    starFree v = true ∧ pipeFree v = true ∧ strippedB v = true := by
  subst he
  simp only [tidyContent, Bool.or_eq_true, Bool.and_eq_true] at h
  rcases h with h | h
  · exact absurd (List.isEmpty_iff.mp h) hne
  · obtain ⟨⟨⟨-, hst⟩, hpp⟩, hs⟩ := h
    exact ⟨hst, hpp, hs⟩

theorem milesClass_of {v : Str} (hpp : pipeFree v = true) (ho : oneLine v = true) :
    v.all isMilesChar = true := by
  simp only [pipeFree, oneLine, List.all_eq_true] at *
  intro c hc
  simp only [isMilesChar, Bool.and_eq_true]
  exact ⟨ho c hc, hpp c hc⟩

theorem lineClass_of {v : Str} (ho : oneLine v = true) : v.all isLineChar = true := by
  simp only [oneLine, List.all_eq_true] at *
  intro c hc
  exact ho c hc

theorem labItem_stripped {pre v : Str} {c0 : Char} {t0 : Str} (hpre : pre = c0 :: t0)
    (hc : pyWS c0 = false) (hvs : strippedB v = true) (hvne : v ≠ []) :
    (!(pre ++ v).isEmpty && strippedB (pre ++ v)) = true := by
  simp only [Bool.and_eq_true]
  constructor
  · rw [hpre, List.cons_append]
    rfl
  · exact strippedB_append_right hpre hc hvs hvne

theorem optStat_cases (pre : Str) (o : Option Str) :
    optStat pre o = [] ∨ ∃ v, o = some v ∧ v ≠ [] ∧ optStat pre o = [pre ++ v] := by
  rcases o with - | v
  · exact Or.inl rfl
  · by_cases hv : v = []
    · exact Or.inl (by simp [optStat, hv])
    · exact Or.inr ⟨v, rfl, hv, by simp [optStat, hv]⟩

theorem labItem_ne_nil {pre v : Str} {c0 : Char} {t0 : Str} (hpre : pre = c0 :: t0) :
    pre ++ v ≠ [] := by
  subst hpre
  simp

theorem statsItems_stripped {mo eo : Option Str} (hm : tidyDayVal mo = true)
    (he : tidyDayVal eo = true) :
    (statsItems mo eo).all (fun it => !it.isEmpty && strippedB it) = true := by
  simp only [statsItems]
  rcases optStat_cases (txt "**Miles:** ") mo with hA | ⟨m, hmo, hmne, hA⟩ <;>
    rcases optStat_cases (txt "**Elevation:** ") eo with hB | ⟨e, heo, hene, hB⟩
  · rw [hA, hB]
    rfl
  · rw [hA, hB, List.nil_append]
    have hprops := tidyDayVal_props he heo hene
    rw [show (([txt "**Elevation:** " ++ e] : List Str)).isEmpty = false from rfl]
    simp only [Bool.false_eq_true, if_false, List.all_cons, List.all_nil, Bool.and_true]
    rw [show joinSep (txt " | ") [txt "**Elevation:** " ++ e] =
      txt "**Elevation:** " ++ e from rfl]
    exact labItem_stripped rfl (by decide) hprops.2.2.2 hene
  · rw [hA, hB, List.append_nil]
    have hprops := tidyDayVal_props hm hmo hmne
    rw [show (([txt "**Miles:** " ++ m] : List Str)).isEmpty = false from rfl]
    simp only [Bool.false_eq_true, if_false, List.all_cons, List.all_nil, Bool.and_true]
    rw [show joinSep (txt " | ") [txt "**Miles:** " ++ m] =
      txt "**Miles:** " ++ m from rfl]
    exact labItem_stripped rfl (by decide) hprops.2.2.2 hmne
  · rw [hA, hB]
    have hmprops := tidyDayVal_props hm hmo hmne
    have heprops := tidyDayVal_props he heo hene
    rw [show (([txt "**Miles:** " ++ m] : List Str) ++
      [txt "**Elevation:** " ++ e]).isEmpty = false from rfl]
    simp only [Bool.false_eq_true, if_false, List.all_cons, List.all_nil, Bool.and_true]
    rw [show ([txt "**Miles:** " ++ m] : List Str) ++ [txt "**Elevation:** " ++ e] =
      [txt "**Miles:** " ++ m, txt "**Elevation:** " ++ e] from rfl]
    rw [show joinSep (txt " | ") [txt "**Miles:** " ++ m, txt "**Elevation:** " ++ e] =
      (txt "**Miles:** " ++ m) ++ txt " | " ++ (txt "**Elevation:** " ++ e) from rfl]
    simp only [Bool.and_eq_true]
    constructor
    · have hne2 : (txt "**Miles:** " ++ m) ++ txt " | " ++
          (txt "**Elevation:** " ++ e) ≠ [] := by
        intro hc
        have hlen := congrArg List.length hc
        simp [List.length_append] at hlen
        exact absurd hlen.1 (by decide)
      rw [isEmpty_false_of_ne_nil hne2]
      rfl
    · exact strippedB_glue
        (strippedB_append_right rfl (by decide) hmprops.2.2.2 hmne)
        (labItem_ne_nil rfl)
        (strippedB_append_right rfl (by decide) heprops.2.2.2 hene)
        (labItem_ne_nil rfl)

theorem optItem1_stripped {pre : Str} {c0 : Char} {t0 : Str} {o : Option Str}
    (hpre : pre = c0 :: t0) (hc : pyWS c0 = false) (ho : tidyDayVal o = true) :
    (optItem1 pre o).all (fun it => !it.isEmpty && strippedB it) = true := by
  rcases o with - | v
  · rfl
  · simp only [optItem1]
    split
    · rfl
    · rename_i hvne
      simp only [List.all_cons, List.all_nil, Bool.and_true]
      exact labItem_stripped hpre hc (tidyDayVal_props ho rfl hvne).2.2.2 hvne

theorem optItem0_stripped {o : Option Str} (ho : tidyContent o = true) :
    (optItem0 o).all (fun it => !it.isEmpty && strippedB it) = true := by
  rcases o with - | v
  · rfl
  · simp only [optItem0]
    split
    · rfl
    · rename_i hvne
      simp only [List.all_cons, List.all_nil, Bool.and_true, Bool.and_eq_true]
      constructor
      · rw [isEmpty_false_of_ne_nil hvne]
        rfl
      · exact (tidyContent_props ho rfl hvne).2.2

theorem dayItems_stripped {d : ItinDay} (h : tidyDay d = true) :
    (dayItems d).all (fun it => !it.isEmpty && strippedB it) = true := by
  rw [dayItems_parts]
  simp only [List.all_append, Bool.and_eq_true]
  exact ⟨⟨⟨⟨statsItems_stripped (tidyD_miles h) (tidyD_elevation h),
    optItem1_stripped rfl (by decide) (tidyD_trails h)⟩,
    optItem1_stripped rfl (by decide) (tidyD_lodging h)⟩,
    optItem1_stripped rfl (by decide) (tidyD_meals h)⟩,
    optItem0_stripped (tidyD_content h)⟩

/-! ## C1 — the stripped day body -/

theorem dayBody_dc_nil {d : ItinDay} (he : dayItems d = []) :
    pstrip ('\n' :: joinNL (dayInnerLines d) ++ ['\n']) = [] := by
  rw [dayInnerLines_items, he]
  decide

theorem dayBody_dc_cons {d : ItinDay} (h : tidyDay d = true) (hne : dayItems d ≠ []) :
    pstrip ('\n' :: joinNL (dayInnerLines d) ++ ['\n']) =
      joinSep (txt "\n\n") (dayItems d) := by
  rw [dayInnerLines_items]
  have hLne : (dayItems d).flatMap (fun it => [it, txt ""]) ≠ [] := by
    rcases hi : dayItems d with - | ⟨i, r⟩
    · exact absurd hi hne
    · simp [List.flatMap_cons]
  rw [show (txt "" :: (dayItems d).flatMap (fun it => [it, txt ""])) =
    [txt ""] ++ (dayItems d).flatMap (fun it => [it, txt ""]) from rfl]
  rw [joinNL_append (by simp) hLne]
  rw [joinNL_pairs hne]
  have heq : '\n' :: (joinNL [txt ""] ++
      '\n' :: (joinSep (txt "\n\n") (dayItems d) ++ ['\n'])) ++ ['\n'] =
      txt "\n\n" ++ joinSep (txt "\n\n") (dayItems d) ++ txt "\n\n" := by
    simp [joinNL, joinSep, List.append_assoc]
    rfl
  rw [heq]
  exact pstrip_pad (by decide) (by decide) (strippedB_joinDD (dayItems_stripped h))

/-! ## C1 — blockers for the day-item lists -/

theorem optItem1_blocks {lit : Str} {l0r : Str} (he : lit = '*' :: l0r) {pre : Str}
    {o : Option Str} (hpre : segBlocksStrict lit pre = true) (ho : tidyDayVal o = true) :
    (optItem1 pre o).all (segBlocksStrict lit) = true := by
  rcases o with - | v
  · rfl
  · simp only [optItem1]
    split
    · rfl
    · rename_i hvne
      simp only [List.all_cons, List.all_nil, Bool.and_true]
      exact segBlocksStrict_append _ hpre
        (segBlocksStrict_starFree he (tidyDayVal_props ho rfl hvne).1)

theorem optItem0_blocks {lit : Str} {l0r : Str} (he : lit = '*' :: l0r)
    {o : Option Str} (ho : tidyContent o = true) :
    (optItem0 o).all (segBlocksStrict lit) = true := by
  rcases o with - | v
  · rfl
  · simp only [optItem0]
    split
    · rfl
    · rename_i hvne
      simp only [List.all_cons, List.all_nil, Bool.and_true]
      exact segBlocksStrict_starFree he (tidyContent_props ho rfl hvne).1

theorem statsItems_blocks {lit : Str} {l0r : Str} (he : lit = '*' :: l0r)
    (hm2 : segBlocksStrict lit (txt "**Miles:** ") = true)
    (he2 : segBlocksStrict lit (txt "**Elevation:** ") = true)
    (hs2 : segBlocksStrict lit (txt " | ") = true)
    {mo eo : Option Str} (hmo : tidyDayVal mo = true) (heo : tidyDayVal eo = true) :
    (statsItems mo eo).all (segBlocksStrict lit) = true := by
  simp only [statsItems]
  rcases optStat_cases (txt "**Miles:** ") mo with hA | ⟨m, hmo2, hmne, hA⟩ <;>
    rcases optStat_cases (txt "**Elevation:** ") eo with hB | ⟨e, heo2, hene, hB⟩
  · rw [hA, hB]
    rfl
  · rw [hA, hB, List.nil_append]
    rw [show (([txt "**Elevation:** " ++ e] : List Str)).isEmpty = false from rfl]
    simp only [Bool.false_eq_true, if_false, List.all_cons, List.all_nil, Bool.and_true]
    rw [show joinSep (txt " | ") [txt "**Elevation:** " ++ e] =
      txt "**Elevation:** " ++ e from rfl]
    exact segBlocksStrict_append _ he2
      (segBlocksStrict_starFree he (tidyDayVal_props heo heo2 hene).1)
  · rw [hA, hB, List.append_nil]
    rw [show (([txt "**Miles:** " ++ m] : List Str)).isEmpty = false from rfl]
    simp only [Bool.false_eq_true, if_false, List.all_cons, List.all_nil, Bool.and_true]
    rw [show joinSep (txt " | ") [txt "**Miles:** " ++ m] =
      txt "**Miles:** " ++ m from rfl]
    exact segBlocksStrict_append _ hm2
      (segBlocksStrict_starFree he (tidyDayVal_props hmo hmo2 hmne).1)
  · rw [hA, hB]
    rw [show (([txt "**Miles:** " ++ m] : List Str) ++
      [txt "**Elevation:** " ++ e]).isEmpty = false from rfl]
    simp only [Bool.false_eq_true, if_false, List.all_cons, List.all_nil, Bool.and_true]
    rw [show ([txt "**Miles:** " ++ m] : List Str) ++ [txt "**Elevation:** " ++ e] =
      [txt "**Miles:** " ++ m, txt "**Elevation:** " ++ e] from rfl]
    rw [show joinSep (txt " | ") [txt "**Miles:** " ++ m, txt "**Elevation:** " ++ e] =
      (txt "**Miles:** " ++ m) ++ txt " | " ++ (txt "**Elevation:** " ++ e) from rfl]
    refine segBlocksStrict_append _ (segBlocksStrict_append _ ?_ hs2) ?_
    · exact segBlocksStrict_append _ hm2
        (segBlocksStrict_starFree he (tidyDayVal_props hmo hmo2 hmne).1)
    · exact segBlocksStrict_append _ he2
        (segBlocksStrict_starFree he (tidyDayVal_props heo heo2 hene).1)

theorem segBlocksStrict_joinDD {lit : Str} {l0r : Str} (he : lit = '*' :: l0r) :
    ∀ {items : List Str}, items.all (segBlocksStrict lit) = true →
    segBlocksStrict lit (joinSep (txt "\n\n") items) = true := by
  intro items
  induction items with
  | nil => intro _; rfl
  | cons i rest ih =>
    intro h
    simp only [List.all_cons, Bool.and_eq_true] at h
    cases rest with
    | nil => exact h.1
    | cons i2 r2 =>
      rw [show joinSep (txt "\n\n") (i :: i2 :: r2) =
        i ++ txt "\n\n" ++ joinSep (txt "\n\n") (i2 :: r2) from rfl]
      refine segBlocksStrict_append _ (segBlocksStrict_append _ h.1 ?_) (ih h.2)
      exact segBlocksStrict_starFree he (by decide)

theorem searchLabeled_items_none {lit : Str} {l0r : Str} (he : lit = '*' :: l0r)
    (P : Char → Bool) {items : List Str}
    (h : items.all (segBlocksStrict lit) = true) :
    searchLabeled lit P (joinSep (txt "\n\n") items) = none :=
  searchLabeled_none P (segBlocksStrict_joinDD he h)

theorem searchLabeled_items {lit : Str} {l0r : Str} (he : lit = '*' :: l0r)
    {P : Char → Bool} (hnl : P '\n' = false) {Lb La : List Str} {pre v itail : Str}
    (hLb : Lb.all (segBlocksStrict lit) = true)
    (hpre : segBlocksStrict lit pre = true)
    (hva : v.all P = true) (hvne : v ≠ []) (hvs : strippedB v = true)
    (hstop : (itail.takeWhile P).all pyWS = true) :
    (searchLabeled lit P (joinSep (txt "\n\n")
      (Lb ++ (pre ++ (lit ++ (' ' :: (v ++ itail)))) :: La))).map pstrip = some v := by
  have hcore : ∀ (T0 : Str), (T0.takeWhile P).all pyWS = true →
      ∀ (A0 : Str), segBlocksStrict lit A0 = true →
      (searchLabeled lit P (A0 ++ (lit ++ (' ' :: (v ++ T0))))).map pstrip = some v := by
    intro T0 hT0 A0 hA0
    exact searchLabeled_pos_dc (by rw [he]) hA0 hva hvne hvs hT0
  cases Lb with
  | nil =>
    rw [List.nil_append]
    cases La with
    | nil =>
      rw [show joinSep (txt "\n\n") [pre ++ (lit ++ (' ' :: (v ++ itail)))] =
        pre ++ (lit ++ (' ' :: (v ++ itail))) from rfl]
      exact hcore itail hstop pre hpre
    | cons l2 r2 =>
      rw [show joinSep (txt "\n\n") ((pre ++ (lit ++ (' ' :: (v ++ itail)))) :: l2 :: r2) =
        (pre ++ (lit ++ (' ' :: (v ++ itail)))) ++ txt "\n\n" ++
          joinSep (txt "\n\n") (l2 :: r2) from rfl]
      have heq : (pre ++ (lit ++ (' ' :: (v ++ itail)))) ++ txt "\n\n" ++
          joinSep (txt "\n\n") (l2 :: r2) =
          pre ++ (lit ++ (' ' :: (v ++
            (itail ++ ('\n' :: ('\n' :: joinSep (txt "\n\n") (l2 :: r2))))))) := by
        simp [List.append_assoc]
        rfl
      rw [heq]
      refine hcore _ ?_ pre hpre
      rw [show itail ++ ('\n' :: ('\n' :: joinSep (txt "\n\n") (l2 :: r2))) =
        itail ++ '\n' :: ('\n' :: joinSep (txt "\n\n") (l2 :: r2)) from rfl]
      rw [takeWhile_append_nl hnl]
      exact hstop
  | cons b1 bs =>
    rw [joinSep_append _ _ (by simp) (by simp)]
    cases La with
    | nil =>
      rw [show joinSep (txt "\n\n") [pre ++ (lit ++ (' ' :: (v ++ itail)))] =
        pre ++ (lit ++ (' ' :: (v ++ itail))) from rfl]
      have heq : joinSep (txt "\n\n") (b1 :: bs) ++ txt "\n\n" ++
          (pre ++ (lit ++ (' ' :: (v ++ itail)))) =
          (joinSep (txt "\n\n") (b1 :: bs) ++ txt "\n\n" ++ pre) ++
            (lit ++ (' ' :: (v ++ itail))) := by
        simp [List.append_assoc]
      rw [heq]
      refine hcore itail hstop _ ?_
      refine segBlocksStrict_append _ (segBlocksStrict_append _ ?_ ?_) hpre
      · exact segBlocksStrict_joinDD he hLb
      · exact segBlocksStrict_starFree he (by decide)
    | cons l2 r2 =>
      rw [show joinSep (txt "\n\n") ((pre ++ (lit ++ (' ' :: (v ++ itail)))) :: l2 :: r2) =
        (pre ++ (lit ++ (' ' :: (v ++ itail)))) ++ txt "\n\n" ++
          joinSep (txt "\n\n") (l2 :: r2) from rfl]
      have heq : joinSep (txt "\n\n") (b1 :: bs) ++ txt "\n\n" ++
          ((pre ++ (lit ++ (' ' :: (v ++ itail)))) ++ txt "\n\n" ++
            joinSep (txt "\n\n") (l2 :: r2)) =
          (joinSep (txt "\n\n") (b1 :: bs) ++ txt "\n\n" ++ pre) ++
            (lit ++ (' ' :: (v ++
              (itail ++ ('\n' :: ('\n' :: joinSep (txt "\n\n") (l2 :: r2))))))) := by
        simp [List.append_assoc]
        rfl
      rw [heq]
      refine hcore _ ?_ _ ?_
      · rw [show itail ++ ('\n' :: ('\n' :: joinSep (txt "\n\n") (l2 :: r2))) =
          itail ++ '\n' :: ('\n' :: joinSep (txt "\n\n") (l2 :: r2)) from rfl]
        rw [takeWhile_append_nl hnl]
        exact hstop
      · refine segBlocksStrict_append _ (segBlocksStrict_append _ ?_ ?_) hpre
        · exact segBlocksStrict_joinDD he hLb
        · exact segBlocksStrict_starFree he (by decide)

theorem subLabeled_item_del {lit : Str} {l0r : Str} (he : lit = '*' :: l0r)
    {P : Char → Bool} (hsp : P ' ' = true) {pre v itail : Str}
    (hpre : segBlocksStrict lit pre = true) (hva : v.all P = true)
    (htail : segBlocksStrict lit (itail.dropWhile P) = true) :
    subLabeled lit P (pre ++ (lit ++ (' ' :: (v ++ itail)))) =
      pre ++ itail.dropWhile P := by
  rw [subLabeled_skip _ hpre]
  rw [subLabeled_del he hsp hva]
  rw [subLabeled_unchanged htail]

/-! ## C1 — what each sub-field search finds in a rendered day body -/

theorem optVal_cases (pre : Str) (o : Option Str) :
    (tOpt o = none ∧ optStat pre o = [] ∧ optItem1 pre o = [] ∧ optItem0 o = []) ∨
    ∃ v, o = some v ∧ v ≠ [] ∧ tOpt o = some v ∧ optStat pre o = [pre ++ v] ∧
      optItem1 pre o = [pre ++ v] ∧ optItem0 o = [v] := by
  rcases o with - | v
  · exact Or.inl ⟨rfl, rfl, rfl, rfl⟩
  · by_cases hv : v = []
    · subst hv
      exact Or.inl ⟨rfl, rfl, rfl, rfl⟩
    · refine Or.inr ⟨v, rfl, hv, ?_, ?_, ?_, ?_⟩ <;>
        simp [tOpt, optStat, optItem1, optItem0, hv]

theorem all_blocks5 {f : Str → Bool} {A B C D E : List Str}
    (ha : A.all f = true) (hb : B.all f = true) (hc : C.all f = true)
    (hd : D.all f = true) (he : E.all f = true) :
    (A ++ B ++ C ++ D ++ E).all f = true := by
  simp only [List.all_append, Bool.and_eq_true]
  exact ⟨⟨⟨⟨ha, hb⟩, hc⟩, hd⟩, he⟩

theorem all_nil_blocks {f : Str → Bool} : ([] : List Str).all f = true := rfl

theorem heM : txt "**Miles:**" = '*' :: txt "*Miles:**" := rfl

theorem heE : txt "**Elevation:**" = '*' :: txt "*Elevation:**" := rfl

theorem heR : txt "**Route:**" = '*' :: txt "*Route:**" := rfl

theorem heL : txt "**Lodging:**" = '*' :: txt "*Lodging:**" := rfl

theorem heMe : txt "**Meals:**" = '*' :: txt "*Meals:**" := rfl

theorem segBlocksStrict_nil {lit : Str} : segBlocksStrict lit [] = true := rfl

theorem pipe_tail_stop (X : Str) :
    ((txt " | " ++ X).takeWhile isMilesChar).all pyWS = true := rfl

theorem pipe_tail_drop (X : Str) :
    (txt " | " ++ X).dropWhile isMilesChar = '|' :: (' ' :: X) := rfl

theorem search_route_dc {d : ItinDay} (h : tidyDay d = true) :
    (searchLabeled (txt "**Route:**") isLineChar
      (joinSep (txt "\n\n") (dayItems d))).map pstrip = tOpt d.trails_waypoints := by
  rw [dayItems_parts]
  have hSb : (statsItems d.miles d.elevation).all
      (segBlocksStrict (txt "**Route:**")) = true :=
    statsItems_blocks rfl (by decide) (by decide) (by decide)
      (tidyD_miles h) (tidyD_elevation h)
  have hLb2 : (optItem1 (txt "**Lodging:** ") d.camp_lodging).all
      (segBlocksStrict (txt "**Route:**")) = true :=
    optItem1_blocks rfl (by decide) (tidyD_lodging h)
  have hMb : (optItem1 (txt "**Meals:** ") d.meals).all
      (segBlocksStrict (txt "**Route:**")) = true :=
    optItem1_blocks rfl (by decide) (tidyD_meals h)
  have hCb : (optItem0 d.content).all (segBlocksStrict (txt "**Route:**")) = true :=
    optItem0_blocks rfl (tidyD_content h)
  rcases optVal_cases (txt "**Route:** ") d.trails_waypoints with
    ⟨ht, -, hR, -⟩ | ⟨v, hv, hvne, ht, -, hR, -⟩
  · rw [ht, hR]
    rw [searchLabeled_items_none heR isLineChar (all_blocks5 hSb all_nil_blocks hLb2 hMb hCb)]
    rfl
  · rw [ht, hR]
    have props := tidyDayVal_props (tidyD_trails h) hv hvne
    have heq : statsItems d.miles d.elevation ++ [txt "**Route:** " ++ v] ++
        optItem1 (txt "**Lodging:** ") d.camp_lodging ++
        optItem1 (txt "**Meals:** ") d.meals ++ optItem0 d.content =
        statsItems d.miles d.elevation ++
          (([] : Str) ++ (txt "**Route:**" ++ (' ' :: (v ++ ([] : Str))))) ::
          (optItem1 (txt "**Lodging:** ") d.camp_lodging ++
            (optItem1 (txt "**Meals:** ") d.meals ++ optItem0 d.content)) := by
      simp only [List.append_assoc, List.cons_append, List.nil_append, List.append_nil]
      rfl
    rw [heq]
    exact searchLabeled_items heR (by decide) hSb segBlocksStrict_nil
      (lineClass_of props.2.2.1) hvne props.2.2.2 (by decide)

theorem search_lodging_dc {d : ItinDay} (h : tidyDay d = true) :
    (searchLabeled (txt "**Lodging:**") isLineChar
      (joinSep (txt "\n\n") (dayItems d))).map pstrip = tOpt d.camp_lodging := by
  rw [dayItems_parts]
  have hSb : (statsItems d.miles d.elevation).all
      (segBlocksStrict (txt "**Lodging:**")) = true :=
    statsItems_blocks rfl (by decide) (by decide) (by decide)
      (tidyD_miles h) (tidyD_elevation h)
  have hRb : (optItem1 (txt "**Route:** ") d.trails_waypoints).all
      (segBlocksStrict (txt "**Lodging:**")) = true :=
    optItem1_blocks rfl (by decide) (tidyD_trails h)
  have hMb : (optItem1 (txt "**Meals:** ") d.meals).all
      (segBlocksStrict (txt "**Lodging:**")) = true :=
    optItem1_blocks rfl (by decide) (tidyD_meals h)
  have hCb : (optItem0 d.content).all (segBlocksStrict (txt "**Lodging:**")) = true :=
    optItem0_blocks rfl (tidyD_content h)
  rcases optVal_cases (txt "**Lodging:** ") d.camp_lodging with
    ⟨ht, -, hL, -⟩ | ⟨v, hv, hvne, ht, -, hL, -⟩
  · rw [ht, hL]
    rw [searchLabeled_items_none heL isLineChar (all_blocks5 hSb hRb all_nil_blocks hMb hCb)]
    rfl
  · rw [ht, hL]
    have props := tidyDayVal_props (tidyD_lodging h) hv hvne
    have hLbAll : (statsItems d.miles d.elevation ++
        optItem1 (txt "**Route:** ") d.trails_waypoints).all
        (segBlocksStrict (txt "**Lodging:**")) = true := by
      simp only [List.all_append, Bool.and_eq_true]
      exact ⟨hSb, hRb⟩
    have heq : statsItems d.miles d.elevation ++
        optItem1 (txt "**Route:** ") d.trails_waypoints ++
        [txt "**Lodging:** " ++ v] ++
        optItem1 (txt "**Meals:** ") d.meals ++ optItem0 d.content =
        (statsItems d.miles d.elevation ++
          optItem1 (txt "**Route:** ") d.trails_waypoints) ++
          (([] : Str) ++ (txt "**Lodging:**" ++ (' ' :: (v ++ ([] : Str))))) ::
          (optItem1 (txt "**Meals:** ") d.meals ++ optItem0 d.content) := by
      simp only [List.append_assoc, List.cons_append, List.nil_append, List.append_nil]
      rfl
    rw [heq]
    exact searchLabeled_items heL (by decide) hLbAll segBlocksStrict_nil
      (lineClass_of props.2.2.1) hvne props.2.2.2 (by decide)

theorem search_meals_dc {d : ItinDay} (h : tidyDay d = true) :
    (searchLabeled (txt "**Meals:**") isLineChar
      (joinSep (txt "\n\n") (dayItems d))).map pstrip = tOpt d.meals := by
  rw [dayItems_parts]
  have hSb : (statsItems d.miles d.elevation).all
      (segBlocksStrict (txt "**Meals:**")) = true :=
    statsItems_blocks rfl (by decide) (by decide) (by decide)
      (tidyD_miles h) (tidyD_elevation h)
  have hRb : (optItem1 (txt "**Route:** ") d.trails_waypoints).all
      (segBlocksStrict (txt "**Meals:**")) = true :=
    optItem1_blocks rfl (by decide) (tidyD_trails h)
  have hLb2 : (optItem1 (txt "**Lodging:** ") d.camp_lodging).all
      (segBlocksStrict (txt "**Meals:**")) = true :=
    optItem1_blocks rfl (by decide) (tidyD_lodging h)
  have hCb : (optItem0 d.content).all (segBlocksStrict (txt "**Meals:**")) = true :=
    optItem0_blocks rfl (tidyD_content h)
  rcases optVal_cases (txt "**Meals:** ") d.meals with
    ⟨ht, -, hM, -⟩ | ⟨v, hv, hvne, ht, -, hM, -⟩
  · rw [ht, hM]
    rw [searchLabeled_items_none heMe isLineChar (all_blocks5 hSb hRb hLb2 all_nil_blocks hCb)]
    rfl
  · rw [ht, hM]
    have props := tidyDayVal_props (tidyD_meals h) hv hvne
    have hLbAll : ((statsItems d.miles d.elevation ++
        optItem1 (txt "**Route:** ") d.trails_waypoints) ++
        optItem1 (txt "**Lodging:** ") d.camp_lodging).all
        (segBlocksStrict (txt "**Meals:**")) = true := by
      simp only [List.all_append, Bool.and_eq_true]
      exact ⟨⟨hSb, hRb⟩, hLb2⟩
    have heq : statsItems d.miles d.elevation ++
        optItem1 (txt "**Route:** ") d.trails_waypoints ++
        optItem1 (txt "**Lodging:** ") d.camp_lodging ++
        [txt "**Meals:** " ++ v] ++ optItem0 d.content =
        ((statsItems d.miles d.elevation ++
          optItem1 (txt "**Route:** ") d.trails_waypoints) ++
          optItem1 (txt "**Lodging:** ") d.camp_lodging) ++
          (([] : Str) ++ (txt "**Meals:**" ++ (' ' :: (v ++ ([] : Str))))) ::
          optItem0 d.content := by
      simp only [List.append_assoc, List.cons_append, List.nil_append, List.append_nil]
      rfl
    rw [heq]
    exact searchLabeled_items heMe (by decide) hLbAll segBlocksStrict_nil
      (lineClass_of props.2.2.1) hvne props.2.2.2 (by decide)

theorem search_miles_dc {d : ItinDay} (h : tidyDay d = true) :
    (searchLabeled (txt "**Miles:**") isMilesChar
      (joinSep (txt "\n\n") (dayItems d))).map pstrip = tOpt d.miles := by
  rw [dayItems_parts]
  have hRb : (optItem1 (txt "**Route:** ") d.trails_waypoints).all
      (segBlocksStrict (txt "**Miles:**")) = true :=
    optItem1_blocks rfl (by decide) (tidyD_trails h)
  have hLb2 : (optItem1 (txt "**Lodging:** ") d.camp_lodging).all
      (segBlocksStrict (txt "**Miles:**")) = true :=
    optItem1_blocks rfl (by decide) (tidyD_lodging h)
  have hMb : (optItem1 (txt "**Meals:** ") d.meals).all
      (segBlocksStrict (txt "**Miles:**")) = true :=
    optItem1_blocks rfl (by decide) (tidyD_meals h)
  have hCb : (optItem0 d.content).all (segBlocksStrict (txt "**Miles:**")) = true :=
    optItem0_blocks rfl (tidyD_content h)
  rcases optVal_cases (txt "**Miles:** ") d.miles with
    ⟨ht, hSm, -, -⟩ | ⟨m, hm, hmne, ht, hSm, -, -⟩
  · rw [ht]
    rcases optVal_cases (txt "**Elevation:** ") d.elevation with
      ⟨-, hSe, -, -⟩ | ⟨e, hee, hene, -, hSe, -, -⟩
    · have hS : statsItems d.miles d.elevation = [] := by
        simp only [statsItems, hSm, hSe]
        rfl
      rw [hS]
      rw [searchLabeled_items_none heM isMilesChar (all_blocks5 all_nil_blocks hRb hLb2 hMb hCb)]
      rfl
    · have hS : statsItems d.miles d.elevation = [txt "**Elevation:** " ++ e] := by
        simp only [statsItems, hSm, hSe]
        rfl
      rw [hS]
      have hEb : ([txt "**Elevation:** " ++ e] : List Str).all
          (segBlocksStrict (txt "**Miles:**")) = true := by
        simp only [List.all_cons, List.all_nil, Bool.and_true]
        exact segBlocksStrict_append _ (by decide)
          (segBlocksStrict_starFree heM
            (tidyDayVal_props (tidyD_elevation h) hee hene).1)
      rw [searchLabeled_items_none heM isMilesChar (all_blocks5 hEb hRb hLb2 hMb hCb)]
      rfl
  · rw [ht]
    have hprops := tidyDayVal_props (tidyD_miles h) hm hmne
    rcases optVal_cases (txt "**Elevation:** ") d.elevation with
      ⟨-, hSe, -, -⟩ | ⟨e, hee, hene, -, hSe, -, -⟩
    · have hS : statsItems d.miles d.elevation = [txt "**Miles:** " ++ m] := by
        simp only [statsItems, hSm, hSe]
        rfl
      rw [hS]
      have heq : ([txt "**Miles:** " ++ m] : List Str) ++
          optItem1 (txt "**Route:** ") d.trails_waypoints ++
          optItem1 (txt "**Lodging:** ") d.camp_lodging ++
          optItem1 (txt "**Meals:** ") d.meals ++ optItem0 d.content =
          ([] : List Str) ++
            (([] : Str) ++ (txt "**Miles:**" ++ (' ' :: (m ++ ([] : Str))))) ::
            (optItem1 (txt "**Route:** ") d.trails_waypoints ++
              (optItem1 (txt "**Lodging:** ") d.camp_lodging ++
                (optItem1 (txt "**Meals:** ") d.meals ++ optItem0 d.content))) := by
        simp only [List.append_assoc, List.cons_append, List.nil_append, List.append_nil]
        rfl
      rw [heq]
      exact searchLabeled_items heM (by decide) all_nil_blocks segBlocksStrict_nil
        (milesClass_of hprops.2.1 hprops.2.2.1) hmne hprops.2.2.2 (by decide)
    · have hS : statsItems d.miles d.elevation =
          [(txt "**Miles:** " ++ m) ++ txt " | " ++ (txt "**Elevation:** " ++ e)] := by
        simp only [statsItems, hSm, hSe]
        rfl
      rw [hS]
      have heq : ([(txt "**Miles:** " ++ m) ++ txt " | " ++
          (txt "**Elevation:** " ++ e)] : List Str) ++
          optItem1 (txt "**Route:** ") d.trails_waypoints ++
          optItem1 (txt "**Lodging:** ") d.camp_lodging ++
          optItem1 (txt "**Meals:** ") d.meals ++ optItem0 d.content =
          ([] : List Str) ++
            (([] : Str) ++ (txt "**Miles:**" ++
              (' ' :: (m ++ (txt " | " ++ (txt "**Elevation:** " ++ e)))))) ::
            (optItem1 (txt "**Route:** ") d.trails_waypoints ++
              (optItem1 (txt "**Lodging:** ") d.camp_lodging ++
                (optItem1 (txt "**Meals:** ") d.meals ++ optItem0 d.content))) := by
        simp only [List.append_assoc, List.cons_append, List.nil_append, List.append_nil]
        rfl
      rw [heq]
      exact searchLabeled_items heM (by decide) all_nil_blocks segBlocksStrict_nil
        (milesClass_of hprops.2.1 hprops.2.2.1) hmne hprops.2.2.2
        (pipe_tail_stop (txt "**Elevation:** " ++ e))

theorem search_elev_dc {d : ItinDay} (h : tidyDay d = true) :
    (searchLabeled (txt "**Elevation:**") isMilesChar
      (joinSep (txt "\n\n") (dayItems d))).map pstrip = tOpt d.elevation := by
  rw [dayItems_parts]
  have hRb : (optItem1 (txt "**Route:** ") d.trails_waypoints).all
      (segBlocksStrict (txt "**Elevation:**")) = true :=
    optItem1_blocks rfl (by decide) (tidyD_trails h)
  have hLb2 : (optItem1 (txt "**Lodging:** ") d.camp_lodging).all
      (segBlocksStrict (txt "**Elevation:**")) = true :=
    optItem1_blocks rfl (by decide) (tidyD_lodging h)
  have hMb : (optItem1 (txt "**Meals:** ") d.meals).all
      (segBlocksStrict (txt "**Elevation:**")) = true :=
    optItem1_blocks rfl (by decide) (tidyD_meals h)
  have hCb : (optItem0 d.content).all (segBlocksStrict (txt "**Elevation:**")) = true :=
    optItem0_blocks rfl (tidyD_content h)
  rcases optVal_cases (txt "**Elevation:** ") d.elevation with
    ⟨ht, hSe, -, -⟩ | ⟨e, hee, hene, ht, hSe, -, -⟩
  · rw [ht]
    rcases optVal_cases (txt "**Miles:** ") d.miles with
      ⟨-, hSm, -, -⟩ | ⟨m, hm, hmne, -, hSm, -, -⟩
    · have hS : statsItems d.miles d.elevation = [] := by
        simp only [statsItems, hSm, hSe]
        rfl
      rw [hS]
      rw [searchLabeled_items_none heE isMilesChar (all_blocks5 all_nil_blocks hRb hLb2 hMb hCb)]
      rfl
    · have hS : statsItems d.miles d.elevation = [txt "**Miles:** " ++ m] := by
        simp only [statsItems, hSm, hSe]
        rfl
      rw [hS]
      have hMb2 : ([txt "**Miles:** " ++ m] : List Str).all
          (segBlocksStrict (txt "**Elevation:**")) = true := by
        simp only [List.all_cons, List.all_nil, Bool.and_true]
        exact segBlocksStrict_append _ (by decide)
          (segBlocksStrict_starFree heE
            (tidyDayVal_props (tidyD_miles h) hm hmne).1)
      rw [searchLabeled_items_none heE isMilesChar (all_blocks5 hMb2 hRb hLb2 hMb hCb)]
      rfl
  · rw [ht]
    have hprops := tidyDayVal_props (tidyD_elevation h) hee hene
    rcases optVal_cases (txt "**Miles:** ") d.miles with
      ⟨-, hSm, -, -⟩ | ⟨m, hm, hmne, -, hSm, -, -⟩
    · have hS : statsItems d.miles d.elevation = [txt "**Elevation:** " ++ e] := by
        simp only [statsItems, hSm, hSe]
        rfl
      rw [hS]
      have heq : ([txt "**Elevation:** " ++ e] : List Str) ++
          optItem1 (txt "**Route:** ") d.trails_waypoints ++
          optItem1 (txt "**Lodging:** ") d.camp_lodging ++
          optItem1 (txt "**Meals:** ") d.meals ++ optItem0 d.content =
          ([] : List Str) ++
            (([] : Str) ++ (txt "**Elevation:**" ++ (' ' :: (e ++ ([] : Str))))) ::
            (optItem1 (txt "**Route:** ") d.trails_waypoints ++
              (optItem1 (txt "**Lodging:** ") d.camp_lodging ++
                (optItem1 (txt "**Meals:** ") d.meals ++ optItem0 d.content))) := by
        simp only [List.append_assoc, List.cons_append, List.nil_append, List.append_nil]
        rfl
      rw [heq]
      exact searchLabeled_items heE (by decide) all_nil_blocks segBlocksStrict_nil
        (milesClass_of hprops.2.1 hprops.2.2.1) hene hprops.2.2.2 (by decide)
    · have hS : statsItems d.miles d.elevation =
          [(txt "**Miles:** " ++ m) ++ txt " | " ++ (txt "**Elevation:** " ++ e)] := by
        simp only [statsItems, hSm, hSe]
        rfl
      rw [hS]
      have hmprops := tidyDayVal_props (tidyD_miles h) hm hmne
      have hpre : segBlocksStrict (txt "**Elevation:**")
          ((txt "**Miles:** " ++ m) ++ txt " | ") = true :=
        segBlocksStrict_append _
          (segBlocksStrict_append _ (by decide)
            (segBlocksStrict_starFree heE hmprops.1)) (by decide)
      have heq : ([(txt "**Miles:** " ++ m) ++ txt " | " ++
          (txt "**Elevation:** " ++ e)] : List Str) ++
          optItem1 (txt "**Route:** ") d.trails_waypoints ++
          optItem1 (txt "**Lodging:** ") d.camp_lodging ++
          optItem1 (txt "**Meals:** ") d.meals ++ optItem0 d.content =
          ([] : List Str) ++
            (((txt "**Miles:** " ++ m) ++ txt " | ") ++
              (txt "**Elevation:**" ++ (' ' :: (e ++ ([] : Str))))) ::
            (optItem1 (txt "**Route:** ") d.trails_waypoints ++
              (optItem1 (txt "**Lodging:** ") d.camp_lodging ++
                (optItem1 (txt "**Meals:** ") d.meals ++ optItem0 d.content))) := by
        simp only [List.append_assoc, List.cons_append, List.nil_append, List.append_nil]
        rfl
      rw [heq]
      exact searchLabeled_items heE (by decide) all_nil_blocks hpre
        (milesClass_of hprops.2.1 hprops.2.2.1) hene hprops.2.2.2 (by decide)

/-! ## C1 — the free-text residue of a rendered day body -/

theorem remaining_joinDD (items : List Str) :
    (subLabeled (txt "**Meals:**") isLineChar
      (subLabeled (txt "**Lodging:**") isLineChar
        (subLabeled (txt "**Route:**") isLineChar
          (subLabeled (txt "**Elevation:**") isMilesChar
            (subLabeled (txt "**Miles:**") isMilesChar
              (joinSep (txt "\n\n") items)))))).filter (fun c => c != '|') =
      joinSep (txt "\n\n") (items.map scrub) := by
  rw [subLabeled_joinDD heM (by decide) (by decide) items]
  rw [subLabeled_joinDD heE (by decide) (by decide)]
  rw [subLabeled_joinDD heR (by decide) (by decide)]
  rw [subLabeled_joinDD heL (by decide) (by decide)]
  rw [subLabeled_joinDD heMe (by decide) (by decide)]
  rw [filter_joinDD (by decide)]
  simp only [List.map_map]
  rfl

theorem scrub_miles_item {m : Str} (hva : m.all isMilesChar = true) :
    scrub (txt "**Miles:** " ++ m) = [] := by
  simp only [scrub]
  rw [show txt "**Miles:** " ++ m =
    txt "**Miles:**" ++ (' ' :: (m ++ ([] : Str))) from by
    rw [List.append_nil]
    rfl]
  rw [subLabeled_del heM (by decide) hva]
  rfl

theorem scrub_elev_item {e : Str} (hva : e.all isMilesChar = true)
    (hstar : starFree e = true) :
    scrub (txt "**Elevation:** " ++ e) = [] := by
  simp only [scrub]
  have hbM : segBlocksStrict (txt "**Miles:**") (txt "**Elevation:** " ++ e) = true :=
    segBlocksStrict_append _ (by decide) (segBlocksStrict_starFree heM hstar)
  rw [subLabeled_unchanged hbM]
  rw [show txt "**Elevation:** " ++ e =
    txt "**Elevation:**" ++ (' ' :: (e ++ ([] : Str))) from by
    rw [List.append_nil]
    rfl]
  rw [subLabeled_del heE (by decide) hva]
  rfl

theorem scrub_stats_both {m e : Str} (hma : m.all isMilesChar = true)
    (hea : e.all isMilesChar = true) (hestar : starFree e = true) :
    scrub ((txt "**Miles:** " ++ m) ++ txt " | " ++ (txt "**Elevation:** " ++ e)) =
      [' '] := by
  simp only [scrub]
  rw [show (txt "**Miles:** " ++ m) ++ txt " | " ++ (txt "**Elevation:** " ++ e) =
    txt "**Miles:**" ++ (' ' :: (m ++ (txt " | " ++ (txt "**Elevation:** " ++ e)))) from by
    simp only [List.append_assoc]
    rfl]
  rw [subLabeled_del heM (by decide) hma]
  rw [pipe_tail_drop]
  rw [show '|' :: (' ' :: (txt "**Elevation:** " ++ e)) =
    (['|', ' '] : Str) ++ (txt "**Elevation:** " ++ e) from rfl]
  have hbM : segBlocksStrict (txt "**Miles:**")
      ((['|', ' '] : Str) ++ (txt "**Elevation:** " ++ e)) = true :=
    segBlocksStrict_append _ (by decide)
      (segBlocksStrict_append _ (by decide) (segBlocksStrict_starFree heM hestar))
  rw [subLabeled_unchanged hbM]
  have hskipE : segBlocksStrict (txt "**Elevation:**") ((['|', ' '] : Str)) = true := by
    decide
  rw [subLabeled_skip _ hskipE]
  rw [show txt "**Elevation:** " ++ e =
    txt "**Elevation:**" ++ (' ' :: (e ++ ([] : Str))) from by
    rw [List.append_nil]
    rfl]
  rw [subLabeled_del heE (by decide) hea]
  rfl

theorem scrub_route_item {v : Str} (hstar : starFree v = true)
    (hva : v.all isLineChar = true) :
    scrub (txt "**Route:** " ++ v) = [] := by
  simp only [scrub]
  have h1 : segBlocksStrict (txt "**Miles:**") (txt "**Route:** " ++ v) = true :=
    segBlocksStrict_append _ (by decide) (segBlocksStrict_starFree heM hstar)
  have h2 : segBlocksStrict (txt "**Elevation:**") (txt "**Route:** " ++ v) = true :=
    segBlocksStrict_append _ (by decide) (segBlocksStrict_starFree heE hstar)
  rw [subLabeled_unchanged h1, subLabeled_unchanged h2]
  rw [show txt "**Route:** " ++ v =
    txt "**Route:**" ++ (' ' :: (v ++ ([] : Str))) from by
    rw [List.append_nil]
    rfl]
  rw [subLabeled_del heR (by decide) hva]
  rfl

theorem scrub_lodging_item {v : Str} (hstar : starFree v = true)
    (hva : v.all isLineChar = true) :
    scrub (txt "**Lodging:** " ++ v) = [] := by
  simp only [scrub]
  have h1 : segBlocksStrict (txt "**Miles:**") (txt "**Lodging:** " ++ v) = true :=
    segBlocksStrict_append _ (by decide) (segBlocksStrict_starFree heM hstar)
  have h2 : segBlocksStrict (txt "**Elevation:**") (txt "**Lodging:** " ++ v) = true :=
    segBlocksStrict_append _ (by decide) (segBlocksStrict_starFree heE hstar)
  have h3 : segBlocksStrict (txt "**Route:**") (txt "**Lodging:** " ++ v) = true :=
    segBlocksStrict_append _ (by decide) (segBlocksStrict_starFree heR hstar)
  rw [subLabeled_unchanged h1, subLabeled_unchanged h2, subLabeled_unchanged h3]
  rw [show txt "**Lodging:** " ++ v =
    txt "**Lodging:**" ++ (' ' :: (v ++ ([] : Str))) from by
    rw [List.append_nil]
    rfl]
  rw [subLabeled_del heL (by decide) hva]
  rfl

theorem scrub_meals_item {v : Str} (hstar : starFree v = true)
    (hva : v.all isLineChar = true) :
    scrub (txt "**Meals:** " ++ v) = [] := by
  simp only [scrub]
  have h1 : segBlocksStrict (txt "**Miles:**") (txt "**Meals:** " ++ v) = true :=
    segBlocksStrict_append _ (by decide) (segBlocksStrict_starFree heM hstar)
  have h2 : segBlocksStrict (txt "**Elevation:**") (txt "**Meals:** " ++ v) = true :=
    segBlocksStrict_append _ (by decide) (segBlocksStrict_starFree heE hstar)
  have h3 : segBlocksStrict (txt "**Route:**") (txt "**Meals:** " ++ v) = true :=
    segBlocksStrict_append _ (by decide) (segBlocksStrict_starFree heR hstar)
  have h4 : segBlocksStrict (txt "**Lodging:**") (txt "**Meals:** " ++ v) = true :=
    segBlocksStrict_append _ (by decide) (segBlocksStrict_starFree heL hstar)
  rw [subLabeled_unchanged h1, subLabeled_unchanged h2, subLabeled_unchanged h3,
    subLabeled_unchanged h4]
  rw [show txt "**Meals:** " ++ v =
    txt "**Meals:**" ++ (' ' :: (v ++ ([] : Str))) from by
    rw [List.append_nil]
    rfl]
  rw [subLabeled_del heMe (by decide) hva]
  rfl

theorem scrub_content_item {c : Str} (hstar : starFree c = true)
    (hpp : pipeFree c = true) : scrub c = c := by
  simp only [scrub]
  rw [subLabeled_unchanged (segBlocksStrict_starFree heM hstar)]
  rw [subLabeled_unchanged (segBlocksStrict_starFree heE hstar)]
  rw [subLabeled_unchanged (segBlocksStrict_starFree heR hstar)]
  rw [subLabeled_unchanged (segBlocksStrict_starFree heL hstar)]
  rw [subLabeled_unchanged (segBlocksStrict_starFree heMe hstar)]
  refine List.filter_eq_self.mpr ?_
  intro a ha
  simp only [pipeFree, List.all_eq_true] at hpp
  exact hpp a ha

theorem tOpt_none_of_optItem1_nil {pre : Str} {o : Option Str}
    (h : optItem1 pre o = []) : tOpt o = none := by
  rcases optVal_cases pre o with ⟨ht, -, -, -⟩ | ⟨v, -, -, -, -, h1, -⟩
  · exact ht
  · rw [h1] at h
    exact absurd h (by simp)

theorem tOpt_none_of_optItem0_nil {o : Option Str}
    (h : optItem0 o = []) : tOpt o = none := by
  rcases optVal_cases ([] : Str) o with ⟨ht, -, -, -⟩ | ⟨v, -, -, -, -, -, h1⟩
  · exact ht
  · rw [h1] at h
    exact absurd h (by simp)

theorem tOpt_none_of_statsItems_nil {mo eo : Option Str}
    (h : statsItems mo eo = []) : tOpt mo = none ∧ tOpt eo = none := by
  rcases optVal_cases (txt "**Miles:** ") mo with
    ⟨htm, hsm, -, -⟩ | ⟨m, -, -, htm, hsm, -, -⟩ <;>
    rcases optVal_cases (txt "**Elevation:** ") eo with
      ⟨hte, hse, -, -⟩ | ⟨e, -, -, hte, hse, -, -⟩
  · exact ⟨htm, hte⟩
  · simp [statsItems, hsm, hse] at h
  · simp [statsItems, hsm, hse] at h
  · simp [statsItems, hsm, hse] at h

theorem dayItems_scrub {d : ItinDay} (h : tidyDay d = true) :
    ∃ W, (dayItems d).map scrub = W ++ optItem0 d.content ∧
      W.all (fun w => w.all pyWS) = true := by
  rw [dayItems_parts]
  simp only [List.map_append]
  refine ⟨(statsItems d.miles d.elevation).map scrub ++
    (optItem1 (txt "**Route:** ") d.trails_waypoints).map scrub ++
    (optItem1 (txt "**Lodging:** ") d.camp_lodging).map scrub ++
    (optItem1 (txt "**Meals:** ") d.meals).map scrub, ?_, ?_⟩
  · have hC : (optItem0 d.content).map scrub = optItem0 d.content := by
      rcases optVal_cases ([] : Str) d.content with
        ⟨-, -, -, hc0⟩ | ⟨c, hc, hcne, -, -, -, hc0⟩
      · rw [hc0]
        rfl
      · rw [hc0]
        have props := tidyContent_props (tidyD_content h) hc hcne
        simp only [List.map_cons, List.map_nil]
        rw [scrub_content_item props.1 props.2.1]
    rw [hC]
  · simp only [List.all_append, Bool.and_eq_true]
    refine ⟨⟨⟨?_, ?_⟩, ?_⟩, ?_⟩
    · rcases optVal_cases (txt "**Miles:** ") d.miles with
        ⟨-, hsm, -, -⟩ | ⟨m, hm, hmne, -, hsm, -, -⟩ <;>
        rcases optVal_cases (txt "**Elevation:** ") d.elevation with
          ⟨-, hse, -, -⟩ | ⟨e, hee, hene, -, hse, -, -⟩
      · rw [show statsItems d.miles d.elevation = [] from by
          simp only [statsItems, hsm, hse]
          rfl]
        rfl
      · have eprops := tidyDayVal_props (tidyD_elevation h) hee hene
        rw [show statsItems d.miles d.elevation = [txt "**Elevation:** " ++ e] from by
          simp only [statsItems, hsm, hse]
          rfl]
        simp only [List.map_cons, List.map_nil]
        rw [scrub_elev_item (milesClass_of eprops.2.1 eprops.2.2.1) eprops.1]
        rfl
      · have mprops := tidyDayVal_props (tidyD_miles h) hm hmne
        rw [show statsItems d.miles d.elevation = [txt "**Miles:** " ++ m] from by
          simp only [statsItems, hsm, hse]
          rfl]
        simp only [List.map_cons, List.map_nil]
        rw [scrub_miles_item (milesClass_of mprops.2.1 mprops.2.2.1)]
        rfl
      · have mprops := tidyDayVal_props (tidyD_miles h) hm hmne
        have eprops := tidyDayVal_props (tidyD_elevation h) hee hene
        rw [show statsItems d.miles d.elevation =
          [(txt "**Miles:** " ++ m) ++ txt " | " ++ (txt "**Elevation:** " ++ e)] from by
          simp only [statsItems, hsm, hse]
          rfl]
        simp only [List.map_cons, List.map_nil]
        rw [scrub_stats_both (milesClass_of mprops.2.1 mprops.2.2.1)
          (milesClass_of eprops.2.1 eprops.2.2.1) eprops.1]
        rfl
    · rcases optVal_cases (txt "**Route:** ") d.trails_waypoints with
        ⟨-, -, hr0, -⟩ | ⟨v, hv, hvne, -, -, hr0, -⟩
      · rw [hr0]
        rfl
      · have props := tidyDayVal_props (tidyD_trails h) hv hvne
        rw [hr0]
        simp only [List.map_cons, List.map_nil]
        rw [scrub_route_item props.1 (lineClass_of props.2.2.1)]
        rfl
    · rcases optVal_cases (txt "**Lodging:** ") d.camp_lodging with
        ⟨-, -, hl0, -⟩ | ⟨v, hv, hvne, -, -, hl0, -⟩
      · rw [hl0]
        rfl
      · have props := tidyDayVal_props (tidyD_lodging h) hv hvne
        rw [hl0]
        simp only [List.map_cons, List.map_nil]
        rw [scrub_lodging_item props.1 (lineClass_of props.2.2.1)]
        rfl
    · rcases optVal_cases (txt "**Meals:** ") d.meals with
        ⟨-, -, hm0, -⟩ | ⟨v, hv, hvne, -, -, hm0, -⟩
      · rw [hm0]
        rfl
      · have props := tidyDayVal_props (tidyD_meals h) hv hvne
        rw [hm0]
        simp only [List.map_cons, List.map_nil]
        rw [scrub_meals_item props.1 (lineClass_of props.2.2.1)]
        rfl

/-! ## C1 — the per-day round trip -/

theorem parseDayContent_doc {d : ItinDay} (h : tidyDay d = true) :
    parseDayContent (natToStr d.day_number)
      ('\n' :: joinNL (dayInnerLines d) ++ ['\n']) = expectedDay d := by
  by_cases hni : dayItems d = []
  · have h0 := hni
    rw [dayItems_parts] at h0
    simp only [List.append_eq_nil] at h0
    obtain ⟨⟨⟨⟨hS, hR⟩, hL⟩, hM⟩, hC⟩ := h0
    have hms := tOpt_none_of_statsItems_nil hS
    simp only [parseDayContent]
    rw [dayBody_dc_nil hni]
    simp only [expectedDay, hms.1, hms.2, tOpt_none_of_optItem1_nil hR,
      tOpt_none_of_optItem1_nil hL, tOpt_none_of_optItem1_nil hM,
      tOpt_none_of_optItem0_nil hC]
    rw [digitsVal_natToStr]
    rfl
  · have hdc := dayBody_dc_cons h hni
    simp only [parseDayContent]
    rw [hdc]
    rw [search_miles_dc h, search_elev_dc h, search_route_dc h, search_lodging_dc h,
      search_meals_dc h]
    rw [remaining_joinDD]
    obtain ⟨W, hW, hWws⟩ := dayItems_scrub h
    rw [hW]
    rw [digitsVal_natToStr]
    rcases optVal_cases ([] : Str) d.content with
      ⟨htc, -, -, hc0⟩ | ⟨c, hc, hcne, htc, -, -, hc0⟩
    · rw [hc0, List.append_nil]
      rw [pstrip_allws (allws_joinDD hWws)]
      simp only [expectedDay, htc]
      simp
    · rw [hc0]
      have props := tidyContent_props (tidyD_content h) hc hcne
      rw [pstrip_joinDD_content hWws props.2.2 hcne]
      simp only [expectedDay, htc]
      rw [if_neg hcne]

theorem parseDays_doc {tour : Tour} {days : List ItinDay} {pricing : List PricingEntry}
    {fees : List FeeEntry} {now : Str} (ht : tidyTour tour = true)
    (hd : days.all tidyDay = true) (hp : pricing.all tidyPricing = true)
    (hf : fees.all tidyFee = true) (hn : noLt now = true) :
    parseDays (generate_tour_document tour days pricing fees now) =
      days.map expectedDay := by
  simp only [parseDays]
  rw [scanDays_doc ht hd hp hf hn, daysOf_doc, List.map_map]
  have hmap : ∀ (ds : List ItinDay), ds.all tidyDay = true →
      ds.map ((fun p : Str × Str => parseDayContent p.1 p.2) ∘
        (fun d => (natToStr d.day_number,
          '\n' :: joinNL (dayInnerLines d) ++ ['\n']))) = ds.map expectedDay := by
    intro ds
    induction ds with
    | nil => intro _; rfl
    | cons d r ih =>
      intro hall
      simp only [List.all_cons, Bool.and_eq_true] at hall
      simp only [List.map_cons]
      rw [ih hall.2]
      rw [show ((fun p : Str × Str => parseDayContent p.1 p.2) ∘
        (fun d => (natToStr d.day_number,
          '\n' :: joinNL (dayInnerLines d) ++ ['\n']))) d =
        parseDayContent (natToStr d.day_number)
          ('\n' :: joinNL (dayInnerLines d) ++ ['\n']) from rfl]
      rw [parseDayContent_doc hall.1]
  exact hmap days hd

/-- C1 (corrected round-trip idempotence): for every tour record, itinerary
day list, pricing and fee rows, and render timestamp — all tidy: `<`-free
values, stripped editable values distinct from the rendered placeholders,
single-line labelled values, `*`/`|`-free single-line day sub-values —
parsing the document text produced by `generate_tour_document` restores
exactly the nine marker-wrapped editable fields (`short_description`,
`description`, `special_notes`, `meeting_time`, `meeting_location`,
`tour_rating`, `terrain`, `technical_difficulty`, `altitude`) with falsy
values and rendered placeholders excluded, and the itinerary days in order
with exactly their truthy sub-field values, independent of the timestamp.
`title` and `subtitle`, though members of `EDITABLE_FIELDS`, render without
markers and are never restored (see the counterexample). -/
theorem C1_roundtrip_editable {tour : Tour} {days : List ItinDay}
    {pricing : List PricingEntry} {fees : List FeeEntry} {now : Str}
    (ht : tidyTour tour = true) (hd : days.all tidyDay = true)
    (hp : pricing.all tidyPricing = true) (hf : fees.all tidyFee = true)
    (hn : noLt now = true) :
    parse_outline_document (generate_tour_document tour days pricing fees now) =
      { fields := expectedFields tour, itinerary_days := days.map expectedDay } := by
  simp only [parse_outline_document]
  rw [parseFields_doc ht hd hp hf hn, parseDays_doc ht hd hp hf hn]

theorem C1_witness :
    tidyTour
      { title := txt "Moab Classic",
        short_description := some (txt "A short ride."),
        description := some (txt "Full description."),
        special_notes := some (txt "Bring water."),
        meeting_time := some (txt "8:00 AM"),
        meeting_location := some (txt "Trailhead"),
        tour_rating := some (txt "Moderate"),
        terrain := some (txt "Slickrock"),
        technical_difficulty := some (txt "3 of 5"),
        altitude := some (txt "4000 ft") } = true ∧
    ([{ day_number := 1, miles := some (txt "12"),
        elevation := some (txt "800 ft"),
        trails_waypoints := some (txt "Porcupine Rim"),
        camp_lodging := some (txt "Camp A"),
        meals := some (txt "B, L, D"),
        content := some (txt "Great day.") }] : List ItinDay).all tidyDay = true ∧
    (([] : List PricingEntry)).all tidyPricing = true ∧
    (([] : List FeeEntry)).all tidyFee = true ∧
    noLt (txt "2024-01-01 10:00") = true ∧
    parse_outline_document (generate_tour_document
      { title := txt "Moab Classic",
        short_description := some (txt "A short ride."),
        description := some (txt "Full description."),
        special_notes := some (txt "Bring water."),
        meeting_time := some (txt "8:00 AM"),
        meeting_location := some (txt "Trailhead"),
        tour_rating := some (txt "Moderate"),
        terrain := some (txt "Slickrock"),
        technical_difficulty := some (txt "3 of 5"),
        altitude := some (txt "4000 ft") }
      [{ day_number := 1, miles := some (txt "12"),
         elevation := some (txt "800 ft"),
         trails_waypoints := some (txt "Porcupine Rim"),
         camp_lodging := some (txt "Camp A"),
         meals := some (txt "B, L, D"),
         content := some (txt "Great day.") }] [] [] (txt "2024-01-01 10:00")) =
      { fields := expectedFields
          { title := txt "Moab Classic",
            short_description := some (txt "A short ride."),
            description := some (txt "Full description."),
            special_notes := some (txt "Bring water."),
            meeting_time := some (txt "8:00 AM"),
            meeting_location := some (txt "Trailhead"),
            tour_rating := some (txt "Moderate"),
            terrain := some (txt "Slickrock"),
            technical_difficulty := some (txt "3 of 5"),
            altitude := some (txt "4000 ft") },
        itinerary_days :=
          ([{ day_number := 1, miles := some (txt "12"),
              elevation := some (txt "800 ft"),
              trails_waypoints := some (txt "Porcupine Rim"),
              camp_lodging := some (txt "Camp A"),
              meals := some (txt "B, L, D"),
              content := some (txt "Great day.") }] : List ItinDay).map
            expectedDay } :=
  ⟨by decide, by decide, by decide, by decide, by decide,
    C1_roundtrip_editable (by decide) (by decide) (by decide) (by decide) (by decide)⟩

end OutlineSync
